import Mathlib

/-!
# Breakout: grid store, brick bookkeeping, level persistence and swept collision scan

A shallow embedding of `breakout.cpp` (classes `Brick`, `Ball`, `Paddle`, `Level` and the
constants of namespace `Config`), followed by theorems about it.

Modelling conventions
* `float` is modelled by exact rational arithmetic (`ℚ`); the literals `0.0001f`, `0.90f`,
  `0.25f`, `0.01f` are the rationals `1/10000`, `9/10`, `1/4`, `1/100`.
* `int` is modelled by `Int`; every `int` the modelled code computes stays far inside the
  32-bit range, except the value read by stream extraction, whose range check is explicit.
* Member functions take the object as first argument and return the new object next to
  the C++ return value.
* Colours (`m_color`, `updateColor`) and console output only feed rendering and logs and
  are left out.
-/

namespace Breakout

/-! ## Constants of namespace `Config` -/

namespace Config

def BRICK_WIDTH : ℚ := 75
def BRICK_HEIGHT : ℚ := 25
def BRICK_SPACING : ℚ := 3
def GRID_COLS : Nat := 14
def GRID_ROWS : Nat := 8
def BALL_RADIUS : ℚ := 10
def PADDLE_WIDTH : ℚ := 130
def PADDLE_HEIGHT : ℚ := 20
def PADDLE_MAX_BOUNCE_ANGLE_DEG : ℚ := 75

def SCORE_YELLOW : Int := 1
def SCORE_GREEN : Int := 3
def SCORE_ORANGE : Int := 5
def SCORE_RED : Int := 7
def SCORE_INDESTRUCTIBLE : Int := -1

end Config

/-! ## `Vec2`, `Rect` -/

structure Vec2 where
  x : ℚ := 0
  y : ℚ := 0
deriving DecidableEq, Repr

structure Rect where
  x : ℚ := 0
  y : ℚ := 0
  width : ℚ := 0
  height : ℚ := 0
deriving DecidableEq, Repr

/-! ## `class Brick` -/

structure Brick where
  m_rect : Rect
  m_active : Bool
  m_scoreValue : Int
deriving DecidableEq, Repr

namespace Brick

/-- The default constructor `Brick()`: inactive, score 0, size `BRICK_WIDTH` x `BRICK_HEIGHT`. -/
def new : Brick :=
  { m_rect := { x := 0, y := 0, width := Config.BRICK_WIDTH, height := Config.BRICK_HEIGHT }
    m_active := false
    m_scoreValue := 0 }

/-- `Brick::init(x, y, scoreValue)`. -/
def init (b : Brick) (x y : ℚ) (scoreValue : Int) : Brick :=
  { m_rect := { b.m_rect with x := x, y := y }
    m_scoreValue := scoreValue
    m_active := decide (scoreValue ≠ 0) }

/-- `Brick::hit()`: the score awarded and the brick afterwards. -/
def hit (b : Brick) : Int × Brick :=
  if !b.m_active then (0, b)
  else if b.m_scoreValue = Config.SCORE_INDESTRUCTIBLE then (0, b)
  else
    let scoreAwarded := b.m_scoreValue
    (scoreAwarded, { b with m_active := false, m_scoreValue := 0 })

def isActive (b : Brick) : Bool := b.m_active

def isIndestructible (b : Brick) : Bool := decide (b.m_scoreValue = Config.SCORE_INDESTRUCTIBLE)

def getRect (b : Brick) : Rect := b.m_rect

def getScoreValue (b : Brick) : Int := b.m_scoreValue

/-- `Brick::setActive(active, indestructible)`. -/
def setActive (b : Brick) (active : Bool) (indestructible : Bool) : Brick :=
  if active && !b.m_active then
    let s : Int := if indestructible then Config.SCORE_INDESTRUCTIBLE else 0
    { b with m_scoreValue := s, m_active := decide (s ≠ 0) }
  else if !active && b.m_active then
    { b with m_scoreValue := 0, m_active := false }
  else b

/-- `Brick::setScoreValue(score)`: an invalid score only logs a warning. -/
def setScoreValue (b : Brick) (score : Int) : Brick :=
  let validScore : Bool :=
    if score = 0 ∨ score = Config.SCORE_INDESTRUCTIBLE then true
    else if score = Config.SCORE_YELLOW ∨ score = Config.SCORE_GREEN ∨
            score = Config.SCORE_ORANGE ∨ score = Config.SCORE_RED then true
    else false
  if validScore then { b with m_scoreValue := score, m_active := decide (score ≠ 0) }
  else b

end Brick

/-! ## `class Ball` (state and the pending-collision record) -/

structure Ball where
  m_pos : Vec2
  m_velocity : Vec2
  m_preservedvelocity : Vec2
  m_nextCollisionPos : Vec2
  m_hasPendingCollision : Bool
  m_radius : ℚ
  m_pendingCollisionNormal : Vec2
  m_pendingHitBrickIndex : Int
deriving DecidableEq, Repr

namespace Ball

/-- The constructor `Ball()`. -/
def new : Ball :=
  { m_pos := {}, m_velocity := {}, m_preservedvelocity := {}, m_nextCollisionPos := {}
    m_hasPendingCollision := false
    m_radius := Config.BALL_RADIUS
    m_pendingCollisionNormal := {}
    m_pendingHitBrickIndex := -1 }

def getPosition (b : Ball) : Vec2 := b.m_pos

def getRadius (b : Ball) : ℚ := b.m_radius

def getVelocity (b : Ball) : Vec2 := b.m_velocity

/-- `Ball::setNextCollision(collisionPos, normal, brickIndex)`. -/
def setNextCollision (b : Ball) (collisionPos normal : Vec2) (brickIndex : Int) : Ball :=
  { b with
    m_nextCollisionPos := collisionPos
    m_pendingCollisionNormal := normal
    m_pendingHitBrickIndex := brickIndex
    m_hasPendingCollision := true }

/-- `Ball::clearPendingCollision()`. -/
def clearPendingCollision (b : Ball) : Ball :=
  { b with m_hasPendingCollision := false, m_pendingHitBrickIndex := -1 }

/-- `Ball::init(startX, startY, initialVelX, initialVelY)`. -/
def init (b : Ball) (startX startY initialVelX initialVelY : ℚ) : Ball :=
  clearPendingCollision
    { b with m_pos := { x := startX, y := startY }
             m_velocity := { x := initialVelX, y := initialVelY } }

end Ball

/-! ## `class Paddle` -/

structure Paddle where
  m_rect : Rect
deriving DecidableEq, Repr

namespace Paddle

/-- The constructor `Paddle()`. -/
def new : Paddle :=
  { m_rect := { x := 0, y := 0, width := Config.PADDLE_WIDTH, height := Config.PADDLE_HEIGHT } }

/-- `Paddle::init(windowWidth, windowHeight)`. -/
def init (p : Paddle) (windowWidth windowHeight : ℚ) : Paddle :=
  { m_rect := { p.m_rect with x := (windowWidth - p.m_rect.width) / 2
                              y := windowHeight * (1 / 10) } }

/-- `Paddle::resetPosition(windowWidth)`. -/
def resetPosition (p : Paddle) (windowWidth : ℚ) : Paddle :=
  { m_rect := { p.m_rect with x := (windowWidth - p.m_rect.width) / 2 } }

/-- `Paddle::setPosition(x, y)`. -/
def setPosition (p : Paddle) (x y : ℚ) : Paddle :=
  { m_rect := { p.m_rect with x := x, y := y } }

def getRect (p : Paddle) : Rect := p.m_rect

end Paddle

/-! ## `Ball::update` and `Ball::checkCollisionPaddle` -/

/-- The macro `M_PI` as the source defines it. -/
def M_PI : ℚ := 3.14159265358979323846

/-- The functions of `<cmath>` that `Ball::checkCollisionPaddle` calls on `float`s; they are
not part of the program and are taken as given. -/
structure CMath where
  sqrt : ℚ → ℚ
  sin : ℚ → ℚ
  cos : ℚ → ℚ

/-- `std::clamp(v, lo, hi)` on numbers. -/
def clampTo {K : Type} [LinearOrderedField K] (v lo hi : K) : K :=
  if v < lo then lo else if hi < v then hi else v

/-- The velocity `Ball::checkCollisionPaddle` gives the ball on a hit (from `hitCenterOffset`
to the assignment of `m_velocity`), over any ordered field of numbers: `sqrt`, `sin`, `cos`
stand for the library functions, `pi` for `M_PI`, `windowWidth` for `Config::WINDOW_WIDTH`. -/
def paddleBounceVelocity {K : Type} [LinearOrderedField K] (sqrt sin cos : K → K)
    (pi windowWidth : K) (ballX paddleX paddleWidth vx vy : K) : K × K :=
  let hitCenterOffset := ballX - (paddleX + paddleWidth / 2)
  let normalizedOffset := clampTo (hitCenterOffset / (paddleWidth / 2)) (-1) 1
  let speed0 := sqrt (vx * vx + vy * vy)
  let minSpeed := windowWidth / 4
  let speed := if speed0 < minSpeed then minSpeed else speed0
  let maxAngleRad := 75 * (pi / 180)
  let bounceAngle := normalizedOffset * maxAngleRad
  (speed * sin bounceAngle, |speed * cos bounceAngle|)

namespace Ball

/-- The first part of `Ball::update`: the tentative move and, if a collision is pending and
its point has been reached or passed, its resolution. Yields `brickHitThisFrame` and the
ball. -/
def moveAndResolve (b : Ball) (dt : ℚ) : Int × Ball :=
  let oldPos := b.m_pos
  let pos : Vec2 := { x := b.m_pos.x + b.m_velocity.x * dt, y := b.m_pos.y + b.m_velocity.y * dt }
  if b.m_hasPendingCollision then
    let travelVec : Vec2 := { x := pos.x - oldPos.x, y := pos.y - oldPos.y }
    let targetVec : Vec2 :=
      { x := b.m_nextCollisionPos.x - oldPos.x, y := b.m_nextCollisionPos.y - oldPos.y }
    let travelLenSq := travelVec.x * travelVec.x + travelVec.y * travelVec.y
    let targetLenSq := targetVec.x * targetVec.x + targetVec.y * targetVec.y
    let epsilonSq : ℚ := 1 / 100 * (1 / 100)
    let reachedTargetDistance : Bool :=
      decide (travelLenSq ≥ targetLenSq - epsilonSq) && decide (targetLenSq > epsilonSq)
    let vecFromNewPosToCollisionPoint : Vec2 :=
      { x := b.m_nextCollisionPos.x - pos.x, y := b.m_nextCollisionPos.y - pos.y }
    let dotWithVelocity := vecFromNewPosToCollisionPoint.x * b.m_velocity.x +
      vecFromNewPosToCollisionPoint.y * b.m_velocity.y
    let passedTargetPlane : Bool :=
      decide (dotWithVelocity ≤ 0) && decide (targetLenSq > epsilonSq)
    if reachedTargetDistance || passedTargetPlane then
      let brickHitThisFrame := b.m_pendingHitBrickIndex
      let dot_product := b.m_velocity.x * b.m_pendingCollisionNormal.x +
        b.m_velocity.y * b.m_pendingCollisionNormal.y
      let velocity : Vec2 :=
        { x := b.m_velocity.x - 2 * dot_product * b.m_pendingCollisionNormal.x
          y := b.m_velocity.y - 2 * dot_product * b.m_pendingCollisionNormal.y }
      let safetyOffset : ℚ := 1 / 100
      (brickHitThisFrame,
       clearPendingCollision
        { b with
          m_pos := { x := b.m_nextCollisionPos.x + b.m_pendingCollisionNormal.x * safetyOffset
                     y := b.m_nextCollisionPos.y + b.m_pendingCollisionNormal.y * safetyOffset }
          m_velocity := velocity })
    else (-1, { b with m_pos := pos })
  else (-1, { b with m_pos := pos })

/-- The second part of `Ball::update`: the test against `windowHeight`. -/
def boundTop (b : Ball) (windowHeight : ℚ) : Ball :=
  if b.m_pos.y + b.m_radius > windowHeight then
    let b1 := { b with m_pos := { b.m_pos with y := windowHeight - b.m_radius } }
    if b1.m_velocity.y > 0 then
      clearPendingCollision { b1 with m_velocity := { b1.m_velocity with y := b1.m_velocity.y * -1 } }
    else b1
  else b

/-- The third part of `Ball::update`: the tests against `gridMinX` and `gridMaxX`. -/
def boundSides (b : Ball) (gridMinX gridMaxX : ℚ) : Ball :=
  if b.m_pos.x - b.m_radius < gridMinX then
    let b1 := { b with m_pos := { b.m_pos with x := gridMinX + b.m_radius } }
    if b1.m_velocity.x < 0 then
      clearPendingCollision { b1 with m_velocity := { b1.m_velocity with x := b1.m_velocity.x * -1 } }
    else b1
  else if b.m_pos.x + b.m_radius > gridMaxX then
    let b1 := { b with m_pos := { b.m_pos with x := gridMaxX - b.m_radius } }
    if b1.m_velocity.x > 0 then
      clearPendingCollision { b1 with m_velocity := { b1.m_velocity with x := b1.m_velocity.x * -1 } }
    else b1
  else b

/-- `Ball::update(dt, windowWidth, windowHeight, gridMinX, gridMaxX)`: the index of the brick
hit (or -1) and the ball afterwards. -/
def update (b : Ball) (dt windowWidth windowHeight gridMinX gridMaxX : ℚ) : Int × Ball :=
  let r := b.moveAndResolve dt
  (r.1, (r.2.boundTop windowHeight).boundSides gridMinX gridMaxX)

/-- The test of `Ball::checkCollisionPaddle`: whether a collision with the paddle is
detected. -/
def paddleCollisionDetected (b : Ball) (paddle : Paddle) (dt : ℚ) : Bool :=
  let paddleRect := paddle.getRect
  let paddleTopY := paddleRect.y + paddleRect.height
  let paddleBottomY := paddleRect.y
  let ballCurrentBottomY := b.m_pos.y - b.m_radius
  let ballCurrentTopY := b.m_pos.y + b.m_radius
  let ballNextBottomY := (b.m_pos.y + b.m_velocity.y * dt) - b.m_radius
  let isMovingDown : Bool := decide (b.m_velocity.y < 0)
  let horizontalOverlap : Bool :=
    decide (b.m_pos.x + b.m_radius > paddleRect.x) &&
      decide (b.m_pos.x - b.m_radius < paddleRect.x + paddleRect.width)
  if isMovingDown && horizontalOverlap then
    if ballCurrentBottomY ≥ paddleTopY ∧ ballNextBottomY < paddleTopY then true
    else if ballCurrentBottomY < paddleTopY ∧ ballCurrentBottomY ≥ paddleBottomY ∧
        ballCurrentTopY > paddleTopY then true
    else false
  else false

/-- `Ball::checkCollisionPaddle(paddle, dt)`: whether the ball hit the paddle, and the ball
afterwards. `cmath` gives the library functions and `windowWidth` the value of the global
`Config::WINDOW_WIDTH`. -/
def checkCollisionPaddle (b : Ball) (cmath : CMath) (windowWidth : Int) (paddle : Paddle)
    (dt : ℚ) : Bool × Ball :=
  if b.paddleCollisionDetected paddle dt then
    let paddleRect := paddle.getRect
    let paddleTopY := paddleRect.y + paddleRect.height
    let v := paddleBounceVelocity cmath.sqrt cmath.sin cmath.cos M_PI (windowWidth : ℚ)
      b.m_pos.x paddleRect.x paddleRect.width b.m_velocity.x b.m_velocity.y
    (true,
     clearPendingCollision
       { b with m_pos := { b.m_pos with y := paddleTopY + b.m_radius }
                m_velocity := { x := v.1, y := v.2 } })
  else (false, b)

end Ball

/-! ## Files and stream extraction

The level file is read through `std::ifstream` and written through `std::ofstream`.
What the code observes of the file system is whether a path can be opened for reading
(and then its characters) and whether it can be opened for writing. -/

structure FileSystem where
  /-- The characters of the file at a path, `none` when an `ifstream` on it does not open. -/
  contents : String → Option (List Char)
  /-- Whether an `ofstream` on the path opens. -/
  writable : String → Bool

/-- An `ofstream` opened on `path` (truncating it), filled with `text` and closed. -/
def FileSystem.write (fs : FileSystem) (path : String) (text : List Char) : FileSystem :=
  { fs with contents := fun p => if p = path then some text else fs.contents p }

/-- The input stream: the characters not yet consumed and the (sticky) fail state. -/
structure IStream where
  buf : List Char
  failbit : Bool
deriving DecidableEq, Repr

/-- The characters `std::isspace` accepts in the default locale. -/
def isSpace (c : Char) : Bool :=
  c = ' ' || c = '\t' || c = '\n' || c = '\x0b' || c = '\x0c' || c = '\r'

def INT_MIN : Int := -2147483648

def INT_MAX : Int := 2147483647

/-- The number a run of decimal digits denotes. -/
def digitsValue (ds : List Char) : Nat :=
  ds.foldl (fun n d => 10 * n + (d.toNat - 48)) 0

/-- The optional sign in front of a number: whether it is a minus, and what follows it. -/
def splitSign : List Char → Bool × List Char
  | '-' :: t => (true, t)
  | '+' :: t => (false, t)
  | rest => (false, rest)

/-- Formatted extraction `stream >> scoreValue` of an `int` (decimal base): a stream already
in fail state stays so and yields nothing; otherwise leading whitespace is skipped, an
optional sign and the following digits are consumed; no digit, or a value outside the range
of `int`, sets the fail state. -/
def IStream.extractInt (s : IStream) : Option Int × IStream :=
  if s.failbit then (none, s)
  else
    let rest := s.buf.dropWhile isSpace
    let signed : Bool × List Char := splitSign rest
    let ds := signed.2.takeWhile Char.isDigit
    let rest2 := signed.2.dropWhile Char.isDigit
    if ds = [] then (none, { buf := rest2, failbit := true })
    else
      let v : Int := if signed.1 then -(digitsValue ds : Int) else (digitsValue ds : Int)
      if v < INT_MIN ∨ INT_MAX < v then (none, { buf := rest2, failbit := true })
      else (some v, { buf := rest2, failbit := false })

/-- Formatted insertion `stream << value` of an `int`: its decimal rendering. -/
def renderInt (v : Int) : List Char :=
  if v < 0 then '-' :: Nat.toDigits 10 v.natAbs else Nat.toDigits 10 v.toNat

/-! ## `class Level` -/

/-- The array `int m_gridState[GRID_ROWS][GRID_COLS]`, indexed `[logicalRow][col]`. Only the
cells with `row < 8` and `col < 14` exist; the model never reads or writes another one. -/
abbrev Grid := Nat → Nat → Int

/-- The assignment `grid[r][c] = v`. -/
def Grid.set (g : Grid) (r c : Nat) (v : Int) : Grid :=
  fun r1 c1 => if r1 = r ∧ c1 = c then v else g r1 c1

structure Level where
  m_bricks : List Brick
  m_gridState : Grid
  m_activeBrickCount : Int
  m_editorSelectedRow : Int
  m_editorSelectedCol : Int
  m_gridTotalWidth : ℚ
  m_gridTotalHeight : ℚ
  m_gridStartX : ℚ
  m_gridStartY : ℚ

/-- The loop nest `for (r = 0; r < GRID_ROWS; ++r) for (c = 0; c < GRID_COLS; ++c) body`. -/
@[irreducible] def forGrid {σ : Type} (body : Nat → Nat → σ → σ) (s : σ) : σ :=
  (List.range Config.GRID_ROWS).foldl
    (fun s r => (List.range Config.GRID_COLS).foldl (fun s c => body r c s) s) s

/-- The test the code repeats wherever it validates a score code. -/
def validScoreCode (scoreValue : Int) : Bool :=
  scoreValue = 0 || scoreValue = Config.SCORE_INDESTRUCTIBLE ||
  scoreValue = Config.SCORE_YELLOW || scoreValue = Config.SCORE_GREEN ||
  scoreValue = Config.SCORE_ORANGE || scoreValue = Config.SCORE_RED

namespace Level

/-- The constructor `Level()`: 112 default bricks and an all-zero grid. -/
def new : Level :=
  { m_bricks := List.replicate (Config.GRID_ROWS * Config.GRID_COLS) Brick.new
    m_gridState := fun _ _ => 0
    m_activeBrickCount := 0
    m_editorSelectedRow := -1
    m_editorSelectedCol := -1
    m_gridTotalWidth := 0
    m_gridTotalHeight := 0
    m_gridStartX := 0
    m_gridStartY := 0 }

/-- The characters `Level::save` sends to the stream. -/
def saveText (g : Grid) : List Char :=
  (List.range Config.GRID_ROWS).foldl
    (fun out r =>
      (List.range Config.GRID_COLS).foldl
        (fun out c =>
          out ++ renderInt (g r c) ++ (if c = Config.GRID_COLS - 1 then [] else [' ']))
        out ++ ['\n'])
    []

/-- `Level::save(filename)`: `false` and no write when the file does not open. -/
def save (L : Level) (fs : FileSystem) (filename : String) : Bool × FileSystem :=
  if !fs.writable filename then (false, fs)
  else (true, fs.write filename (saveText L.m_gridState))

/-- The body of the loop nest that builds the default layout in `Level::load`. -/
def defaultLayoutCell (r c : Nat) (g : Grid) : Grid :=
  if r < 2 then g.set r c Config.SCORE_RED
  else if r < 4 then g.set r c Config.SCORE_ORANGE
  else if r < 6 then g.set r c Config.SCORE_GREEN
  else if r < 8 then g.set r c Config.SCORE_YELLOW
  else g.set r c 0

/-- The locals of the reading loop of `Level::load`. -/
structure LoadState where
  levelFile : IStream
  grid : Grid
  success : Bool

/-- The body of the reading loop of `Level::load`. -/
def loadCell (r c : Nat) (st : LoadState) : LoadState :=
  match st.levelFile.extractInt with
  | (none, s) => { levelFile := s, grid := st.grid.set r c 0, success := false }
  | (some scoreValue, s) =>
    let valid := validScoreCode scoreValue
    { levelFile := s
      grid := st.grid.set r c (if valid then scoreValue else 0)
      success := if !valid && scoreValue != 0 then false else st.success }

/-- `Level::load(filename)`: the return value, the level and the file system afterwards. -/
def load (L : Level) (fs : FileSystem) (filename : String) : Bool × Level × FileSystem :=
  match fs.contents filename with
  | none =>
    let L1 := { L with m_gridState := forGrid defaultLayoutCell L.m_gridState }
    (true, L1, (L1.save fs filename).2)
  | some text =>
    let st := forGrid loadCell { levelFile := { buf := text, failbit := false }
                                 grid := L.m_gridState, success := true }
    (st.success,
     { L with m_gridState := st.grid, m_editorSelectedRow := -1, m_editorSelectedCol := -1 },
     fs)

/-- `Level::calculateGridDimensions(windowWidth, windowHeight)`. -/
def calculateGridDimensions (L : Level) (windowWidth windowHeight : ℚ) : Level :=
  let totalWidth : ℚ :=
    Config.GRID_COLS * (Config.BRICK_WIDTH + Config.BRICK_SPACING) - Config.BRICK_SPACING
  let totalHeight : ℚ :=
    Config.GRID_ROWS * (Config.BRICK_HEIGHT + Config.BRICK_SPACING) - Config.BRICK_SPACING
  let startY : ℚ := windowHeight * (9 / 10) - totalHeight
  { L with
    m_gridTotalWidth := totalWidth
    m_gridTotalHeight := totalHeight
    m_gridStartX := (windowWidth - totalWidth) / 2
    m_gridStartY := if startY < windowHeight * (1 / 4) then windowHeight * (1 / 4) else startY }

/-- The body of the loop nest of `Level::setupBricks`; the state is the level together with
the local `brickIndex`. Indexing `m_bricks` past its end does not occur (the vector always has
112 elements); the model leaves the vector as it is there. -/
def setupBricksCell (r c : Nat) (st : Level × Nat) : Level × Nat :=
  let L := st.1
  let brickIndex := st.2
  match L.m_bricks[brickIndex]? with
  | none => (L, brickIndex + 1)
  | some brick0 =>
    let scoreValue := L.m_gridState r c
    let visualRow : Nat := Config.GRID_ROWS - 1 - r
    let brickX : ℚ := L.m_gridStartX + c * (Config.BRICK_WIDTH + Config.BRICK_SPACING)
    let brickY : ℚ := L.m_gridStartY + visualRow * (Config.BRICK_HEIGHT + Config.BRICK_SPACING)
    let brick := brick0.init brickX brickY scoreValue
    let count := if brick.isActive && !brick.isIndestructible
                 then L.m_activeBrickCount + 1 else L.m_activeBrickCount
    ({ L with m_bricks := L.m_bricks.set brickIndex brick, m_activeBrickCount := count },
     brickIndex + 1)

/-- `Level::setupBricks(windowWidth, windowHeight)`. -/
def setupBricks (L : Level) (windowWidth windowHeight : ℚ) : Level :=
  let L1 := L.calculateGridDimensions windowWidth windowHeight
  (forGrid setupBricksCell ({ L1 with m_activeBrickCount := 0 }, 0)).1

/-- `Level::processBrickHit(brickIndex)`: the score awarded and the level afterwards. -/
def processBrickHit (L : Level) (brickIndex : Int) : Int × Level :=
  if brickIndex < 0 ∨ (L.m_bricks.length : Int) ≤ brickIndex then (0, L)
  else
    match L.m_bricks[brickIndex.toNat]? with
    | none => (0, L)
    | some brick =>
      if !brick.isActive then (0, L)
      else
        let r := brick.hit
        let scoreAwarded := r.1
        let brick1 := r.2
        let count := if scoreAwarded > 0 ∧ !brick1.isIndestructible
                     then max 0 (L.m_activeBrickCount - 1) else L.m_activeBrickCount
        (scoreAwarded,
         { L with m_bricks := L.m_bricks.set brickIndex.toNat brick1, m_activeBrickCount := count })

def getActiveBrickCount (L : Level) : Int := L.m_activeBrickCount

def areAllBricksCleared (L : Level) : Bool := decide (L.m_activeBrickCount ≤ 0)

/-- `Level::hasEditorSelection()`. -/
def hasEditorSelection (L : Level) : Bool :=
  decide (L.m_editorSelectedRow ≥ 0) && decide (L.m_editorSelectedRow < Config.GRID_ROWS) &&
  decide (L.m_editorSelectedCol ≥ 0) && decide (L.m_editorSelectedCol < Config.GRID_COLS)

/-- `static_cast<int>` applied to a `float`: truncation toward zero. -/
def truncToInt (q : ℚ) : Int := if 0 ≤ q then Int.floor q else Int.ceil q

/-- `std::clamp(v, lo, hi)` on `int`. -/
def clampInt (v lo hi : Int) : Int := if v < lo then lo else if hi < v then hi else v

/-- The shared tail of the deselecting branches of `handleEditorLeftClickSelection`. -/
def deselect (L : Level) : Int × Level :=
  if L.m_editorSelectedRow ≠ -1 ∨ L.m_editorSelectedCol ≠ -1 then
    (1, { L with m_editorSelectedRow := -1, m_editorSelectedCol := -1 })
  else (0, L)

/-- `Level::handleEditorLeftClickSelection(mouseX, mouseY)`. -/
def handleEditorLeftClickSelection (L : Level) (mouseX mouseY : ℚ) : Int × Level :=
  if mouseX < L.m_gridStartX ∨ mouseX > L.m_gridStartX + L.m_gridTotalWidth ∨
     mouseY < L.m_gridStartY ∨ mouseY > L.m_gridStartY + L.m_gridTotalHeight then
    L.deselect
  else
    let cellWidthWithSpacing : ℚ := Config.BRICK_WIDTH + Config.BRICK_SPACING
    let cellHeightWithSpacing : ℚ := Config.BRICK_HEIGHT + Config.BRICK_SPACING
    let visualCol0 : Int := truncToInt ((mouseX - L.m_gridStartX) / cellWidthWithSpacing)
    let visualRow0 : Int := truncToInt ((mouseY - L.m_gridStartY) / cellHeightWithSpacing)
    let visualCol : Int := clampInt visualCol0 0 ((Config.GRID_COLS : Int) - 1)
    let visualRow : Int := clampInt visualRow0 0 ((Config.GRID_ROWS : Int) - 1)
    let logicalRow : Int := (Config.GRID_ROWS : Int) - 1 - visualRow
    let logicalCol : Int := visualCol
    let brickX : ℚ := L.m_gridStartX + logicalCol * cellWidthWithSpacing
    let brickY : ℚ := L.m_gridStartY + visualRow * cellHeightWithSpacing
    if mouseX ≥ brickX ∧ mouseX ≤ brickX + Config.BRICK_WIDTH ∧
       mouseY ≥ brickY ∧ mouseY ≤ brickY + Config.BRICK_HEIGHT then
      if L.m_editorSelectedRow ≠ logicalRow ∨ L.m_editorSelectedCol ≠ logicalCol then
        (1, { L with m_editorSelectedRow := logicalRow, m_editorSelectedCol := logicalCol })
      else (0, L)
    else L.deselect

/-- `Level::handleEditorRightClickPlace(isShiftDown)`. -/
def handleEditorRightClickPlace (L : Level) (isShiftDown : Bool) : Bool × Level :=
  if !L.hasEditorSelection then (false, L)
  else
    let row := L.m_editorSelectedRow
    let col := L.m_editorSelectedCol
    let scoreValue : Int :=
      if isShiftDown then Config.SCORE_INDESTRUCTIBLE
      else if row < 2 then Config.SCORE_RED
      else if row < 4 then Config.SCORE_ORANGE
      else if row < 6 then Config.SCORE_GREEN
      else Config.SCORE_YELLOW
    (true, { L with m_gridState := L.m_gridState.set row.toNat col.toNat scoreValue })

/-- `Level::clearSelectedBrick()`. -/
def clearSelectedBrick (L : Level) : Level :=
  if L.hasEditorSelection then
    { L with m_gridState :=
        L.m_gridState.set L.m_editorSelectedRow.toNat L.m_editorSelectedCol.toNat 0 }
  else L

/-- `Level::setGridState(row, col, scoreValue)`. -/
def setGridState (L : Level) (row col scoreValue : Int) : Level :=
  if row ≥ 0 ∧ row < Config.GRID_ROWS ∧ col ≥ 0 ∧ col < Config.GRID_COLS then
    if validScoreCode scoreValue then
      { L with m_gridState := L.m_gridState.set row.toNat col.toNat scoreValue }
    else
      { L with m_gridState := L.m_gridState.set row.toNat col.toNat 0 }
  else L

/-- The locals of `Level::checkCollisions` that survive an iteration of its loop. -/
structure ScanState where
  closestTime : ℚ
  closestBrickIndex : Int
  closestNormal : Vec2
  collisionPos : Vec2
deriving DecidableEq, Repr

/-- The entry and exit times of one axis in `Level::checkCollisions`: `lo`, `hi` are the
bounds of the expanded rectangle, `p` the ball coordinate and `v` the velocity component;
`none` is the `continue` of the branch for a (nearly) zero component. -/
def slabTimes (lo hi p v : ℚ) : Option (ℚ × ℚ) :=
  if |v| > 1 / 10000 then
    let invVel := 1 / v
    let tMin := (lo - p) * invVel
    let tMax := (hi - p) * invVel
    if tMin > tMax then some (tMax, tMin) else some (tMin, tMax)
  else if p < lo ∨ p > hi then none
  else some (0, 1)

/-- One iteration of the loop of `Level::checkCollisions`, for brick `i`. -/
def scanBrick (ballPos : Vec2) (ballR : ℚ) (ballVel : Vec2) (i : Nat) (brick : Brick)
    (st : ScanState) : ScanState :=
  if !brick.isActive then st
  else
    let bRect := brick.getRect
    let left := bRect.x - ballR
    let right := bRect.x + bRect.width + ballR
    let bottom := bRect.y - ballR
    let top := bRect.y + bRect.height + ballR
    match slabTimes left right ballPos.x ballVel.x with
    | none => st
    | some (txMin, txMax) =>
      match slabTimes bottom top ballPos.y ballVel.y with
      | none => st
      | some (tyMin, tyMax) =>
        let tMin := max txMin tyMin
        let tMax := min txMax tyMax
        if tMin > tMax ∨ tMax < 0 ∨ tMin > 1 then st
        else if tMin < st.closestTime then
          { closestTime := tMin
            closestBrickIndex := i
            collisionPos := { x := ballPos.x + ballVel.x * tMin, y := ballPos.y + ballVel.y * tMin }
            closestNormal :=
              if txMin > tyMin then { x := if ballVel.x > 0 then -1 else 1, y := 0 }
              else { x := 0, y := if ballVel.y > 0 then -1 else 1 } }
        else st

/-- The locals of `Level::checkCollisions` before its loop. -/
def scanInit : ScanState :=
  { closestTime := 1, closestBrickIndex := -1, closestNormal := {}, collisionPos := {} }

/-- The loop of `Level::checkCollisions` run over the bricks `0 .. n-1`. -/
def scanUpTo (L : Level) (ball : Ball) (n : Nat) : ScanState :=
  (List.range n).foldl
    (fun st i =>
      match L.m_bricks[i]? with
      | some brick => scanBrick ball.getPosition ball.getRadius ball.getVelocity i brick st
      | none => st)
    scanInit

/-- The locals of `Level::checkCollisions` after its loop. -/
def scan (L : Level) (ball : Ball) : ScanState := L.scanUpTo ball L.m_bricks.length

/-- `Level::checkCollisions(ball)`: the level (which it does not write) and the ball. -/
def checkCollisions (L : Level) (ball : Ball) : Level × Ball :=
  let st := L.scan ball
  if st.closestBrickIndex ≥ 0 then
    (L, ball.setNextCollision st.collisionPos st.closestNormal st.closestBrickIndex)
  else (L, ball)

end Level

/-- The level states a program can reach through the public interface of `Level`. -/
inductive Reachable : Level → Prop
  | new : Reachable Level.new
  | load (L : Level) (fs : FileSystem) (filename : String) :
      Reachable L → Reachable (L.load fs filename).2.1
  | calculateGridDimensions (L : Level) (w h : ℚ) :
      Reachable L → Reachable (L.calculateGridDimensions w h)
  | setupBricks (L : Level) (w h : ℚ) : Reachable L → Reachable (L.setupBricks w h)
  | checkCollisions (L : Level) (ball : Ball) : Reachable L → Reachable (L.checkCollisions ball).1
  | processBrickHit (L : Level) (brickIndex : Int) :
      Reachable L → Reachable (L.processBrickHit brickIndex).2
  | handleEditorLeftClickSelection (L : Level) (mouseX mouseY : ℚ) :
      Reachable L → Reachable (L.handleEditorLeftClickSelection mouseX mouseY).2
  | handleEditorRightClickPlace (L : Level) (isShiftDown : Bool) :
      Reachable L → Reachable (L.handleEditorRightClickPlace isShiftDown).2
  | clearSelectedBrick (L : Level) : Reachable L → Reachable L.clearSelectedBrick
  | setGridState (L : Level) (row col scoreValue : Int) :
      Reachable L → Reachable (L.setGridState row col scoreValue)

/-! ## Notions the statements use -/

/-- A hit that must have no effect: index out of range, or brick inactive, or brick
indestructible. -/
def Level.hitIsVoid (L : Level) (brickIndex : Int) : Prop :=
  brickIndex < 0 ∨ (L.m_bricks.length : Int) ≤ brickIndex ∨
    ∃ b, L.m_bricks[brickIndex.toNat]? = some b ∧
      (b.m_active = false ∨ b.m_scoreValue = Config.SCORE_INDESTRUCTIBLE)

/-- A brick that the active-brick counter counts: active and not indestructible. -/
def Brick.isLive (b : Brick) : Bool := b.isActive && !b.isIndestructible

/-- The number of bricks of the level that are active and not indestructible. -/
def Level.liveBrickCount (L : Level) : Nat := L.m_bricks.countP Brick.isLive

/-- The brick `setupBricks` makes of brick `b` for the cell in logical row `r`, column `c`. -/
def Level.brickForCell (L : Level) (r c : Nat) (b : Brick) : Brick :=
  b.init (L.m_gridStartX + c * (Config.BRICK_WIDTH + Config.BRICK_SPACING))
    (L.m_gridStartY + ((Config.GRID_ROWS - 1 - r : Nat) : ℚ) *
      (Config.BRICK_HEIGHT + Config.BRICK_SPACING))
    (L.m_gridState r c)

/-- What every brick of a reachable level satisfies. -/
def Brick.WellFormed (b : Brick) : Prop :=
  validScoreCode b.m_scoreValue = true ∧ b.m_active = decide (b.m_scoreValue ≠ 0) ∧
    b.m_rect.width = Config.BRICK_WIDTH ∧ b.m_rect.height = Config.BRICK_HEIGHT

/-- The invariant of reachable levels. -/
structure Level.Inv (L : Level) : Prop where
  length : L.m_bricks.length = 112
  grid : ∀ r c, validScoreCode (L.m_gridState r c) = true
  bricks : ∀ b ∈ L.m_bricks, b.WellFormed
  count : L.m_activeBrickCount = (L.liveBrickCount : Int)

/-- The state of the loop nest of `setupBricks` after `k` cells, when started on `L1`
(dimensions computed, counter reset). -/
structure SetupInv (L1 : Level) (k : Nat) (st : Level × Nat) : Prop where
  index : st.2 = k
  grid : st.1.m_gridState = L1.m_gridState
  startX : st.1.m_gridStartX = L1.m_gridStartX
  startY : st.1.m_gridStartY = L1.m_gridStartY
  totalWidth : st.1.m_gridTotalWidth = L1.m_gridTotalWidth
  totalHeight : st.1.m_gridTotalHeight = L1.m_gridTotalHeight
  selectedRow : st.1.m_editorSelectedRow = L1.m_editorSelectedRow
  selectedCol : st.1.m_editorSelectedCol = L1.m_editorSelectedCol
  length : st.1.m_bricks.length = L1.m_bricks.length
  done : ∀ j, j < k →
    st.1.m_bricks[j]? = (L1.m_bricks[j]?).map (L1.brickForCell (j / 14) (j % 14))
  todo : ∀ j, k ≤ j → st.1.m_bricks[j]? = L1.m_bricks[j]?
  count : st.1.m_activeBrickCount = (((st.1.m_bricks.take k).countP Brick.isLive : Nat) : Int)

/-- The codes of destructible bricks: 1, 3, 5 and 7. -/
def isDestructibleCode (v : Int) : Bool :=
  v = Config.SCORE_YELLOW || v = Config.SCORE_GREEN || v = Config.SCORE_ORANGE ||
    v = Config.SCORE_RED

/-- The number of cells of the 8 x 14 grid that hold the code of a destructible brick. -/
def destructibleCellCount (g : Grid) : Nat :=
  ((List.range Config.GRID_ROWS).map fun r =>
    (List.range Config.GRID_COLS).countP fun c => isDestructibleCode (g r c)).sum

/-- The calls `processBrickHit(i)` for the indices of a list, in turn. -/
def Level.processBrickHits (L : Level) (idxs : List Int) : Level :=
  idxs.foldl (fun L i => (L.processBrickHit i).2) L

/-- Line `r` of a level file as the format prescribes it: the decimal renderings of the 14
codes of logical row `r`, in column order, separated by one space, then a newline. -/
def rowLine (g : Grid) (r : Nat) : List Char :=
  List.intercalate [' '] ((List.range Config.GRID_COLS).map fun c => renderInt (g r c)) ++ ['\n']

/-- The text of a level file as the format prescribes it: the lines of rows 0 to 7. -/
def formatText (g : Grid) : List Char :=
  ((List.range Config.GRID_ROWS).map (rowLine g)).flatten

/-- The rendering of cell number `k` (row-major) with the separator that follows it. -/
def cellText (g : Grid) (k : Nat) : List Char :=
  renderInt (g (k / 14) (k % 14)) ++ [if k % 14 = 13 then '\n' else ' ']

/-- The renderings, with separators, of the `n` cells from number `s` on. -/
def textFrom (g : Grid) (s n : Nat) : List Char :=
  (List.range' s n).flatMap (cellText g)

/-- The six codes a cell may hold. -/
def GridValid (g : Grid) : Prop := ∀ r c, validScoreCode (g r c) = true

/-- All characters of `ws` are whitespace. -/
def IsWhitespace (ws : List Char) : Prop := ∀ c ∈ ws, isSpace c = true

/-- The token `t` is a decimal integer literal that denotes `v`: an optional sign followed
by at least one digit. -/
def IsIntLiteral (t : List Char) (v : Int) : Prop :=
  ∃ ds : List Char, ds ≠ [] ∧ (∀ c ∈ ds, c.isDigit = true) ∧
    ((t = ds ∧ v = (digitsValue ds : Int)) ∨ (t = '+' :: ds ∧ v = (digitsValue ds : Int)) ∨
      (t = '-' :: ds ∧ v = -(digitsValue ds : Int)))

/-- The tokens `tok s .. tok (s+n-1)`, token `i` preceded by the whitespace `ws i`. -/
def tokensFrom (ws tok : Nat → List Char) (s n : Nat) : List Char :=
  (List.range' s n).flatMap fun i => ws i ++ tok i

/-- The text consists of the `n` whitespace-separated tokens `tok 0 .. tok (n-1)` followed by
`tail`, which (to end the last token) is empty or begins with whitespace. -/
structure IsTokenText (text : List Char) (n : Nat) (ws tok : Nat → List Char)
    (tail : List Char) : Prop where
  text_eq : text = tokensFrom ws tok 0 n ++ tail
  ws_space : ∀ i, i < n → IsWhitespace (ws i)
  ws_sep : ∀ i, 0 < i → i < n → ws i ≠ []
  tail_sep : 0 < n → tail = [] ∨ ∃ c rest, tail = c :: rest ∧ isSpace c = true

/-- What may follow a token: the end of the text or a character that is not a digit. -/
def EndsToken (rest : List Char) : Prop := ∀ c ∈ rest.head?, Char.isDigit c = false

/-- The code `load` stores for a value it has read. -/
def coerceCode (v : Int) : Int := if validScoreCode v then v else 0

/-- The state of the reading loop of `load` after `k` cells, on a text of `n` integer
tokens with values `v`, started on the grid `g0`: while tokens remain the stream stands
before token `k`; once they are used up it is in fail state. -/
structure LoadInv (ws tok : Nat → List Char) (v : Nat → Int) (n : Nat) (tail : List Char)
    (g0 : Grid) (k : Nat) (st : Level.LoadState) : Prop where
  reading : k ≤ n →
    st.levelFile = { buf := tokensFrom ws tok k (n - k) ++ tail, failbit := false } ∧
      st.success = (List.range k).all fun i => validScoreCode (v i)
  failed : n < k → st.levelFile.failbit = true ∧ st.success = false
  cells : ∀ r c, st.grid r c =
    if c < 14 ∧ 14 * r + c < k then (if 14 * r + c < n then coerceCode (v (14 * r + c)) else 0)
    else g0 r c

/-- The value extraction yields once sign and digits are known. -/
def extractResult (neg : Bool) (ds rest : List Char) : Option Int × IStream :=
  if (if neg then -(digitsValue ds : Int) else (digitsValue ds : Int)) < INT_MIN ∨
      INT_MAX < (if neg then -(digitsValue ds : Int) else (digitsValue ds : Int))
  then (none, { buf := rest, failbit := true })
  else (some (if neg then -(digitsValue ds : Int) else (digitsValue ds : Int)),
        { buf := rest, failbit := false })

/-- The whitespace in front of token `i` of the text `save` writes: nothing before the
first token, then the separator that follows the preceding cell. -/
def savedSeparator (i : Nat) : List Char :=
  if i = 0 then [] else [if (i - 1) % 14 = 13 then '\n' else ' ']

/-- The default layout: the tier score of a logical row. -/
def tierScore (r : Nat) : Int :=
  if r < 2 then Config.SCORE_RED
  else if r < 4 then Config.SCORE_ORANGE
  else if r < 6 then Config.SCORE_GREEN
  else Config.SCORE_YELLOW

/-- The slab intervals of a brick against the rectangle expanded by the ball radius: the
entry and exit times on the X axis and on the Y axis, `none` when the scan skips the brick
because the ball does not move along an axis and lies outside its slab. -/
def entryExit (ball : Ball) (brick : Brick) : Option ((ℚ × ℚ) × (ℚ × ℚ)) :=
  match Level.slabTimes (brick.m_rect.x - ball.m_radius)
      (brick.m_rect.x + brick.m_rect.width + ball.m_radius) ball.m_pos.x ball.m_velocity.x with
  | none => none
  | some tx =>
    match Level.slabTimes (brick.m_rect.y - ball.m_radius)
        (brick.m_rect.y + brick.m_rect.height + ball.m_radius) ball.m_pos.y
        ball.m_velocity.y with
    | none => none
    | some ty => some (tx, ty)

/-- The brick is active and has a valid hit with entry time `tMin`: `tMin ≤ tMax`,
`tMax ≥ 0` and `tMin ≤ 1` for `tMin = max txMin tyMin` and `tMax = min txMax tyMax`. -/
def ValidHit (ball : Ball) (brick : Brick) (tMin : ℚ) : Prop :=
  brick.m_active = true ∧
    ∃ tx ty, entryExit ball brick = some (tx, ty) ∧ tMin = max tx.1 ty.1 ∧
      tMin ≤ min tx.2 ty.2 ∧ 0 ≤ min tx.2 ty.2 ∧ tMin ≤ 1

/-- The entry/exit interval of one axis as the design describes it, stated on the motion of
the ball and not on the arithmetic of the scan: for a moving velocity component `v`, the
interval `[I.1, I.2]` consists of exactly the times `s` at which the coordinate `p + v * s`
lies within the slab `[lo, hi]`; a component of magnitude at most 0.0001 is near zero, the
coordinate `p` must then lie within the slab already and the interval is the whole
displacement segment `[0, 1]`. -/
def SpecSlabInterval (lo hi p v : ℚ) (I : ℚ × ℚ) : Prop :=
  if |v| > 1 / 10000 then ∀ s : ℚ, (lo ≤ p + v * s ∧ p + v * s ≤ hi) ↔ (I.1 ≤ s ∧ s ≤ I.2)
  else (lo ≤ p ∧ p ≤ hi) ∧ I = (0, 1)

/-- A valid hit with entry time `tMin` as the design describes it: the brick is active, and
for the intervals `tx`, `ty` of the two axes against the rectangle expanded by the ball
radius, `tMin = max tx.1 ty.1` and `tMax = min tx.2 ty.2` satisfy `tMin ≤ tMax`, `tMax ≥ 0`
and `tMin ≤ 1`. -/
def SpecValidHit (ball : Ball) (brick : Brick) (tMin : ℚ) : Prop :=
  brick.m_active = true ∧
    ∃ tx ty : ℚ × ℚ,
      SpecSlabInterval (brick.m_rect.x - ball.m_radius)
        (brick.m_rect.x + brick.m_rect.width + ball.m_radius) ball.m_pos.x ball.m_velocity.x tx ∧
      SpecSlabInterval (brick.m_rect.y - ball.m_radius)
        (brick.m_rect.y + brick.m_rect.height + ball.m_radius) ball.m_pos.y ball.m_velocity.y
        ty ∧
      tMin = max tx.1 ty.1 ∧ tMin ≤ min tx.2 ty.2 ∧ 0 ≤ min tx.2 ty.2 ∧ tMin ≤ 1

/-- The ball centre lies outside the rectangle of the brick expanded by the ball radius. -/
def OutsideExpanded (ball : Ball) (brick : Brick) : Prop :=
  ball.m_pos.x < brick.m_rect.x - ball.m_radius ∨
    brick.m_rect.x + brick.m_rect.width + ball.m_radius < ball.m_pos.x ∨
    ball.m_pos.y < brick.m_rect.y - ball.m_radius ∨
    brick.m_rect.y + brick.m_rect.height + ball.m_radius < ball.m_pos.y

/-- The normal `checkCollisions` records for entry times `txMin`, `tyMin`. -/
def impactNormal (ball : Ball) (txMin tyMin : ℚ) : Vec2 :=
  if txMin > tyMin then { x := if ball.m_velocity.x > 0 then -1 else 1, y := 0 }
  else { x := 0, y := if ball.m_velocity.y > 0 then -1 else 1 }

/-- The locals of `checkCollisions` after the bricks `0 .. n-1`: either nothing has been
found, or they describe the first brick among those that attains the least entry time of a
valid hit below 1. -/
structure ScanInv (L : Level) (ball : Ball) (n : Nat) (st : Level.ScanState) : Prop where
  time_le : st.closestTime ≤ 1
  found : (st = Level.scanInit) ∨
    ∃ k b tx ty, k < n ∧ st.closestBrickIndex = (k : Int) ∧ L.m_bricks[k]? = some b ∧
      b.m_active = true ∧ entryExit ball b = some (tx, ty) ∧
      st.closestTime = max tx.1 ty.1 ∧ st.closestTime ≤ min tx.2 ty.2 ∧
      0 ≤ min tx.2 ty.2 ∧ st.closestTime < 1 ∧
      st.collisionPos = { x := ball.m_pos.x + ball.m_velocity.x * st.closestTime
                          y := ball.m_pos.y + ball.m_velocity.y * st.closestTime } ∧
      st.closestNormal = impactNormal ball tx.1 ty.1 ∧
      ∀ i b1 t1, i < k → L.m_bricks[i]? = some b1 → ValidHit ball b1 t1 → st.closestTime < t1
  minimal : ∀ i b t, i < n → L.m_bricks[i]? = some b → ValidHit ball b t → st.closestTime ≤ t

/-- The squared distance from the ball to the impact position of its pending collision. -/
def Ball.targetLenSq (b : Ball) : ℚ :=
  (b.m_nextCollisionPos.x - b.m_pos.x) * (b.m_nextCollisionPos.x - b.m_pos.x) +
    (b.m_nextCollisionPos.y - b.m_pos.y) * (b.m_nextCollisionPos.y - b.m_pos.y)

/-- The tentative move `velocity * dt` has reached or passed the pending impact position:
the squared distance travelled is at least the squared distance to it, up to the tolerance
0.01 squared, or the position lies behind the moved ball (dot-product test). -/
def Ball.ReachedOrPassed (b : Ball) (dt : ℚ) : Prop :=
  (b.m_velocity.x * dt) * (b.m_velocity.x * dt) + (b.m_velocity.y * dt) * (b.m_velocity.y * dt)
      ≥ b.targetLenSq - 1 / 10000 ∨
    (b.m_nextCollisionPos.x - (b.m_pos.x + b.m_velocity.x * dt)) * b.m_velocity.x +
      (b.m_nextCollisionPos.y - (b.m_pos.y + b.m_velocity.y * dt)) * b.m_velocity.y ≤ 0

/-- A ball of radius `r` centred at `pos` touches none of the three boundaries that
`Ball::update` tests. -/
def TouchesNoBoundary (pos : Vec2) (r windowHeight gridMinX gridMaxX : ℚ) : Prop :=
  ¬ (pos.y + r > windowHeight) ∧ ¬ (pos.x - r < gridMinX) ∧ ¬ (pos.x + r > gridMaxX)

/-- One of the unit vectors along an axis. -/
def IsAxisUnit (n : Vec2) : Prop :=
  n = { x := 1, y := 0 } ∨ n = { x := -1, y := 0 } ∨ n = { x := 0, y := 1 } ∨
    n = { x := 0, y := -1 }

/-- The squared speed of the ball. -/
def Ball.speedSq (b : Ball) : ℚ :=
  b.m_velocity.x * b.m_velocity.x + b.m_velocity.y * b.m_velocity.y

/-- In this call of `Ball::update` a boundary flips a velocity component: the test against
`windowHeight` with the ball moving up, or the test against `gridMinX` with the ball moving
left, or the test against `gridMaxX` with the ball moving right. -/
def Ball.BoundaryFlips (b : Ball) (dt windowHeight gridMinX gridMaxX : ℚ) : Prop :=
  ((b.moveAndResolve dt).2.m_pos.y + b.m_radius > windowHeight ∧
      (b.moveAndResolve dt).2.m_velocity.y > 0) ∨
    ((b.moveAndResolve dt).2.m_pos.x - b.m_radius < gridMinX ∧
      (b.moveAndResolve dt).2.m_velocity.x < 0) ∨
    (¬ ((b.moveAndResolve dt).2.m_pos.x - b.m_radius < gridMinX) ∧
      (b.moveAndResolve dt).2.m_pos.x + b.m_radius > gridMaxX ∧
      (b.moveAndResolve dt).2.m_velocity.x > 0)

/-- The condition under which `Ball::checkCollisionPaddle` is to report a hit: downward
motion, horizontal overlap, and the bottom edge crossing the paddle top within the step or
already inside the thickness of the paddle with the top edge above the paddle top. -/
def Ball.HitsPaddle (b : Ball) (paddle : Paddle) (dt : ℚ) : Prop :=
  b.m_velocity.y < 0 ∧
    (b.m_pos.x + b.m_radius > paddle.m_rect.x ∧
      b.m_pos.x - b.m_radius < paddle.m_rect.x + paddle.m_rect.width) ∧
    ((b.m_pos.y - b.m_radius ≥ paddle.m_rect.y + paddle.m_rect.height ∧
        b.m_pos.y + b.m_velocity.y * dt - b.m_radius < paddle.m_rect.y + paddle.m_rect.height) ∨
      (b.m_pos.y - b.m_radius < paddle.m_rect.y + paddle.m_rect.height ∧
        b.m_pos.y - b.m_radius ≥ paddle.m_rect.y ∧
        b.m_pos.y + b.m_radius > paddle.m_rect.y + paddle.m_rect.height))

/-- The bricks a program can obtain through the public interface of `Brick`. -/
inductive Brick.IsReachable : Brick → Prop
  | new : Brick.IsReachable Brick.new
  | init (b : Brick) (x y : ℚ) (scoreValue : Int) :
      Brick.IsReachable b → Brick.IsReachable (b.init x y scoreValue)
  | hit (b : Brick) : Brick.IsReachable b → Brick.IsReachable b.hit.2
  | setActive (b : Brick) (active indestructible : Bool) :
      Brick.IsReachable b → Brick.IsReachable (b.setActive active indestructible)
  | setScoreValue (b : Brick) (score : Int) :
      Brick.IsReachable b → Brick.IsReachable (b.setScoreValue score)

/-- A token that is not numeric: it begins with a character that is neither whitespace nor a
digit, and if that character is a sign no digit follows it. -/
def IsNonNumeric (t : List Char) : Prop :=
  ∃ c s, t = c :: s ∧ isSpace c = false ∧ c.isDigit = false ∧
    ((c = '-' ∨ c = '+') → ∀ d ∈ s.head?, Char.isDigit d = false)

/-- The pair `(m_editorSelectedRow, m_editorSelectedCol)`. -/
def Level.selection (L : Level) : Int × Int := (L.m_editorSelectedRow, L.m_editorSelectedCol)

/-! ## Sample data -/

/-- The yellow brick `setupBricks` lays out in the bottom-left cell of a grid whose origin
is (100, 679): the brick number 98 of `oneBrickLevel`. -/
def sampleBrick : Brick :=
  { m_rect := { x := 100, y := 679, width := 75, height := 25 }, m_active := true, m_scoreValue := 1 }

/-- An indestructible brick next to `sampleBrick`. -/
def sampleWall : Brick :=
  { m_rect := { x := 178, y := 679, width := 75, height := 25 }, m_active := true, m_scoreValue := -1 }

/-- A level holding two bricks only: `sampleBrick` and `sampleWall`. -/
def sampleLevel : Level :=
  { Level.new with m_bricks := [sampleBrick, sampleWall], m_activeBrickCount := 1 }

/-- A file system in which no file exists yet and every path can be written. -/
def emptyDisk : FileSystem := { contents := fun _ => none, writable := fun _ => true }

/-- A file system in which nothing can be opened, neither for reading nor for writing. -/
def lockedDisk : FileSystem := { contents := fun _ => none, writable := fun _ => false }

/-- A level file of 112 tokens on one line, `2147483648 7 7 ... 7`: the first token does
not fit an `int`, the other 111 are the code 7. -/
def overflowText : List Char :=
  tokensFrom (fun i => if i = 0 then [] else [' '])
    (fun i => if i = 0 then "2147483648".toList else ['7']) 0 112

/-- A file system whose level file is `overflowText`. -/
def overflowDisk : FileSystem :=
  { contents := fun _ => some overflowText, writable := fun _ => true }

/-- A level file of two tokens. -/
def shortText : List Char := "7 5".toList

/-- A file system whose level file is `shortText`. -/
def shortDisk : FileSystem := { contents := fun _ => some shortText, writable := fun _ => true }

/-- The level a game session gets from a grid whose only brick is a yellow one in the
bottom-left cell (logical row 7, column 0), in a window of 1289 x 1000. -/
def oneBrickLevel : Level := (Level.new.setGridState 7 0 1).setupBricks 1289 1000

/-- A ball that starts inside the expanded rectangle of `sampleBrick`, moving on both axes. -/
def insideBall : Ball :=
  { Ball.new with m_pos := { x := 110, y := 690 }, m_velocity := { x := 1, y := 1 } }

/-- A ball below `sampleBrick` whose displacement ends exactly on its expanded rectangle. -/
def grazingBall : Ball :=
  { Ball.new with m_pos := { x := 110, y := 653 }, m_velocity := { x := 0, y := 16 } }

/-- A ball below `sampleBrick` that rises fast towards it. -/
def risingBall : Ball :=
  { Ball.new with m_pos := { x := 110, y := 650 }, m_velocity := { x := 0, y := 400 } }

/-- A brick occupying x in [90, 170] and y in [50, 80]. -/
def wideBrick : Brick :=
  { m_rect := { x := 90, y := 50, width := 80, height := 30 }, m_active := true, m_scoreValue := 1 }

/-- A level whose brick set is the single brick `wideBrick`. -/
def wideBrickLevel : Level := { Level.new with m_bricks := [wideBrick] }

/-- A ball of radius 10 at (100, 100) with velocity (0, -300). -/
def fallingBall : Ball :=
  { Ball.new with m_pos := { x := 100, y := 100 }, m_velocity := { x := 0, y := -300 } }

/-- A ball that touches the expanded rectangle of `sampleBrick` from below and rises. -/
def touchingBall : Ball :=
  { Ball.new with m_pos := { x := 110, y := 669 }, m_velocity := { x := 0, y := 16 } }

/-- The ball `touchingBall` after the collision scan of `oneBrickLevel`. -/
def pendingTouchingBall : Ball := (oneBrickLevel.checkCollisions touchingBall).2

/-- The ball `risingBall` after the collision scan of `oneBrickLevel`. -/
def pendingRisingBall : Ball := (oneBrickLevel.checkCollisions risingBall).2

/-- A ball without pending collision that rises towards the top of a window of height 1000. -/
def ceilingBall : Ball :=
  { Ball.new with m_pos := { x := 500, y := 985 }, m_velocity := { x := 0, y := 300 } }

/-- A ball that moves left towards the left edge of the play field at x = 100. -/
def leftwardBall : Ball :=
  { Ball.new with m_pos := { x := 115, y := 500 }, m_velocity := { x := -300, y := 40 } }

/-- A paddle as `Paddle::init` places it in a window of 1289 x 1000. -/
def samplePaddle : Paddle := Paddle.new.init 1289 1000

/-- A ball that comes down on the middle of `samplePaddle`. -/
def droppingBall : Ball :=
  { Ball.new with m_pos := { x := 1289 / 2, y := 131 }, m_velocity := { x := 3, y := -4 }
                  m_hasPendingCollision := true, m_pendingHitBrickIndex := 98 }

/-- Library functions that are exact at the arguments `droppingBall` needs: the square root
of 25, and sine and cosine of 0. -/
def sampleMath : CMath :=
  { sqrt := fun x => if x = 25 then 5 else 0, sin := fun _ => 0, cos := fun _ => 1 }

/-- A level whose geometry is that of a window of 1289 x 1000: the grid starts at
(100, 679). -/
def editorLevel : Level := Level.new.calculateGridDimensions 1289 1000

/-- A level whose grid holds a yellow brick at logical row 7, column 0. -/
def yellowCornerLevel : Level := Level.new.setGridState 7 0 1

/-- The whitespace in front of token `i` of a file whose tokens are separated by one space. -/
def spaceSeparator (i : Nat) : List Char := if i = 0 then [] else [' ']

/-- The tokens of the file `7 x 7 7 ... 7`: the second one is not a number. -/
def malformedToken (i : Nat) : List Char := if i = 1 then ['x'] else ['7']

/-- A level file of 112 tokens on one line, `7 x 7 7 ... 7`: the second token is not a
number, the other 111 are the code 7. -/
def malformedText : List Char := tokensFrom spaceSeparator malformedToken 0 112

/-- What follows the malformed token in `malformedText`: 110 tokens `7`, each after a space. -/
def malformedRest : List Char := tokensFrom spaceSeparator malformedToken 2 110

/-- The tokens of the file `7 9 7 7 ... 7`: the second one is an integer that is no code. -/
def invalidCodeToken (i : Nat) : List Char := if i = 1 then ['9'] else ['7']

/-- A level file of 112 tokens on one line, `7 9 7 7 ... 7`. -/
def invalidCodeText : List Char := tokensFrom spaceSeparator invalidCodeToken 0 112

/-- A file system whose level file is `invalidCodeText`. -/
def invalidCodeDisk : FileSystem :=
  { contents := fun _ => some invalidCodeText, writable := fun _ => true }

/-- A file system whose level file is `malformedText`. -/
def malformedDisk : FileSystem :=
  { contents := fun _ => some malformedText, writable := fun _ => true }

/-! # Theorems -/

/-! ## Loops -/

theorem foldl_range_induction {σ : Type} (f : σ → Nat → σ) (P : Nat → σ → Prop) (n : Nat)
    (s : σ) (h0 : P 0 s) (hstep : ∀ i s, i < n → P i s → P (i + 1) (f s i)) :
    P n ((List.range n).foldl f s) := by
  induction n with
  | zero => simpa using h0
  | succ k ih =>
    rw [List.range_succ, List.foldl_append]
    simp only [List.foldl_cons, List.foldl_nil]
    exact hstep k _ (Nat.lt_succ_self k)
      (ih (fun i s hi hp => hstep i s (Nat.lt_succ_of_lt hi) hp))

theorem forGrid_induction {σ : Type} (body : Nat → Nat → σ → σ) (P : Nat → σ → Prop) (s : σ)
    (h0 : P 0 s)
    (hstep : ∀ r c s, r < 8 → c < 14 → P (14 * r + c) s → P (14 * r + c + 1) (body r c s)) :
    P 112 (forGrid body s) := by
  unfold forGrid
  have hinner : ∀ r s, r < 8 → P (14 * r) s →
      P (14 * (r + 1)) ((List.range Config.GRID_COLS).foldl (fun s c => body r c s) s) := by
    intro r s hr hp
    have h2 : P (14 * r + Config.GRID_COLS)
        ((List.range Config.GRID_COLS).foldl (fun s c => body r c s) s) :=
      foldl_range_induction (fun s c => body r c s) (fun c s => P (14 * r + c) s)
        Config.GRID_COLS s hp (fun c s hc hp => hstep r c s hr hc hp)
    exact h2
  exact foldl_range_induction
    (fun s r => (List.range Config.GRID_COLS).foldl (fun s c => body r c s) s)
    (fun r s => P (14 * r) s) Config.GRID_ROWS s h0 (fun r s hr hp => hinner r s hr hp)

theorem forGrid_invariant {σ : Type} (body : Nat → Nat → σ → σ) (I : σ → Prop) (s : σ)
    (h0 : I s) (hstep : ∀ r c s, r < 8 → c < 14 → I s → I (body r c s)) :
    I (forGrid body s) :=
  forGrid_induction body (fun _ s => I s) s h0 (fun r c s hr hc h => hstep r c s hr hc h)

/-! ## Bricks -/

/-- C3: `Brick::hit` on an active brick whose score is not Indestructible returns the score
the brick had before the call and leaves it inactive with score 0, its rectangle unchanged. -/
theorem Brick.hit_active_destructible (b : Brick) (hactive : b.m_active = true)
    (hscore : b.m_scoreValue ≠ Config.SCORE_INDESTRUCTIBLE) :
    b.hit.1 = b.m_scoreValue ∧ b.hit.2.m_active = false ∧ b.hit.2.m_scoreValue = 0 ∧
      b.hit.2.m_rect = b.m_rect := by
  simp [Brick.hit, hactive, hscore]

theorem Brick.hit_active_destructible_witness :
    sampleBrick.hit.1 = sampleBrick.m_scoreValue ∧ sampleBrick.hit.2.m_active = false ∧
      sampleBrick.hit.2.m_scoreValue = 0 ∧ sampleBrick.hit.2.m_rect = sampleBrick.m_rect :=
  Brick.hit_active_destructible sampleBrick rfl (by decide)

theorem Brick.hit_of_indestructible (b : Brick)
    (h : b.m_scoreValue = Config.SCORE_INDESTRUCTIBLE) : b.hit = (0, b) := by
  simp [Brick.hit, h]

theorem Brick.hit_snd_inactive (b : Brick) (hactive : b.m_active = true)
    (hscore : b.m_scoreValue ≠ Config.SCORE_INDESTRUCTIBLE) : b.hit.2.m_active = false := by
  simp [Brick.hit, hactive, hscore]

/-! ## `processBrickHit` without effect -/

theorem Level.processBrickHit_void (L : Level) (i : Int) (h : L.hitIsVoid i) :
    L.processBrickHit i = (0, L) := by
  unfold Level.processBrickHit
  rcases h with h | h | ⟨b, hb, h⟩
  · simp [h]
  · simp [h]
  · by_cases hr : i < 0 ∨ (L.m_bricks.length : Int) ≤ i
    · simp [hr]
    · rw [if_neg hr]
      simp only [hb]
      by_cases hact : b.m_active = true
      · have hs : b.m_scoreValue = Config.SCORE_INDESTRUCTIBLE := by
          rcases h with h | h
          · simp [hact] at h
          · exact h
        have hset : L.m_bricks.set i.toNat b = L.m_bricks := by
          apply List.ext_getElem?
          intro n
          by_cases hn : i.toNat = n
          · subst hn
            rw [hb]
            have hlt : i.toNat < L.m_bricks.length := by
              rcases List.getElem?_eq_some.1 hb with ⟨hlt, _⟩
              exact hlt
            simp [List.getElem?_set, hlt]
          · simp [List.getElem?_set, hn]
        simp [Brick.isActive, hact, Brick.hit_of_indestructible b hs, hset]
      · simp [Brick.isActive, hact]

theorem Level.processBrickHit_twice (L : Level) (i : Int) :
    (L.processBrickHit i).2.processBrickHit i = (0, (L.processBrickHit i).2) := by
  by_cases hv : L.hitIsVoid i
  · rw [Level.processBrickHit_void L i hv]
    exact Level.processBrickHit_void L i hv
  · apply Level.processBrickHit_void
    have h0 : ¬ i < 0 := fun h => hv (Or.inl h)
    have h1 : ¬ (L.m_bricks.length : Int) ≤ i := fun h => hv (Or.inr (Or.inl h))
    have hlt : i.toNat < L.m_bricks.length := by omega
    have hb : L.m_bricks[i.toNat]? = some (L.m_bricks[i.toNat]) := List.getElem?_eq_getElem hlt
    have hact : (L.m_bricks[i.toNat]).m_active = true := by
      by_contra hc
      exact hv (Or.inr (Or.inr ⟨_, hb, Or.inl (by simpa using hc)⟩))
    have hsc : (L.m_bricks[i.toNat]).m_scoreValue ≠ Config.SCORE_INDESTRUCTIBLE := by
      intro hc
      exact hv (Or.inr (Or.inr ⟨_, hb, Or.inr hc⟩))
    refine Or.inr (Or.inr ⟨(L.m_bricks[i.toNat]).hit.2, ?_, Or.inl ?_⟩)
    · unfold Level.processBrickHit
      have hr : ¬ (i < 0 ∨ (L.m_bricks.length : Int) ≤ i) := by omega
      rw [if_neg hr]
      simp only [hb]
      simp [Brick.isActive, hact, List.getElem?_set, hlt]
    · exact Brick.hit_snd_inactive _ hact hsc

/-- C4: `Level::processBrickHit` with an index out of range, or on an inactive brick, or on
an indestructible brick returns 0 and leaves the whole level (every brick and the counter)
as it was; so a second hit on the same index always returns 0 without any change, and an
active indestructible brick is still there, active, after being hit. -/
theorem Level.processBrickHit_no_effect (L : Level) (i : Int) :
    (L.hitIsVoid i → L.processBrickHit i = (0, L)) ∧
    (L.processBrickHit i).2.processBrickHit i = (0, (L.processBrickHit i).2) ∧
    (∀ b, L.m_bricks[i.toNat]? = some b → b.m_active = true →
      b.m_scoreValue = Config.SCORE_INDESTRUCTIBLE →
      (L.processBrickHit i).2.m_bricks[i.toNat]? = some b ∧
        (L.processBrickHit i).2.m_activeBrickCount = L.m_activeBrickCount) := by
  refine ⟨Level.processBrickHit_void L i, Level.processBrickHit_twice L i, ?_⟩
  intro b hb _ hs
  rw [Level.processBrickHit_void L i (Or.inr (Or.inr ⟨b, hb, Or.inr hs⟩))]
  exact ⟨hb, rfl⟩

theorem Level.processBrickHit_no_effect_witness :
    sampleLevel.hitIsVoid 1 ∧ sampleLevel.processBrickHit 1 = (0, sampleLevel) :=
  ⟨Or.inr (Or.inr ⟨sampleWall, rfl, Or.inr rfl⟩),
   (Level.processBrickHit_no_effect sampleLevel 1).1
     (Or.inr (Or.inr ⟨sampleWall, rfl, Or.inr rfl⟩))⟩

/-! ## `setupBricks` -/

theorem take_set_self {α : Type} (l : List α) (k : Nat) (a : α) :
    (l.set k a).take k = l.take k := by
  apply List.ext_getElem?
  intro i
  rw [List.getElem?_take, List.getElem?_take]
  split
  · next h => rw [List.getElem?_set_ne (by omega)]
  · rfl

theorem setupBricksCell_step (L1 : Level) (hlen : L1.m_bricks.length = 112) (r c : Nat)
    (st : Level × Nat) (hr : r < 8) (hc : c < 14) (h : SetupInv L1 (14 * r + c) st) :
    SetupInv L1 (14 * r + c + 1) (Level.setupBricksCell r c st) := by
  obtain ⟨L, idx⟩ := st
  have hidx : idx = 14 * r + c := h.index
  subst hidx
  have hk : 14 * r + c < L1.m_bricks.length := by omega
  have hkL : 14 * r + c < L.m_bricks.length := by rw [h.length]; exact hk
  have hb : L.m_bricks[14 * r + c]? = some (L1.m_bricks[14 * r + c]) := by
    rw [h.todo _ (le_refl _)]
    exact List.getElem?_eq_getElem hk
  have hbrick : (L1.m_bricks[14 * r + c]).init
        (L.m_gridStartX + c * (Config.BRICK_WIDTH + Config.BRICK_SPACING))
        (L.m_gridStartY + ((Config.GRID_ROWS - 1 - r : Nat) : ℚ) *
          (Config.BRICK_HEIGHT + Config.BRICK_SPACING))
        (L.m_gridState r c) = L1.brickForCell r c (L1.m_bricks[14 * r + c]) := by
    have h1 := h.grid
    have h2 := h.startX
    have h3 := h.startY
    simp only at h1 h2 h3
    simp only [Level.brickForCell, h1, h2, h3]
  simp only [Level.setupBricksCell, hb, hbrick]
  refine
    { index := rfl, grid := h.grid, startX := h.startX, startY := h.startY
      totalWidth := h.totalWidth, totalHeight := h.totalHeight
      selectedRow := h.selectedRow, selectedCol := h.selectedCol
      length := ?_, done := ?_, todo := ?_, count := ?_ }
  · simpa using h.length
  · intro j hj
    simp only [List.getElem?_set]
    by_cases hjk : 14 * r + c = j
    · subst hjk
      have e1 : (14 * r + c) / 14 = r := by omega
      have e2 : (14 * r + c) % 14 = c := by omega
      simp [hkL, e1, e2, List.getElem?_eq_getElem hk]
    · simp only [hjk, if_false]
      exact h.done j (by omega)
  · intro j hj
    simp only [List.getElem?_set]
    have hjk : ¬ 14 * r + c = j := by omega
    simp only [hjk, if_false]
    exact h.todo j (by omega)
  · have hc0 := h.count
    simp only at hc0
    have htake : (L.m_bricks.set (14 * r + c)
        (L1.brickForCell r c (L1.m_bricks[14 * r + c]))).take (14 * r + c) =
        L.m_bricks.take (14 * r + c) := take_set_self _ _ _
    simp only [List.take_succ, List.countP_append, List.getElem?_set_self hkL, htake, hc0]
    by_cases hl : (L1.brickForCell r c (L1.m_bricks[14 * r + c])).isLive = true
    · have hl2 := hl
      simp only [Brick.isLive] at hl2
      simp [hl, hl2]
    · have hl2 := hl
      simp only [Brick.isLive] at hl2
      simp [hl, hl2]

/-- The level on which the loop nest of `setupBricks` starts. -/
theorem setupBricks_loop (L : Level) (w h : ℚ) (hlen : L.m_bricks.length = 112) :
    SetupInv { L.calculateGridDimensions w h with m_activeBrickCount := 0 } 112
      (forGrid Level.setupBricksCell
        ({ L.calculateGridDimensions w h with m_activeBrickCount := 0 }, 0)) := by
  apply forGrid_induction Level.setupBricksCell
    (SetupInv { L.calculateGridDimensions w h with m_activeBrickCount := 0 })
  · exact
      { index := rfl, grid := rfl, startX := rfl, startY := rfl, totalWidth := rfl
        totalHeight := rfl, selectedRow := rfl, selectedCol := rfl, length := rfl
        done := fun j hj => absurd hj (Nat.not_lt_zero j)
        todo := fun j _ => rfl
        count := by simp }
  · intro r c s hr hc hs
    exact setupBricksCell_step _ (by simpa [Level.calculateGridDimensions] using hlen) r c s hr hc hs

theorem setupBricks_eq (L : Level) (w h : ℚ) :
    L.setupBricks w h = (forGrid Level.setupBricksCell
        ({ L.calculateGridDimensions w h with m_activeBrickCount := 0 }, 0)).1 := by
  unfold Level.setupBricks
  rfl

theorem setupBricks_gridState (L : Level) (w h : ℚ) (hlen : L.m_bricks.length = 112) :
    (L.setupBricks w h).m_gridState = L.m_gridState := by
  rw [setupBricks_eq]
  exact (setupBricks_loop L w h hlen).grid

theorem setupBricks_length (L : Level) (w h : ℚ) (hlen : L.m_bricks.length = 112) :
    (L.setupBricks w h).m_bricks.length = 112 := by
  rw [setupBricks_eq, (setupBricks_loop L w h hlen).length]
  exact hlen

theorem setupBricks_getElem? (L : Level) (w h : ℚ) (hlen : L.m_bricks.length = 112) (j : Nat)
    (hj : j < 112) :
    (L.setupBricks w h).m_bricks[j]? =
      (L.m_bricks[j]?).map ((L.calculateGridDimensions w h).brickForCell (j / 14) (j % 14)) := by
  rw [setupBricks_eq]
  exact (setupBricks_loop L w h hlen).done j hj

theorem setupBricks_count (L : Level) (w h : ℚ) (hlen : L.m_bricks.length = 112) :
    (L.setupBricks w h).m_activeBrickCount = ((L.setupBricks w h).liveBrickCount : Int) := by
  have hc := (setupBricks_loop L w h hlen).count
  have hl := setupBricks_length L w h hlen
  rw [setupBricks_eq] at hl ⊢
  rw [List.take_of_length_le (le_of_eq hl)] at hc
  exact hc

/-! ## The invariant of reachable levels -/

theorem Grid.set_valid (g : Grid) (r c : Nat) (v : Int) (hg : ∀ r c, validScoreCode (g r c) = true)
    (hv : validScoreCode v = true) : ∀ r1 c1, validScoreCode (g.set r c v r1 c1) = true := by
  intro r1 c1
  unfold Grid.set
  split
  · exact hv
  · exact hg r1 c1

theorem Level.Inv.of_same_bricks {L L1 : Level} (h : L.Inv) (hb : L1.m_bricks = L.m_bricks)
    (hc : L1.m_activeBrickCount = L.m_activeBrickCount)
    (hg : ∀ r c, validScoreCode (L1.m_gridState r c) = true) : L1.Inv :=
  { length := by rw [hb]; exact h.length
    grid := hg
    bricks := by rw [hb]; exact h.bricks
    count := by rw [hc, h.count]; simp [Level.liveBrickCount, hb] }

theorem Level.inv_new : Level.new.Inv := by
  refine { length := ?_, grid := ?_, bricks := ?_, count := ?_ }
  · simp [Level.new, Config.GRID_ROWS, Config.GRID_COLS]
  · intro r c
    simp [Level.new, validScoreCode]
  · intro b hb
    have e : b = Brick.new := List.eq_of_mem_replicate hb
    subst e
    simp [Brick.WellFormed, Brick.new, validScoreCode]
  · have h0 : Level.new.liveBrickCount = 0 := by
      unfold Level.liveBrickCount
      rw [List.countP_eq_zero]
      intro b hb
      have e : b = Brick.new := List.eq_of_mem_replicate hb
      subst e
      simp [Brick.isLive, Brick.new, Brick.isActive]
    rw [h0]
    simp [Level.new]

theorem defaultLayoutCell_valid (r c : Nat) (g : Grid)
    (hg : ∀ r c, validScoreCode (g r c) = true) :
    ∀ r1 c1, validScoreCode (Level.defaultLayoutCell r c g r1 c1) = true := by
  unfold Level.defaultLayoutCell
  split_ifs <;> exact Grid.set_valid g r c _ hg rfl

theorem loadCell_valid (r c : Nat) (st : Level.LoadState)
    (hg : ∀ r c, validScoreCode (st.grid r c) = true) :
    ∀ r1 c1, validScoreCode ((Level.loadCell r c st).grid r1 c1) = true := by
  unfold Level.loadCell
  split
  · exact Grid.set_valid _ r c 0 hg rfl
  · next v s _ =>
    apply Grid.set_valid _ r c _ hg
    by_cases hv : validScoreCode v = true
    · simp [hv]
    · simp [hv]
      rfl

theorem Level.load_level_of_none (L : Level) (fs : FileSystem) (filename : String)
    (h : fs.contents filename = none) :
    (L.load fs filename).2.1 =
      { L with m_gridState := forGrid Level.defaultLayoutCell L.m_gridState } := by
  unfold Level.load
  rw [h]

theorem Level.load_level_of_some (L : Level) (fs : FileSystem) (filename : String)
    (text : List Char) (h : fs.contents filename = some text) :
    (L.load fs filename).2.1 =
      { L with
        m_gridState := (forGrid Level.loadCell { levelFile := { buf := text, failbit := false }
                                                 grid := L.m_gridState, success := true }).grid
        m_editorSelectedRow := -1, m_editorSelectedCol := -1 } := by
  unfold Level.load
  rw [h]

theorem Level.inv_load (L : Level) (fs : FileSystem) (filename : String) (h : L.Inv) :
    (L.load fs filename).2.1.Inv := by
  cases hc : fs.contents filename with
  | none =>
    rw [Level.load_level_of_none L fs filename hc]
    refine @Level.Inv.of_same_bricks L _ h ?_ ?_ ?_
    · rfl
    · rfl
    exact forGrid_invariant Level.defaultLayoutCell
      (fun g => ∀ r c, validScoreCode (g r c) = true) L.m_gridState h.grid
      (fun r c g _ _ hg => defaultLayoutCell_valid r c g hg)
  | some text =>
    rw [Level.load_level_of_some L fs filename text hc]
    refine @Level.Inv.of_same_bricks L _ h ?_ ?_ ?_
    · rfl
    · rfl
    have key := forGrid_invariant Level.loadCell
      (fun st => ∀ r c, validScoreCode (st.grid r c) = true)
      { levelFile := { buf := text, failbit := false }, grid := L.m_gridState, success := true }
      h.grid (fun r c st _ _ hg => loadCell_valid r c st hg)
    exact key

theorem Brick.init_wellFormed (b : Brick) (x y : ℚ) (v : Int) (hb : b.WellFormed)
    (hv : validScoreCode v = true) : (b.init x y v).WellFormed :=
  ⟨hv, rfl, hb.2.2.1, hb.2.2.2⟩

theorem Level.inv_setupBricks (L : Level) (w h : ℚ) (hL : L.Inv) : (L.setupBricks w h).Inv := by
  refine { length := setupBricks_length L w h hL.length, grid := ?_, bricks := ?_
           count := setupBricks_count L w h hL.length }
  · rw [setupBricks_gridState L w h hL.length]
    exact hL.grid
  · intro b hb
    obtain ⟨j, hj, rfl⟩ := List.getElem_of_mem hb
    have hj112 : j < 112 := by rw [setupBricks_length L w h hL.length] at hj; exact hj
    have hjL : j < L.m_bricks.length := by rw [hL.length]; exact hj112
    have e := setupBricks_getElem? L w h hL.length j hj112
    rw [List.getElem?_eq_getElem hj, List.getElem?_eq_getElem hjL] at e
    simp only [Option.map_some', Option.some.injEq] at e
    rw [e]
    exact Brick.init_wellFormed _ _ _ _ (hL.bricks _ (List.getElem_mem hjL)) (hL.grid _ _)

theorem Brick.WellFormed.score_pos {b : Brick} (hb : b.WellFormed) (hlive : b.isLive = true) :
    0 < b.m_scoreValue := by
  obtain ⟨hv, hact, _, _⟩ := hb
  simp only [Brick.isLive, Brick.isActive, Brick.isIndestructible, Bool.and_eq_true,
    Bool.not_eq_true', decide_eq_false_iff_not] at hlive
  obtain ⟨ha, hne⟩ := hlive
  have hnz : b.m_scoreValue ≠ 0 := by
    rw [ha] at hact
    simpa using hact.symm
  simp only [validScoreCode, Config.SCORE_INDESTRUCTIBLE, Config.SCORE_YELLOW,
    Config.SCORE_GREEN, Config.SCORE_ORANGE, Config.SCORE_RED, Bool.or_eq_true,
    decide_eq_true_eq] at hv hne
  omega

/-- The effect of `processBrickHit` on an active brick that is not indestructible and
carries a positive score. -/
theorem Level.processBrickHit_live (L : Level) (i : Int) (b : Brick) (hi : 0 ≤ i)
    (hb : L.m_bricks[i.toNat]? = some b) (hlive : b.isLive = true) (hpos : 0 < b.m_scoreValue) :
    L.processBrickHit i =
      (b.m_scoreValue,
       { L with
         m_bricks := L.m_bricks.set i.toNat { b with m_active := false, m_scoreValue := 0 }
         m_activeBrickCount := max 0 (L.m_activeBrickCount - 1) }) := by
  simp only [Brick.isLive, Brick.isActive, Brick.isIndestructible, Bool.and_eq_true,
    Bool.not_eq_true', decide_eq_false_iff_not] at hlive
  obtain ⟨hact, hne⟩ := hlive
  simp only [Config.SCORE_INDESTRUCTIBLE] at hne
  have hlt : i.toNat < L.m_bricks.length := (List.getElem?_eq_some.1 hb).1
  have hr : ¬ (i < 0 ∨ (L.m_bricks.length : Int) ≤ i) := by omega
  unfold Level.processBrickHit
  rw [if_neg hr]
  simp only [hb]
  simp [Brick.isActive, Brick.hit, hact, hne, Brick.isIndestructible, hpos,
    Config.SCORE_INDESTRUCTIBLE]

theorem Level.processBrickHit_count (L : Level) (hL : L.Inv) (i : Int) (b : Brick) (hi : 0 ≤ i)
    (hb : L.m_bricks[i.toNat]? = some b) (hlive : b.isLive = true) :
    (L.processBrickHit i).2.m_activeBrickCount = L.m_activeBrickCount - 1 ∧
      (L.processBrickHit i).2.Inv ∧
      ∀ j : Nat, j ≠ i.toNat → (L.processBrickHit i).2.m_bricks[j]? = L.m_bricks[j]? := by
  have hlt : i.toNat < L.m_bricks.length := (List.getElem?_eq_some.1 hb).1
  have hbe : L.m_bricks[i.toNat] = b := (List.getElem?_eq_some.1 hb).2
  have hmem : b ∈ L.m_bricks := by rw [← hbe]; exact List.getElem_mem hlt
  have hpos := (hL.bricks b hmem).score_pos hlive
  rw [Level.processBrickHit_live L i b hi hb hlive hpos]
  have hcnt : (L.m_bricks.set i.toNat { b with m_active := false, m_scoreValue := 0 }).countP
      Brick.isLive = L.m_bricks.countP Brick.isLive - 1 := by
    rw [List.countP_set _ _ _ _ hlt, hbe, hlive]
    simp [Brick.isLive, Brick.isActive]
  have hge : 1 ≤ L.m_bricks.countP Brick.isLive := by
    have := List.countP_pos_iff.2 ⟨b, hmem, hlive⟩
    omega
  have hc := hL.count
  simp only [Level.liveBrickCount] at hc
  refine ⟨?_, ?_, ?_⟩
  · simp only
    omega
  · refine { length := ?_, grid := hL.grid, bricks := ?_, count := ?_ }
    · simpa using hL.length
    · intro b1 hb1
      rcases List.mem_or_eq_of_mem_set hb1 with h1 | h1
      · exact hL.bricks b1 h1
      · subst h1
        have hw := hL.bricks b hmem
        exact ⟨by simp [validScoreCode], by simp, hw.2.2.1, hw.2.2.2⟩
    · simp only [Level.liveBrickCount, hcnt]
      omega
  · intro j hj
    simp only [List.getElem?_set]
    have : ¬ i.toNat = j := fun h => hj h.symm
    simp [this]

theorem Level.inv_processBrickHit (L : Level) (i : Int) (hL : L.Inv) :
    (L.processBrickHit i).2.Inv := by
  by_cases hv : L.hitIsVoid i
  · rw [Level.processBrickHit_void L i hv]
    exact hL
  · have h0 : ¬ i < 0 := fun h => hv (Or.inl h)
    have h1 : ¬ (L.m_bricks.length : Int) ≤ i := fun h => hv (Or.inr (Or.inl h))
    have hlt : i.toNat < L.m_bricks.length := by omega
    have hb : L.m_bricks[i.toNat]? = some (L.m_bricks[i.toNat]) := List.getElem?_eq_getElem hlt
    have hlive : (L.m_bricks[i.toNat]).isLive = true := by
      by_contra hc
      apply hv
      refine Or.inr (Or.inr ⟨_, hb, ?_⟩)
      simp only [Brick.isLive, Brick.isActive, Brick.isIndestructible, Bool.and_eq_true,
        Bool.not_eq_true', decide_eq_false_iff_not, not_and, not_not] at hc
      by_cases ha : (L.m_bricks[i.toNat]).m_active = true
      · exact Or.inr (hc ha)
      · exact Or.inl (by simpa using ha)
    exact (Level.processBrickHit_count L hL i _ (by omega) hb hlive).2.1

theorem Level.inv_deselect (L : Level) (hL : L.Inv) : L.deselect.2.Inv := by
  unfold Level.deselect
  split
  · exact hL.of_same_bricks rfl rfl hL.grid
  · exact hL

theorem Level.inv_handleEditorLeftClickSelection (L : Level) (x y : ℚ) (hL : L.Inv) :
    (L.handleEditorLeftClickSelection x y).2.Inv := by
  unfold Level.handleEditorLeftClickSelection
  split
  · exact Level.inv_deselect L hL
  · simp only
    split
    · split
      · exact hL.of_same_bricks rfl rfl hL.grid
      · exact hL
    · exact Level.inv_deselect L hL

theorem Level.inv_handleEditorRightClickPlace (L : Level) (shift : Bool) (hL : L.Inv) :
    (L.handleEditorRightClickPlace shift).2.Inv := by
  unfold Level.handleEditorRightClickPlace
  split
  · exact hL
  · refine @Level.Inv.of_same_bricks L _ hL rfl rfl ?_
    apply Grid.set_valid _ _ _ _ hL.grid
    split_ifs <;> rfl

theorem Level.inv_clearSelectedBrick (L : Level) (hL : L.Inv) : L.clearSelectedBrick.Inv := by
  unfold Level.clearSelectedBrick
  split
  · exact @Level.Inv.of_same_bricks L _ hL rfl rfl (Grid.set_valid _ _ _ _ hL.grid rfl)
  · exact hL

theorem Level.inv_setGridState (L : Level) (row col v : Int) (hL : L.Inv) :
    (L.setGridState row col v).Inv := by
  unfold Level.setGridState
  split
  · split
    · next hv => exact @Level.Inv.of_same_bricks L _ hL rfl rfl (Grid.set_valid _ _ _ _ hL.grid hv)
    · exact @Level.Inv.of_same_bricks L _ hL rfl rfl (Grid.set_valid _ _ _ _ hL.grid rfl)
  · exact hL

theorem Level.checkCollisions_fst (L : Level) (ball : Ball) : (L.checkCollisions ball).1 = L := by
  unfold Level.checkCollisions
  simp only
  split <;> rfl

/-- Every reachable level satisfies the invariant. -/
theorem Reachable.inv {L : Level} (h : Reachable L) : L.Inv := by
  induction h with
  | new => exact Level.inv_new
  | load L fs filename _ ih => exact Level.inv_load L fs filename ih
  | calculateGridDimensions L w h _ ih => exact ih.of_same_bricks rfl rfl ih.grid
  | setupBricks L w h _ ih => exact Level.inv_setupBricks L w h ih
  | checkCollisions L ball _ ih => rw [Level.checkCollisions_fst]; exact ih
  | processBrickHit L i _ ih => exact Level.inv_processBrickHit L i ih
  | handleEditorLeftClickSelection L x y _ ih =>
    exact Level.inv_handleEditorLeftClickSelection L x y ih
  | handleEditorRightClickPlace L s _ ih => exact Level.inv_handleEditorRightClickPlace L s ih
  | clearSelectedBrick L _ ih => exact Level.inv_clearSelectedBrick L ih
  | setGridState L r c v _ ih => exact Level.inv_setGridState L r c v ih

/-! ## The active-brick counter -/

theorem countP_eq_countP_range {α : Type} (p : α → Bool) (q : Nat → Bool) (l : List α)
    (h : ∀ j (hj : j < l.length), p l[j] = q j) :
    l.countP p = (List.range l.length).countP q := by
  induction l using List.reverseRecOn with
  | nil => simp
  | append_singleton l a ih =>
    have hlen : (l ++ [a]).length = l.length + 1 := by simp
    rw [hlen, List.range_succ, List.countP_append, List.countP_append]
    have h1 : l.countP p = (List.range l.length).countP q := by
      apply ih
      intro j hj
      have := h j (by rw [hlen]; omega)
      rw [List.getElem_append_left hj] at this
      exact this
    have h2 : p a = q l.length := by
      have := h l.length (by rw [hlen]; omega)
      simpa using this
    rw [h1]
    simp [List.countP_cons, h2]

theorem range_112_eq :
    List.range 112 = (List.range 8).flatMap fun r => (List.range 14).map fun c => 14 * r + c := by
  decide

theorem countP_range_112 (q : Nat → Nat → Bool) :
    (List.range 112).countP (fun j => q (j / 14) (j % 14)) =
      ((List.range 8).map fun r => (List.range 14).countP fun c => q r c).sum := by
  rw [range_112_eq, List.flatMap_def, List.countP_flatten, List.map_map]
  congr 1

theorem Brick.isLive_init (b : Brick) (x y : ℚ) (v : Int) (hv : validScoreCode v = true) :
    (b.init x y v).isLive = isDestructibleCode v := by
  simp only [validScoreCode, Config.SCORE_INDESTRUCTIBLE, Config.SCORE_YELLOW,
    Config.SCORE_GREEN, Config.SCORE_ORANGE, Config.SCORE_RED, Bool.or_eq_true,
    decide_eq_true_eq] at hv
  simp only [Brick.isLive, Brick.isActive, Brick.isIndestructible, Brick.init,
    isDestructibleCode, Config.SCORE_INDESTRUCTIBLE, Config.SCORE_YELLOW,
    Config.SCORE_GREEN, Config.SCORE_ORANGE, Config.SCORE_RED]
  rcases hv with ((((h | h) | h) | h) | h) | h <;> simp [h]

/-- After `setupBricks` the live bricks are as many as the destructible cells of the grid. -/
theorem setupBricks_liveBrickCount (L : Level) (w h : ℚ) (hL : L.Inv) :
    (L.setupBricks w h).liveBrickCount = destructibleCellCount L.m_gridState := by
  have hlen := setupBricks_length L w h hL.length
  unfold Level.liveBrickCount destructibleCellCount
  rw [countP_eq_countP_range Brick.isLive
    (fun j => isDestructibleCode (L.m_gridState (j / 14) (j % 14))), hlen]
  · exact countP_range_112 (fun r c => isDestructibleCode (L.m_gridState r c))
  · intro j hj
    have hj112 : j < 112 := by rw [hlen] at hj; exact hj
    have hjL : j < L.m_bricks.length := by rw [hL.length]; exact hj112
    have e := setupBricks_getElem? L w h hL.length j hj112
    rw [List.getElem?_eq_getElem hj, List.getElem?_eq_getElem hjL] at e
    simp only [Option.map_some', Option.some.injEq] at e
    rw [e]
    exact Brick.isLive_init _ _ _ _ (hL.grid _ _)

theorem Level.processBrickHits_count (idxs : List Int) :
    ∀ L : Level, L.Inv → idxs.Nodup →
      (∀ i ∈ idxs, 0 ≤ i ∧ ∃ b, L.m_bricks[i.toNat]? = some b ∧ b.isLive = true) →
      (L.processBrickHits idxs).m_activeBrickCount = L.m_activeBrickCount - idxs.length := by
  induction idxs with
  | nil =>
    intro L _ _ _
    simp [Level.processBrickHits]
  | cons i rest ih =>
    intro L hL hnd hd
    obtain ⟨hi, b, hb, hlive⟩ := hd i (List.mem_cons_self i rest)
    obtain ⟨hcnt, hinv, hother⟩ := Level.processBrickHit_count L hL i b hi hb hlive
    have hnd2 := List.nodup_cons.1 hnd
    have hrec := ih (L.processBrickHit i).2 hinv hnd2.2 (by
      intro j hj
      obtain ⟨hj0, bj, hbj, hlj⟩ := hd j (List.mem_cons_of_mem i hj)
      refine ⟨hj0, bj, ?_, hlj⟩
      have hne : j ≠ i := fun e => hnd2.1 (e ▸ hj)
      rw [hother j.toNat (by omega)]
      exact hbj)
    have e : L.processBrickHits (i :: rest) = (L.processBrickHit i).2.processBrickHits rest := rfl
    rw [e, hrec, hcnt]
    simp only [List.length_cons, Nat.cast_add, Nat.cast_one]
    ring

/-- C1: in every level state reached from a freshly constructed `Level` through its public
operations, `m_activeBrickCount` is the number of bricks that are active and not
indestructible; hence `areAllBricksCleared()` holds exactly when no active destructible
brick remains. -/
theorem Level.activeBrickCount_counts_live (L : Level) (h : Reachable L) :
    L.m_activeBrickCount =
        ((L.m_bricks.countP fun b => b.isActive && !b.isIndestructible : Nat) : Int) ∧
      (L.areAllBricksCleared = true ↔
        ∀ b ∈ L.m_bricks, ¬ (b.isActive = true ∧ b.isIndestructible = false)) := by
  have hc : L.m_activeBrickCount =
      ((L.m_bricks.countP fun b => b.isActive && !b.isIndestructible : Nat) : Int) :=
    h.inv.count
  refine ⟨hc, ?_⟩
  unfold Level.areAllBricksCleared
  rw [hc, decide_eq_true_eq]
  constructor
  · intro h0 b hb hlive
    have hz : (L.m_bricks.countP fun b => b.isActive && !b.isIndestructible) = 0 := by omega
    rw [List.countP_eq_zero] at hz
    exact hz b hb (by simp [hlive.1, hlive.2])
  · intro hall
    have hz : (L.m_bricks.countP fun b => b.isActive && !b.isIndestructible) = 0 := by
      rw [List.countP_eq_zero]
      intro b hb hp
      simp only [Bool.and_eq_true, Bool.not_eq_true'] at hp
      exact hall b hb hp
    omega

theorem Level.activeBrickCount_counts_live_witness :
    Reachable (((Level.new.setGridState 0 0 7).setupBricks 1289 1000).processBrickHit 0).2 ∧
      ((((Level.new.setGridState 0 0 7).setupBricks 1289 1000).processBrickHit 0).2.areAllBricksCleared
          = true ↔
        ∀ b ∈ (((Level.new.setGridState 0 0 7).setupBricks 1289 1000).processBrickHit 0).2.m_bricks,
          ¬ (b.isActive = true ∧ b.isIndestructible = false)) :=
  ⟨Reachable.processBrickHit _ _ (Reachable.setupBricks _ _ _
      (Reachable.setGridState _ _ _ _ Reachable.new)),
   (Level.activeBrickCount_counts_live _
    (Reachable.processBrickHit _ _ (Reachable.setupBricks _ _ _
      (Reachable.setGridState _ _ _ _ Reachable.new)))).2⟩

/-- C2: after `setupBricks` on the grid of a reachable level, with `D` cells holding a
destructible code (1, 3, 5 or 7), hitting in turn the bricks of any list of `N` pairwise
distinct indices of bricks that were destructible (active, not indestructible) at setup
leaves `getActiveBrickCount()` equal to `D - N`; in particular `N ≤ D`. -/
theorem Level.activeBrickCount_after_hits (L : Level) (hL : Reachable L) (w h : ℚ)
    (idxs : List Int) (hdistinct : idxs.Nodup)
    (hdestr : ∀ i ∈ idxs, 0 ≤ i ∧
      ∃ b, (L.setupBricks w h).m_bricks[i.toNat]? = some b ∧ b.isActive = true ∧
        b.isIndestructible = false) :
    (L.setupBricks w h).getActiveBrickCount = (destructibleCellCount L.m_gridState : Int) ∧
      ((L.setupBricks w h).processBrickHits idxs).getActiveBrickCount =
        (destructibleCellCount L.m_gridState : Int) - (idxs.length : Int) ∧
      idxs.length ≤ destructibleCellCount L.m_gridState := by
  have hinv : (L.setupBricks w h).Inv := Level.inv_setupBricks L w h hL.inv
  have hD : (L.setupBricks w h).m_activeBrickCount = (destructibleCellCount L.m_gridState : Int) := by
    rw [hinv.count, setupBricks_liveBrickCount L w h hL.inv]
  have hd2 : ∀ i ∈ idxs, 0 ≤ i ∧
      ∃ b, (L.setupBricks w h).m_bricks[i.toNat]? = some b ∧ b.isLive = true := by
    intro i hi
    obtain ⟨h0, b, hb, ha, hn⟩ := hdestr i hi
    exact ⟨h0, b, hb, by simp [Brick.isLive, ha, hn]⟩
  have hN := Level.processBrickHits_count idxs (L.setupBricks w h) hinv hdistinct hd2
  have hafter : ((L.setupBricks w h).processBrickHits idxs).Inv := by
    have : ∀ (l : List Int) (M : Level), M.Inv → (M.processBrickHits l).Inv := by
      intro l
      induction l with
      | nil => intro M hM; exact hM
      | cons i rest ih => intro M hM; exact ih _ (Level.inv_processBrickHit M i hM)
    exact this idxs _ hinv
  have hnonneg : (0 : Int) ≤ ((L.setupBricks w h).processBrickHits idxs).m_activeBrickCount := by
    rw [hafter.count]
    exact Int.natCast_nonneg _
  refine ⟨hD, ?_, ?_⟩
  · unfold Level.getActiveBrickCount
    rw [hN, hD]
  · rw [hN, hD] at hnonneg
    omega

theorem Level.activeBrickCount_after_hits_witness :
    ((Level.new.setGridState 0 0 7).setupBricks 1289 1000).getActiveBrickCount =
        (destructibleCellCount (Level.new.setGridState 0 0 7).m_gridState : Int) ∧
      (((Level.new.setGridState 0 0 7).setupBricks 1289 1000).processBrickHits [0]).getActiveBrickCount
        = (destructibleCellCount (Level.new.setGridState 0 0 7).m_gridState : Int) -
            (([0] : List Int).length : Int) ∧
      ([0] : List Int).length ≤ destructibleCellCount (Level.new.setGridState 0 0 7).m_gridState :=
  Level.activeBrickCount_after_hits (Level.new.setGridState 0 0 7)
    (Reachable.setGridState _ _ _ _ Reachable.new) 1289 1000 [0] (by simp)
    (by
      intro i hi
      have hi0 : i = 0 := by simpa using hi
      subst hi0
      refine ⟨le_refl _, (Level.new.setGridState 0 0 7 |>.calculateGridDimensions 1289 1000).brickForCell
        0 0 Brick.new, ?_, ?_, ?_⟩
      · have hlen : (Level.new.setGridState 0 0 7).m_bricks.length = 112 :=
          (Reachable.setGridState _ _ _ _ Reachable.new).inv.length
        rw [show (0 : Int).toNat = 0 from rfl, setupBricks_getElem? _ _ _ hlen 0 (by decide)]
        rfl
      · rfl
      · rfl)

/-! ## The text `save` writes -/

theorem saveText_row (g : Grid) (r : Nat) (out : List Char) :
    (List.range Config.GRID_COLS).foldl
        (fun out c =>
          out ++ renderInt (g r c) ++ (if c = Config.GRID_COLS - 1 then [] else [' ']))
        out ++ ['\n'] = out ++ rowLine g r := by
  simp [rowLine, Config.GRID_COLS, List.range, List.range.loop, List.intercalate,
    List.intersperse]

theorem saveText_eq_formatText (g : Grid) : Level.saveText g = formatText g := by
  unfold Level.saveText formatText
  simp only [saveText_row]
  simp [Config.GRID_ROWS, List.range, List.range.loop]

theorem formatText_eq_textFrom (g : Grid) : formatText g = textFrom g 0 112 := by
  simp [formatText, textFrom, cellText, rowLine, Config.GRID_COLS, Config.GRID_ROWS, List.range, List.range.loop,
    List.intercalate, List.intersperse, List.range']

/-! ## Stream extraction -/

theorem isSpace_not_isDigit (c : Char) (h : isSpace c = true) : c.isDigit = false := by
  simp only [isSpace, Bool.or_eq_true, decide_eq_true_eq] at h
  rcases h with ((((h | h) | h) | h) | h) | h <;> subst h <;> decide

theorem isDigit_not_isSpace (c : Char) (h : c.isDigit = true) : isSpace c = false := by
  cases hs : isSpace c with
  | false => rfl
  | true => rw [isSpace_not_isDigit c hs] at h; exact absurd h (by decide)

theorem dropWhile_append_of_all {α : Type} (p : α → Bool) (l t : List α)
    (h : ∀ c ∈ l, p c = true) : (l ++ t).dropWhile p = t.dropWhile p := by
  induction l with
  | nil => rfl
  | cons a l ih =>
    have ha : p a = true := h a (List.mem_cons_self a l)
    simp only [List.cons_append, List.dropWhile_cons, ha, if_true]
    exact ih (fun c hc => h c (List.mem_cons_of_mem a hc))

theorem takeWhile_append_of_all {α : Type} (p : α → Bool) (l t : List α)
    (h : ∀ c ∈ l, p c = true) : (l ++ t).takeWhile p = l ++ t.takeWhile p := by
  induction l with
  | nil => rfl
  | cons a l ih =>
    have ha : p a = true := h a (List.mem_cons_self a l)
    simp only [List.cons_append, List.takeWhile_cons, ha, if_true]
    rw [ih (fun c hc => h c (List.mem_cons_of_mem a hc))]

theorem takeWhile_isDigit_of_endsToken (rest : List Char) (h : EndsToken rest) :
    rest.takeWhile Char.isDigit = [] := by
  cases rest with
  | nil => rfl
  | cons a t =>
    have : a.isDigit = false := h a (by simp)
    simp [List.takeWhile_cons, this]

theorem dropWhile_isDigit_of_endsToken (rest : List Char) (h : EndsToken rest) :
    rest.dropWhile Char.isDigit = rest := by
  cases rest with
  | nil => rfl
  | cons a t =>
    have : a.isDigit = false := h a (by simp)
    simp [List.dropWhile_cons, this]

theorem dropWhile_isSpace_digits (ds rest : List Char) (hne : ds ≠ [])
    (hd : ∀ c ∈ ds, c.isDigit = true) :
    (ds ++ rest).dropWhile isSpace = ds ++ rest := by
  cases ds with
  | nil => exact absurd rfl hne
  | cons a t =>
    have : isSpace a = false := isDigit_not_isSpace a (hd a (List.mem_cons_self a t))
    simp [List.dropWhile_cons, this]

theorem splitSign_digits (ds rest : List Char) (hne : ds ≠ [])
    (hd : ∀ c ∈ ds, c.isDigit = true) : splitSign (ds ++ rest) = (false, ds ++ rest) := by
  cases ds with
  | nil => exact absurd rfl hne
  | cons a t =>
    have ha : a.isDigit = true := hd a (List.mem_cons_self a t)
    have hm : a ≠ '-' := by rintro rfl; exact absurd ha (by decide)
    have hp : a ≠ '+' := by rintro rfl; exact absurd ha (by decide)
    simp only [List.cons_append]
    unfold splitSign
    split
    · next u heq => simp at heq; exact absurd heq.1 hm
    · next u heq => simp at heq; exact absurd heq.1 hp
    · rfl

theorem extractInt_signed (neg : Bool) (pre ds rest : List Char)
    (hsplit : splitSign (pre.dropWhile isSpace) = (neg, ds ++ rest)) (hne : ds ≠ [])
    (hd : ∀ c ∈ ds, c.isDigit = true) (hrest : EndsToken rest) :
    IStream.extractInt { buf := pre, failbit := false } = extractResult neg ds rest := by
  unfold IStream.extractInt extractResult
  simp only [Bool.false_eq_true, if_false, hsplit]
  rw [takeWhile_append_of_all Char.isDigit ds rest hd, dropWhile_append_of_all Char.isDigit ds rest hd,
    takeWhile_isDigit_of_endsToken rest hrest, dropWhile_isDigit_of_endsToken rest hrest,
    List.append_nil, if_neg hne]

/-- Extraction of an integer literal that fits an `int`. -/
theorem extractInt_literal (ws t rest : List Char) (v : Int) (hws : IsWhitespace ws)
    (ht : IsIntLiteral t v) (hrange : INT_MIN ≤ v ∧ v ≤ INT_MAX) (hrest : EndsToken rest) :
    IStream.extractInt { buf := ws ++ (t ++ rest), failbit := false } =
      (some v, { buf := rest, failbit := false }) := by
  obtain ⟨ds, hne, hd, h⟩ := ht
  have hnr : ¬ (v < INT_MIN ∨ INT_MAX < v) := by omega
  rcases h with ⟨ht, hv⟩ | ⟨ht, hv⟩ | ⟨ht, hv⟩ <;> rw [ht]
  · rw [extractInt_signed false _ ds rest
      (by rw [dropWhile_append_of_all isSpace ws _ hws, dropWhile_isSpace_digits ds rest hne hd,
            splitSign_digits ds rest hne hd]) hne hd hrest]
    simp only [extractResult, Bool.false_eq_true, if_false, ← hv, if_neg hnr]
  · rw [extractInt_signed false _ ds rest
      (by rw [dropWhile_append_of_all isSpace ws _ hws]; rfl) hne hd hrest]
    simp only [extractResult, Bool.false_eq_true, if_false, ← hv, if_neg hnr]
  · rw [extractInt_signed true _ ds rest
      (by rw [dropWhile_append_of_all isSpace ws _ hws]; rfl) hne hd hrest]
    simp only [extractResult, if_true, ← hv, if_neg hnr]

/-- Extraction of an integer literal outside the range of `int` fails. -/
theorem extractInt_overflow (ws t rest : List Char) (v : Int) (hws : IsWhitespace ws)
    (ht : IsIntLiteral t v) (hrange : v < INT_MIN ∨ INT_MAX < v) (hrest : EndsToken rest) :
    IStream.extractInt { buf := ws ++ (t ++ rest), failbit := false } =
      (none, { buf := rest, failbit := true }) := by
  obtain ⟨ds, hne, hd, h⟩ := ht
  rcases h with ⟨ht, hv⟩ | ⟨ht, hv⟩ | ⟨ht, hv⟩ <;> rw [ht]
  · rw [extractInt_signed false _ ds rest
      (by rw [dropWhile_append_of_all isSpace ws _ hws, dropWhile_isSpace_digits ds rest hne hd,
            splitSign_digits ds rest hne hd]) hne hd hrest]
    simp only [extractResult, Bool.false_eq_true, if_false, ← hv, if_pos hrange]
  · rw [extractInt_signed false _ ds rest
      (by rw [dropWhile_append_of_all isSpace ws _ hws]; rfl) hne hd hrest]
    simp only [extractResult, Bool.false_eq_true, if_false, ← hv, if_pos hrange]
  · rw [extractInt_signed true _ ds rest
      (by rw [dropWhile_append_of_all isSpace ws _ hws]; rfl) hne hd hrest]
    simp only [extractResult, if_true, ← hv, if_pos hrange]

/-- Extraction at the end of the text (only whitespace left) fails. -/
theorem extractInt_eof (ws : List Char) (hws : IsWhitespace ws) :
    IStream.extractInt { buf := ws, failbit := false } = (none, { buf := [], failbit := true }) := by
  have h := dropWhile_append_of_all isSpace ws [] hws
  rw [List.append_nil] at h
  unfold IStream.extractInt
  simp only [Bool.false_eq_true, if_false, h]
  rfl

/-- An extraction that yields nothing leaves the stream in fail state. -/
theorem extractInt_none_failbit (s : IStream) (h : s.extractInt.1 = none) :
    s.extractInt.2.failbit = true := by
  unfold IStream.extractInt at h ⊢
  by_cases hf : s.failbit = true
  · simp [hf]
  · simp only [hf, if_false] at h ⊢
    split_ifs at h ⊢ <;> simp_all

/-- Extraction from a stream in fail state fails and leaves the stream as it is. -/
theorem extractInt_failed (s : IStream) (h : s.failbit = true) : s.extractInt = (none, s) := by
  unfold IStream.extractInt
  simp [h]

/-! ## `load` on a text of integer tokens -/

theorem tokensFrom_succ (ws tok : Nat → List Char) (s n : Nat) :
    tokensFrom ws tok s (n + 1) = (ws s ++ tok s) ++ tokensFrom ws tok (s + 1) n := by
  simp [tokensFrom, List.range'_succ]

theorem endsToken_of_space (rest : List Char)
    (h : rest = [] ∨ ∃ c t, rest = c :: t ∧ isSpace c = true) : EndsToken rest := by
  rcases h with rfl | ⟨c, t, rfl, hc⟩
  · intro c hc
    simp at hc
  · intro d hd
    simp only [List.head?_cons, Option.mem_def, Option.some.injEq] at hd
    subst hd
    exact isSpace_not_isDigit c hc

theorem endsToken_tokensFrom (ws tok : Nat → List Char) (n : Nat) (tail : List Char) (s : Nat)
    (hs : 0 < s) (hsn : s ≤ n) (hsp : ∀ i, i < n → IsWhitespace (ws i))
    (hsep : ∀ i, 0 < i → i < n → ws i ≠ [])
    (htail : 0 < n → tail = [] ∨ ∃ c rest, tail = c :: rest ∧ isSpace c = true) :
    EndsToken (tokensFrom ws tok s (n - s) ++ tail) := by
  by_cases hlt : s < n
  · have e : n - s = (n - s - 1) + 1 := by omega
    rw [e, tokensFrom_succ]
    apply endsToken_of_space
    right
    cases hw : ws s with
    | nil => exact absurd hw (hsep s hs hlt)
    | cons a t =>
      exact ⟨a, t ++ (tok s ++ (tokensFrom ws tok (s + 1) (n - s - 1) ++ tail)), by simp,
        hsp s hlt a (by rw [hw]; exact List.mem_cons_self a t)⟩
  · have e : n - s = 0 := by omega
    rw [e]
    simpa [tokensFrom] using endsToken_of_space tail (htail (by omega))

theorem validScoreCode_zero : validScoreCode 0 = true := by decide

theorem loadCell_step (ws tok : Nat → List Char) (v : Nat → Int) (n : Nat) (tail : List Char)
    (g0 : Grid) (hsp : ∀ i, i < n → IsWhitespace (ws i))
    (hsep : ∀ i, 0 < i → i < n → ws i ≠ [])
    (htail : 0 < n → tail = [] ∨ ∃ c rest, tail = c :: rest ∧ isSpace c = true)
    (hlit : ∀ i, i < n → IsIntLiteral (tok i) (v i))
    (hrange : ∀ i, i < n → INT_MIN ≤ v i ∧ v i ≤ INT_MAX)
    (hstop : n < 112 → (IStream.extractInt { buf := tail, failbit := false }).1 = none)
    (r c : Nat) (st : Level.LoadState) (hr : r < 8) (hc : c < 14)
    (h : LoadInv ws tok v n tail g0 (14 * r + c) st) :
    LoadInv ws tok v n tail g0 (14 * r + c + 1) (Level.loadCell r c st) := by
  have hcells : ∀ (x : Int) (g : Grid),
      (∀ r1 c1, g r1 c1 = if c1 < 14 ∧ 14 * r1 + c1 < 14 * r + c
        then (if 14 * r1 + c1 < n then coerceCode (v (14 * r1 + c1)) else 0) else g0 r1 c1) →
      x = (if 14 * r + c < n then coerceCode (v (14 * r + c)) else 0) →
      ∀ r1 c1, g.set r c x r1 c1 = if c1 < 14 ∧ 14 * r1 + c1 < 14 * r + c + 1
        then (if 14 * r1 + c1 < n then coerceCode (v (14 * r1 + c1)) else 0) else g0 r1 c1 := by
    intro x g hg hx r1 c1
    unfold Grid.set
    by_cases hrc : r1 = r ∧ c1 = c
    · obtain ⟨rfl, rfl⟩ := hrc
      simp [hc, hx]
    · rw [if_neg hrc, hg r1 c1]
      by_cases hc1 : c1 < 14
      · have hiff : (14 * r1 + c1 < 14 * r + c + 1) ↔ (14 * r1 + c1 < 14 * r + c) := by
          constructor
          · intro hlt
            have : ¬ (14 * r1 + c1 = 14 * r + c) := by
              intro he
              exact hrc ⟨by omega, by omega⟩
            omega
          · intro hlt
            omega
        simp only [hc1, true_and, hiff]
      · simp [hc1]
  rcases Nat.lt_trichotomy (14 * r + c) n with hk | hk | hk
  · -- a token is left
    obtain ⟨hfile, hsucc⟩ := h.reading (le_of_lt hk)
    have e : n - (14 * r + c) = (n - (14 * r + c + 1)) + 1 := by omega
    have hx := extractInt_literal (ws (14 * r + c)) (tok (14 * r + c))
      (tokensFrom ws tok (14 * r + c + 1) (n - (14 * r + c + 1)) ++ tail) (v (14 * r + c))
      (hsp _ hk) (hlit _ hk) (hrange _ hk)
      (endsToken_tokensFrom ws tok n tail (14 * r + c + 1) (by omega) (by omega) hsp hsep htail)
    have hbuf : st.levelFile = { buf := ws (14 * r + c) ++ (tok (14 * r + c) ++
        (tokensFrom ws tok (14 * r + c + 1) (n - (14 * r + c + 1)) ++ tail)), failbit := false } := by
      rw [hfile, e, tokensFrom_succ]
      simp [List.append_assoc]
    unfold Level.loadCell
    rw [hbuf, hx]
    refine { reading := ?_, failed := ?_, cells := ?_ }
    · intro _
      refine ⟨rfl, ?_⟩
      simp only [hsucc, List.range_succ, List.all_append, List.all_cons, List.all_nil,
        Bool.and_true]
      by_cases hv : validScoreCode (v (14 * r + c)) = true
      · simp [hv]
      · have hne : v (14 * r + c) ≠ 0 := by
          intro h0
          rw [h0] at hv
          exact hv validScoreCode_zero
        simp [hv, hne]
    · intro hlt
      omega
    · exact hcells _ _ h.cells (by simp [hk, coerceCode])
  · -- the tokens are used up
    obtain ⟨hfile, hsucc⟩ := h.reading (le_of_eq hk)
    have hn : n < 112 := by omega
    have hbuf : st.levelFile = { buf := tail, failbit := false } := by
      rw [hfile, hk]
      simp [tokensFrom]
    have hnone := hstop hn
    have hfb := extractInt_none_failbit _ hnone
    unfold Level.loadCell
    rw [hbuf]
    cases hx : IStream.extractInt { buf := tail, failbit := false } with
    | mk o s1 =>
      rw [hx] at hnone hfb
      simp only at hnone hfb
      subst hnone
      refine { reading := ?_, failed := ?_, cells := ?_ }
      · intro hle
        omega
      · intro _
        exact ⟨hfb, rfl⟩
      · exact hcells _ _ h.cells (by simp [hk])
  · -- the stream has failed before
    obtain ⟨hfail, hsucc⟩ := h.failed hk
    unfold Level.loadCell
    rw [extractInt_failed st.levelFile hfail]
    refine { reading := ?_, failed := ?_, cells := ?_ }
    · intro hle
      omega
    · intro _
      exact ⟨hfail, rfl⟩
    · exact hcells _ _ h.cells (by simp [not_lt_of_gt hk])

theorem Level.load_fst_of_some (L : Level) (fs : FileSystem) (filename : String)
    (text : List Char) (h : fs.contents filename = some text) :
    (L.load fs filename).1 =
      (forGrid Level.loadCell { levelFile := { buf := text, failbit := false }
                                grid := L.m_gridState, success := true }).success := by
  unfold Level.load
  rw [h]

/-- The reading loop of `load` on a text of `n ≤ 112` integer tokens that fit an `int`. -/
theorem loadCell_loop (ws tok : Nat → List Char) (v : Nat → Int) (n : Nat) (tail text : List Char)
    (g0 : Grid) (htext : IsTokenText text n ws tok tail)
    (hlit : ∀ i, i < n → IsIntLiteral (tok i) (v i))
    (hrange : ∀ i, i < n → INT_MIN ≤ v i ∧ v i ≤ INT_MAX)
    (hstop : n < 112 → (IStream.extractInt { buf := tail, failbit := false }).1 = none) :
    LoadInv ws tok v n tail g0 112
      (forGrid Level.loadCell { levelFile := { buf := text, failbit := false }
                                grid := g0, success := true }) := by
  apply forGrid_induction Level.loadCell (LoadInv ws tok v n tail g0)
  · refine { reading := ?_, failed := ?_, cells := ?_ }
    · intro _
      exact ⟨by rw [htext.text_eq]; rfl, rfl⟩
    · intro h
      exact absurd h (Nat.not_lt_zero n)
    · intro r c
      simp
  · intro r c st hr hc hst
    exact loadCell_step ws tok v n tail g0 htext.ws_space htext.ws_sep htext.tail_sep hlit hrange
      hstop r c st hr hc hst

/-- What `load` does with an openable file of `n ≤ 112` whitespace-separated integer tokens
that fit an `int`, when `n < 112` followed by something on which extraction fails. -/
theorem Level.load_token_text (L : Level) (fs : FileSystem) (filename : String)
    (text : List Char) (n : Nat) (ws tok : Nat → List Char) (tail : List Char) (v : Nat → Int)
    (hopen : fs.contents filename = some text) (htext : IsTokenText text n ws tok tail)
    (hn : n ≤ 112) (hlit : ∀ i, i < n → IsIntLiteral (tok i) (v i))
    (hrange : ∀ i, i < n → INT_MIN ≤ v i ∧ v i ≤ INT_MAX)
    (hstop : n < 112 → (IStream.extractInt { buf := tail, failbit := false }).1 = none) :
    (∀ r c, r < 8 → c < 14 →
      (L.load fs filename).2.1.m_gridState r c =
        if 14 * r + c < n then coerceCode (v (14 * r + c)) else 0) ∧
    ((L.load fs filename).1 = true ↔ n = 112 ∧ ∀ i, i < 112 → validScoreCode (v i) = true) := by
  have hloop := loadCell_loop ws tok v n tail text L.m_gridState htext hlit hrange hstop
  constructor
  · intro r c hr hc
    rw [Level.load_level_of_some L fs filename text hopen]
    simp only
    rw [hloop.cells r c]
    have : 14 * r + c < 112 := by omega
    simp [hc, this]
  · rw [Level.load_fst_of_some L fs filename text hopen]
    by_cases h112 : n = 112
    · subst h112
      rw [(hloop.reading (le_refl _)).2]
      simp [List.all_eq_true]
    · rw [(hloop.failed (by omega)).2]
      simp [h112]

/-! ## Decimal renderings -/

theorem digitChar_spec (d : Nat) (h : d < 10) :
    (Nat.digitChar d).isDigit = true ∧ (Nat.digitChar d).toNat - 48 = d := by
  interval_cases d <;> decide

theorem digitsValue_concat (ds : List Char) (d : Char) :
    digitsValue (ds ++ [d]) = 10 * digitsValue ds + (d.toNat - 48) := by
  simp [digitsValue, List.foldl_append]

theorem toDigitsCore_spec (fuel : Nat) : ∀ (n : Nat) (ds : List Char), n < fuel →
    ∃ pre, Nat.toDigitsCore 10 fuel n ds = pre ++ ds ∧ pre ≠ [] ∧
      (∀ c ∈ pre, c.isDigit = true) ∧ digitsValue pre = n := by
  induction fuel with
  | zero => intro n ds h; exact absurd h (Nat.not_lt_zero n)
  | succ fuel ih =>
    intro n ds hn
    have hd := digitChar_spec (n % 10) (Nat.mod_lt n (by decide))
    simp only [Nat.toDigitsCore]
    by_cases h0 : n / 10 = 0
    · rw [if_pos h0]
      refine ⟨[Nat.digitChar (n % 10)], rfl, by simp, ?_, ?_⟩
      · intro c hc
        rw [List.mem_singleton] at hc
        rw [hc]
        exact hd.1
      · have : digitsValue [Nat.digitChar (n % 10)] = (Nat.digitChar (n % 10)).toNat - 48 := by
          simp [digitsValue]
        rw [this, hd.2]
        omega
    · rw [if_neg h0]
      obtain ⟨pre, hpre, _, hdig, hval⟩ := ih (n / 10) (Nat.digitChar (n % 10) :: ds) (by omega)
      refine ⟨pre ++ [Nat.digitChar (n % 10)], by rw [hpre]; simp, by simp, ?_, ?_⟩
      · intro c hc
        rcases List.mem_append.1 hc with h | h
        · exact hdig c h
        · rw [List.mem_singleton] at h
          rw [h]
          exact hd.1
      · rw [digitsValue_concat, hval, hd.2]
        omega

theorem toDigits_spec (n : Nat) :
    Nat.toDigits 10 n ≠ [] ∧ (∀ c ∈ Nat.toDigits 10 n, c.isDigit = true) ∧
      digitsValue (Nat.toDigits 10 n) = n := by
  obtain ⟨pre, hpre, hne, hdig, hval⟩ := toDigitsCore_spec (n + 1) n [] (Nat.lt_succ_self n)
  rw [List.append_nil] at hpre
  unfold Nat.toDigits
  rw [hpre]
  exact ⟨hne, hdig, hval⟩

/-- The rendering of an `int` is a decimal literal (without plus sign) that denotes it. -/
theorem renderInt_literal (v : Int) : IsIntLiteral (renderInt v) v := by
  unfold renderInt
  by_cases hv : v < 0
  · rw [if_pos hv]
    obtain ⟨hne, hdig, hval⟩ := toDigits_spec v.natAbs
    refine ⟨_, hne, hdig, Or.inr (Or.inr ⟨rfl, ?_⟩)⟩
    rw [hval]
    omega
  · rw [if_neg hv]
    obtain ⟨hne, hdig, hval⟩ := toDigits_spec v.toNat
    refine ⟨_, hne, hdig, Or.inl ⟨rfl, ?_⟩⟩
    rw [hval]
    omega

theorem renderInt_chars (v : Int) :
    renderInt v ≠ [] ∧ ∀ ch ∈ renderInt v, ch = '-' ∨ ch.isDigit = true := by
  unfold renderInt
  by_cases hv : v < 0
  · rw [if_pos hv]
    refine ⟨by simp, ?_⟩
    intro ch hch
    rcases List.mem_cons.1 hch with h | h
    · exact Or.inl h
    · exact Or.inr ((toDigits_spec v.natAbs).2.1 ch h)
  · rw [if_neg hv]
    exact ⟨(toDigits_spec v.toNat).1, fun ch hch => Or.inr ((toDigits_spec v.toNat).2.1 ch hch)⟩

/-! ## Persistence -/

theorem textFrom_succ (g : Grid) (s n : Nat) :
    textFrom g s (n + 1) = cellText g s ++ textFrom g (s + 1) n := by
  simp [textFrom, List.range'_succ]

theorem savedSeparator_succ (s : Nat) :
    savedSeparator (s + 1) = [if s % 14 = 13 then '\n' else ' '] := by
  simp [savedSeparator]

theorem separator_textFrom (g : Grid) (n : Nat) : ∀ s,
    savedSeparator s ++ textFrom g s n =
      tokensFrom savedSeparator (fun i => renderInt (g (i / 14) (i % 14))) s n ++
        savedSeparator (s + n) := by
  induction n with
  | zero =>
    intro s
    simp [textFrom, tokensFrom]
  | succ n ih =>
    intro s
    have h := ih (s + 1)
    rw [textFrom_succ, tokensFrom_succ]
    have e : s + (n + 1) = s + 1 + n := by omega
    rw [e, List.append_assoc (savedSeparator s ++ _), ← h, savedSeparator_succ]
    simp [cellText]

theorem textFrom_eq_tokensFrom (g : Grid) :
    textFrom g 0 112 =
      tokensFrom savedSeparator (fun i => renderInt (g (i / 14) (i % 14))) 0 112 ++ ['\n'] := by
  have h := separator_textFrom g 112 0
  have e0 : savedSeparator 0 = [] := rfl
  have e1 : savedSeparator (0 + 112) = ['\n'] := by decide
  rw [e0, e1, List.nil_append] at h
  exact h

theorem savedSeparator_space (i : Nat) : IsWhitespace (savedSeparator i) := by
  intro c hc
  unfold savedSeparator at hc
  split_ifs at hc with h0 h1
  · simp at hc
  · simp only [List.mem_singleton] at hc
    subst hc
    decide
  · simp only [List.mem_singleton] at hc
    subst hc
    decide

theorem validScoreCode_range (v : Int) (h : validScoreCode v = true) :
    INT_MIN ≤ v ∧ v ≤ INT_MAX := by
  simp only [validScoreCode, Config.SCORE_INDESTRUCTIBLE, Config.SCORE_YELLOW,
    Config.SCORE_GREEN, Config.SCORE_ORANGE, Config.SCORE_RED, Bool.or_eq_true,
    decide_eq_true_eq] at h
  unfold INT_MIN INT_MAX
  omega

theorem saveText_isTokenText (g : Grid) :
    IsTokenText (Level.saveText g) 112 savedSeparator
      (fun i => renderInt (g (i / 14) (i % 14))) ['\n'] :=
  { text_eq := by rw [saveText_eq_formatText, formatText_eq_textFrom, textFrom_eq_tokensFrom]
    ws_space := fun i _ => savedSeparator_space i
    ws_sep := by
      intro i hi _
      unfold savedSeparator
      rw [if_neg (by omega)]
      simp
    tail_sep := fun _ => Or.inr ⟨'\n', [], rfl, by decide⟩ }

theorem Level.save_of_writable (L : Level) (fs : FileSystem) (filename : String)
    (hw : fs.writable filename = true) :
    L.save fs filename = (true, fs.write filename (Level.saveText L.m_gridState)) := by
  simp [Level.save, hw]

theorem Level.save_of_not_writable (L : Level) (fs : FileSystem) (filename : String)
    (hw : fs.writable filename = false) : L.save fs filename = (false, fs) := by
  simp [Level.save, hw]

/-- Loading the text `save` writes for a grid of valid codes gives the grid back. -/
theorem Level.load_saveText (L2 : Level) (fs : FileSystem) (filename : String) (g : Grid)
    (hg : GridValid g) (hopen : fs.contents filename = some (Level.saveText g)) :
    (L2.load fs filename).1 = true ∧
      ∀ r c, r < 8 → c < 14 → (L2.load fs filename).2.1.m_gridState r c = g r c := by
  obtain ⟨hcells, hret⟩ := Level.load_token_text L2 fs filename (Level.saveText g) 112
    savedSeparator (fun i => renderInt (g (i / 14) (i % 14))) ['\n']
    (fun i => g (i / 14) (i % 14)) hopen (saveText_isTokenText g) (le_refl _)
    (fun i _ => renderInt_literal _) (fun i _ => validScoreCode_range _ (hg _ _))
    (fun h => absurd h (by decide))
  refine ⟨hret.2 ⟨rfl, fun i _ => hg _ _⟩, ?_⟩
  intro r c hr hc
  rw [hcells r c hr hc]
  have e1 : (14 * r + c) / 14 = r := by omega
  have e2 : (14 * r + c) % 14 = c := by omega
  have hlt : 14 * r + c < 112 := by omega
  simp [hlt, e1, e2, coerceCode, hg r c]

/-- C5: grid round-trip. For every grid state a level can hold, `save` (on a path that can
be opened for writing) writes a text from which `load`, called on any level, returns `true`
and reproduces the identical 8 x 14 matrix of codes. -/
theorem Level.save_load_roundtrip (L : Level) (hL : Reachable L) (fs : FileSystem)
    (filename : String) (hw : fs.writable filename = true) (L2 : Level) :
    (L.save fs filename).1 = true ∧
      (L2.load (L.save fs filename).2 filename).1 = true ∧
      ∀ r c, r < 8 → c < 14 →
        (L2.load (L.save fs filename).2 filename).2.1.m_gridState r c = L.m_gridState r c := by
  rw [Level.save_of_writable L fs filename hw]
  have hopen : (fs.write filename (Level.saveText L.m_gridState)).contents filename =
      some (Level.saveText L.m_gridState) := by
    simp [FileSystem.write]
  exact ⟨rfl, Level.load_saveText L2 _ filename L.m_gridState hL.inv.grid hopen⟩

theorem Level.save_load_roundtrip_witness :
    (Level.new.save emptyDisk "level.txt").1 = true ∧
      (Level.new.load (Level.new.save emptyDisk "level.txt").2 "level.txt").1 = true ∧
      ∀ r c, r < 8 → c < 14 →
        (Level.new.load (Level.new.save emptyDisk "level.txt").2 "level.txt").2.1.m_gridState r c =
          Level.new.m_gridState r c :=
  Level.save_load_roundtrip Level.new Reachable.new emptyDisk "level.txt" rfl Level.new

/-- C8: the text `Level::save` sends to the file is, for every grid state, exactly 8 lines,
line `r` being the decimal renderings of the 14 codes of logical row `r` in column order,
separated by exactly one space, with no trailing space and ended by one newline; each
rendering is a decimal literal denoting its code, made of digits and at most a leading
minus sign (so it holds no space and no newline); on a writable path this text becomes
the content of the file. -/
theorem Level.save_text_format (L : Level) :
    Level.saveText L.m_gridState =
        ((List.range 8).map fun r =>
          List.intercalate [' '] ((List.range 14).map fun c => renderInt (L.m_gridState r c))
            ++ ['\n']).flatten ∧
      (∀ r c, IsIntLiteral (renderInt (L.m_gridState r c)) (L.m_gridState r c) ∧
        renderInt (L.m_gridState r c) ≠ [] ∧
        ∀ ch ∈ renderInt (L.m_gridState r c), ch = '-' ∨ ch.isDigit = true) ∧
      ∀ (fs : FileSystem) (filename : String), fs.writable filename = true →
        L.save fs filename = (true, fs.write filename (Level.saveText L.m_gridState)) ∧
        (L.save fs filename).2.contents filename = some (Level.saveText L.m_gridState) := by
  refine ⟨?_, ?_, ?_⟩
  · rw [saveText_eq_formatText]
    rfl
  · intro r c
    exact ⟨renderInt_literal _, renderInt_chars _⟩
  · intro fs filename hw
    rw [Level.save_of_writable L fs filename hw]
    exact ⟨rfl, by simp [FileSystem.write]⟩

theorem Level.save_text_format_witness :
    emptyDisk.writable "level.txt" = true ∧
      (sampleLevel.save emptyDisk "level.txt").2.contents "level.txt" =
        some (Level.saveText sampleLevel.m_gridState) :=
  ⟨rfl, ((Level.save_text_format sampleLevel).2.2 emptyDisk "level.txt" rfl).2⟩

/-! ## `load` without a file -/

theorem defaultLayoutCell_eq (r c : Nat) (g : Grid) (hr : r < 8) :
    Level.defaultLayoutCell r c g = g.set r c (tierScore r) := by
  unfold Level.defaultLayoutCell tierScore
  split_ifs <;> rfl

/-- The default layout the loop nest of `load` builds over a grid `g0`. -/
theorem defaultLayout_cells (g0 : Grid) :
    ∀ r c, r < 8 → c < 14 → forGrid Level.defaultLayoutCell g0 r c = tierScore r := by
  have h := forGrid_induction Level.defaultLayoutCell
    (fun k g => ∀ r c, c < 14 → 14 * r + c < k → g r c = tierScore r) g0
    (by intro r c _ h; exact absurd h (Nat.not_lt_zero _))
    (by
      intro r c g hr hc hg r1 c1 hc1 hlt
      rw [defaultLayoutCell_eq r c g hr]
      unfold Grid.set
      by_cases hrc : r1 = r ∧ c1 = c
      · rw [if_pos hrc, hrc.1]
      · rw [if_neg hrc]
        apply hg r1 c1 hc1
        have : ¬ (14 * r1 + c1 = 14 * r + c) := fun he => hrc ⟨by omega, by omega⟩
        omega)
  intro r c hr hc
  exact h r c hc (by omega)

/-- C6 as stated fails: where the path can be opened neither for reading nor for writing,
`load` still builds the default layout and returns `true`, but `save` writes nothing; no
file exists at the path afterwards. -/
theorem Level.load_missing_unwritable :
    lockedDisk.contents "level.txt" = none ∧
      (Level.new.load lockedDisk "level.txt").1 = true ∧
      (Level.new.load lockedDisk "level.txt").2.2.contents "level.txt" = none := by
  refine ⟨rfl, ?_, ?_⟩
  · simp [Level.load, lockedDisk]
  · simp [Level.load, Level.save, lockedDisk]

/-- C6 (amended): `Level::load` on a file that cannot be opened sets every cell of logical
rows 0-1 to 7, rows 2-3 to 5, rows 4-5 to 3 and rows 6-7 to 1 (all 14 columns) and returns
`true`; if the path can be opened for writing it saves exactly that layout (in the format
of `save`) to the same path, and otherwise it leaves the file system as it is. -/
theorem Level.load_missing_file (L : Level) (fs : FileSystem) (filename : String)
    (hmissing : fs.contents filename = none) :
    (L.load fs filename).1 = true ∧
      (∀ r c, r < 8 → c < 14 →
        (L.load fs filename).2.1.m_gridState r c =
          if r < 2 then 7 else if r < 4 then 5 else if r < 6 then 3 else 1) ∧
      (fs.writable filename = true →
        (L.load fs filename).2.2.contents filename =
          some (Level.saveText (L.load fs filename).2.1.m_gridState)) ∧
      (fs.writable filename = false → (L.load fs filename).2.2 = fs) := by
  have hlevel := Level.load_level_of_none L fs filename hmissing
  have hfs : (L.load fs filename).2.2 =
      (Level.save { L with m_gridState := forGrid Level.defaultLayoutCell L.m_gridState }
        fs filename).2 := by
    unfold Level.load
    rw [hmissing]
  have hret : (L.load fs filename).1 = true := by
    unfold Level.load
    rw [hmissing]
  refine ⟨hret, ?_, ?_, ?_⟩
  · intro r c hr hc
    rw [hlevel]
    exact defaultLayout_cells L.m_gridState r c hr hc
  · intro hw
    rw [hfs, hlevel, Level.save_of_writable _ fs filename hw]
    simp [FileSystem.write]
  · intro hw
    rw [hfs, Level.save_of_not_writable _ fs filename hw]

theorem Level.load_missing_file_witness :
    emptyDisk.contents "level.txt" = none ∧
      (Level.new.load emptyDisk "level.txt").1 = true ∧
      (Level.new.load emptyDisk "level.txt").2.1.m_gridState 3 4 = 5 ∧
      (Level.new.load emptyDisk "level.txt").2.2.contents "level.txt" =
        some (Level.saveText (Level.new.load emptyDisk "level.txt").2.1.m_gridState) :=
  ⟨rfl, (Level.load_missing_file Level.new emptyDisk "level.txt" rfl).1,
   (Level.load_missing_file Level.new emptyDisk "level.txt" rfl).2.1 3 4 (by decide) (by decide),
   (Level.load_missing_file Level.new emptyDisk "level.txt" rfl).2.2.1 rfl⟩

/-! ## `load` on integer tokens -/

theorem overflowText_extract :
    (IStream.extractInt { buf := overflowText, failbit := false }).1 = none := by
  have e : overflowText = [] ++ ("2147483648".toList ++
      tokensFrom (fun i => if i = 0 then [] else [' '])
        (fun i => if i = 0 then "2147483648".toList else ['7']) 1 111) := by
    unfold overflowText
    rw [tokensFrom_succ]
    rfl
  rw [e, extractInt_overflow [] "2147483648".toList _ 2147483648 (fun c hc => by simp at hc)
    ⟨"2147483648".toList, by decide, by decide, Or.inl ⟨rfl, by decide⟩⟩ (Or.inr (by decide))
    (by
      rw [tokensFrom_succ]
      intro c hc
      simp at hc
      subst hc
      decide)]

/-- C7 as stated fails on an integer token that does not fit an `int`: the file
`2147483648 7 7 ... 7` consists of 112 whitespace-separated integer tokens, all but the
first being the valid code 7, yet `load` leaves cell (0, 1) at 0 instead of 7, since the
failed extraction of the first token leaves the stream in fail state. -/
theorem Level.load_overflow_token :
    IsTokenText overflowText 112
        (fun i => if i = 0 then [] else [' '])
        (fun i => if i = 0 then "2147483648".toList else ['7']) [] ∧
      IsIntLiteral "2147483648".toList 2147483648 ∧ IsIntLiteral ['7'] 7 ∧
      validScoreCode 7 = true ∧
      (Level.new.load overflowDisk "level.txt").2.1.m_gridState 0 1 = 0 ∧
      (Level.new.load overflowDisk "level.txt").2.1.m_gridState 0 1 ≠ 7 := by
  have hcell : (Level.new.load overflowDisk "level.txt").2.1.m_gridState 0 1 = 0 := by
    have h := (Level.load_token_text Level.new overflowDisk "level.txt" overflowText 0
      (fun _ => []) (fun _ => []) overflowText (fun _ => 0) rfl
      { text_eq := rfl
        ws_space := fun i hi => absurd hi (Nat.not_lt_zero i)
        ws_sep := fun i _ hi => absurd hi (Nat.not_lt_zero i)
        tail_sep := fun h => absurd h (by decide) }
      (by decide) (fun i hi => absurd hi (Nat.not_lt_zero i))
      (fun i hi => absurd hi (Nat.not_lt_zero i)) (fun _ => overflowText_extract)).1 0 1
      (by decide) (by decide)
    simpa using h
  refine ⟨?_, ?_, ?_, by decide, hcell, by rw [hcell]; decide⟩
  · exact
      { text_eq := by unfold overflowText; rw [List.append_nil]
        ws_space := by
          intro i _ c hc
          split_ifs at hc
          · simp at hc
          · simp only [List.mem_singleton] at hc
            subst hc
            decide
        ws_sep := by
          intro i hi _
          rw [if_neg (by omega)]
          simp
        tail_sep := fun _ => Or.inl rfl }
  · exact ⟨"2147483648".toList, by decide, by decide, Or.inl ⟨rfl, by decide⟩⟩
  · exact ⟨['7'], by decide, by decide, Or.inl ⟨rfl, by decide⟩⟩

/-- C7 (amended): on an openable file whose first `n ≤ 112` whitespace-separated tokens are
integer literals with values `v 0 .. v (n-1)` that fit a 32-bit `int` (for `n < 112` the
tokens are the whole file up to whitespace), `load` sets cell (r, c) to the token number
`14 r + c` when that token exists and is one of 0, -1, 1, 3, 5, 7, and to 0 otherwise; it
returns `true` exactly when all 112 tokens are present and in that set, hence `false`
when fewer than 112 tokens are present. -/
theorem Level.load_integer_tokens (L : Level) (fs : FileSystem) (filename : String)
    (text : List Char) (n : Nat) (ws tok : Nat → List Char) (tail : List Char) (v : Nat → Int)
    (hopen : fs.contents filename = some text) (htext : IsTokenText text n ws tok tail)
    (hn : n ≤ 112) (hlit : ∀ i, i < n → IsIntLiteral (tok i) (v i))
    (hrange : ∀ i, i < n → INT_MIN ≤ v i ∧ v i ≤ INT_MAX)
    (hfew : n < 112 → IsWhitespace tail) :
    (∀ r c, r < 8 → c < 14 →
      (L.load fs filename).2.1.m_gridState r c =
        if 14 * r + c < n ∧ validScoreCode (v (14 * r + c)) = true then v (14 * r + c) else 0) ∧
    ((L.load fs filename).1 = true ↔ n = 112 ∧ ∀ i, i < 112 → validScoreCode (v i) = true) ∧
    (n < 112 → (L.load fs filename).1 = false) := by
  obtain ⟨hcells, hret⟩ := Level.load_token_text L fs filename text n ws tok tail v hopen htext
    hn hlit hrange (fun h => by rw [extractInt_eof tail (hfew h)])
  refine ⟨?_, hret, ?_⟩
  · intro r c hr hc
    rw [hcells r c hr hc]
    by_cases hk : 14 * r + c < n
    · by_cases hv : validScoreCode (v (14 * r + c)) = true
      · simp [hk, hv, coerceCode]
      · simp [hk, hv, coerceCode]
    · simp [hk]
  · intro hlt
    cases hb : (L.load fs filename).1 with
    | false => rfl
    | true =>
      have := (hret.1 hb).1
      omega

theorem Level.load_integer_tokens_witness :
    (Level.new.load shortDisk "level.txt").2.1.m_gridState 0 1 = 5 ∧
      (Level.new.load shortDisk "level.txt").2.1.m_gridState 0 2 = 0 ∧
      (Level.new.load shortDisk "level.txt").1 = false := by
  have h := Level.load_integer_tokens Level.new shortDisk "level.txt" shortText 2
    (fun i => if i = 0 then [] else [' ']) (fun i => if i = 0 then ['7'] else ['5']) []
    (fun i => if i = 0 then 7 else 5) rfl
    { text_eq := by decide
      ws_space := by
        intro i _ c hc
        split_ifs at hc
        · simp at hc
        · simp only [List.mem_singleton] at hc
          subst hc
          decide
      ws_sep := by
        intro i hi _
        rw [if_neg (by omega)]
        simp
      tail_sep := fun _ => Or.inl rfl }
    (by decide)
    (by
      intro i hi
      by_cases h0 : i = 0
      · subst h0
        exact ⟨['7'], by decide, by decide, Or.inl ⟨rfl, by decide⟩⟩
      · simp only [h0, if_false]
        exact ⟨['5'], by decide, by decide, Or.inl ⟨rfl, by decide⟩⟩)
    (by
      intro i _
      by_cases h0 : i = 0
      · subst h0
        decide
      · simp only [h0, if_false]
        decide)
    (fun _ c hc => by simp at hc)
  refine ⟨?_, ?_, h.2.2 (by decide)⟩
  · have := h.1 0 1 (by decide) (by decide)
    simpa [validScoreCode, Config.SCORE_ORANGE] using this
  · have := h.1 0 2 (by decide) (by decide)
    simpa using this

/-! ## The collision scan -/

/-- One iteration of the scan, in terms of the slab intervals of the brick. -/
theorem scanBrick_eq (ball : Ball) (i : Nat) (b : Brick) (st : Level.ScanState) :
    Level.scanBrick ball.getPosition ball.getRadius ball.getVelocity i b st =
      if b.m_active = true then
        match entryExit ball b with
        | none => st
        | some (tx, ty) =>
          if max tx.1 ty.1 > min tx.2 ty.2 ∨ min tx.2 ty.2 < 0 ∨ max tx.1 ty.1 > 1 then st
          else if max tx.1 ty.1 < st.closestTime then
            { closestTime := max tx.1 ty.1
              closestBrickIndex := i
              collisionPos :=
                { x := ball.m_pos.x + ball.m_velocity.x * max tx.1 ty.1
                  y := ball.m_pos.y + ball.m_velocity.y * max tx.1 ty.1 }
              closestNormal := impactNormal ball tx.1 ty.1 }
          else st
      else st := by
  unfold Level.scanBrick entryExit
  simp only [Brick.isActive, Brick.getRect, Ball.getPosition, Ball.getRadius, Ball.getVelocity]
  by_cases ha : b.m_active = true
  · simp only [ha, Bool.not_true, Bool.false_eq_true, if_false, if_true]
    cases hx : Level.slabTimes (b.m_rect.x - ball.m_radius)
        (b.m_rect.x + b.m_rect.width + ball.m_radius) ball.m_pos.x ball.m_velocity.x with
    | none => rfl
    | some tx =>
      obtain ⟨txMin, txMax⟩ := tx
      cases hy : Level.slabTimes (b.m_rect.y - ball.m_radius)
          (b.m_rect.y + b.m_rect.height + ball.m_radius) ball.m_pos.y ball.m_velocity.y with
      | none => rfl
      | some ty =>
        obtain ⟨tyMin, tyMax⟩ := ty
        simp only [impactNormal]
  · simp [ha]

theorem scanUpTo_succ (L : Level) (ball : Ball) (n : Nat) :
    L.scanUpTo ball (n + 1) =
      match L.m_bricks[n]? with
      | some brick =>
        Level.scanBrick ball.getPosition ball.getRadius ball.getVelocity n brick
          (L.scanUpTo ball n)
      | none => L.scanUpTo ball n := by
  unfold Level.scanUpTo
  rw [List.range_succ, List.foldl_append]
  rfl

theorem scanInv_zero (L : Level) (ball : Ball) : ScanInv L ball 0 (L.scanUpTo ball 0) :=
  { time_le := by simp [Level.scanUpTo, Level.scanInit]
    found := Or.inl rfl
    minimal := fun i _ _ hi => absurd hi (Nat.not_lt_zero i) }

theorem scanInv_step (L : Level) (ball : Ball) (n : Nat) (st : Level.ScanState) (b : Brick)
    (hb : L.m_bricks[n]? = some b) (h : ScanInv L ball n st) :
    ScanInv L ball (n + 1)
      (Level.scanBrick ball.getPosition ball.getRadius ball.getVelocity n b st) := by
  -- a state that is kept: only brick `n` has to be compared
  have keep : (∀ t, ValidHit ball b t → st.closestTime ≤ t) → ScanInv L ball (n + 1) st := by
    intro hmin
    refine { time_le := h.time_le, found := ?_, minimal := ?_ }
    · rcases h.found with h0 | ⟨k, b0, tx, ty, hk, hrest⟩
      · exact Or.inl h0
      · exact Or.inr ⟨k, b0, tx, ty, Nat.lt_succ_of_lt hk, hrest⟩
    · intro i b1 t hi hb1 hv
      rcases Nat.lt_succ_iff_lt_or_eq.1 hi with hlt | heq
      · exact h.minimal i b1 t hlt hb1 hv
      · subst heq
        rw [hb] at hb1
        cases hb1
        exact hmin t hv
  rw [scanBrick_eq]
  by_cases ha : b.m_active = true
  · rw [if_pos ha]
    cases he : entryExit ball b with
    | none =>
      simp only
      apply keep
      intro t hv
      obtain ⟨_, tx, ty, hee, _⟩ := hv
      rw [he] at hee
      cases hee
    | some p =>
      obtain ⟨tx, ty⟩ := p
      simp only
      by_cases hbad : max tx.1 ty.1 > min tx.2 ty.2 ∨ min tx.2 ty.2 < 0 ∨ max tx.1 ty.1 > 1
      · rw [if_pos hbad]
        apply keep
        intro t hv
        obtain ⟨_, tx1, ty1, hee, ht, h1, h2, h3⟩ := hv
        rw [he] at hee
        cases hee
        subst ht
        rcases hbad with hb1 | hb1 | hb1
        · exact absurd h1 (not_le_of_gt hb1)
        · exact absurd h2 (not_le_of_gt hb1)
        · exact absurd h3 (not_le_of_gt hb1)
      · rw [if_neg hbad]
        simp only [not_or, not_lt, gt_iff_lt] at hbad
        obtain ⟨h1, h2, h3⟩ := hbad
        by_cases hlt : max tx.1 ty.1 < st.closestTime
        · rw [if_pos hlt]
          refine { time_le := h3, found := Or.inr ?_, minimal := ?_ }
          · refine ⟨n, b, tx, ty, Nat.lt_succ_self n, rfl, hb, ha, he, rfl, h1, h2,
              lt_of_lt_of_le hlt h.time_le, rfl, rfl, ?_⟩
            intro i b1 t1 hi hb1 hv
            exact lt_of_lt_of_le hlt (h.minimal i b1 t1 hi hb1 hv)
          · intro i b1 t hi hb1 hv
            rcases Nat.lt_succ_iff_lt_or_eq.1 hi with hlt2 | heq
            · exact le_of_lt (lt_of_lt_of_le hlt (h.minimal i b1 t hlt2 hb1 hv))
            · subst heq
              rw [hb] at hb1
              cases hb1
              obtain ⟨_, tx1, ty1, hee, ht, _⟩ := hv
              rw [he] at hee
              cases hee
              exact le_of_eq ht.symm
        · rw [if_neg hlt]
          apply keep
          intro t hv
          obtain ⟨_, tx1, ty1, hee, ht, _⟩ := hv
          rw [he] at hee
          cases hee
          rw [ht]
          exact not_lt.1 hlt
  · rw [if_neg ha]
    apply keep
    intro t hv
    exact absurd hv.1 ha

/-- The locals of `checkCollisions` after the bricks `0 .. n-1`. -/
theorem scanInv_upTo (L : Level) (ball : Ball) (n : Nat) (hn : n ≤ L.m_bricks.length) :
    ScanInv L ball n (L.scanUpTo ball n) := by
  induction n with
  | zero => exact scanInv_zero L ball
  | succ n ih =>
    have hlt : n < L.m_bricks.length := hn
    rw [scanUpTo_succ, List.getElem?_eq_getElem hlt]
    exact scanInv_step L ball n _ _ (List.getElem?_eq_getElem hlt) (ih (le_of_lt hlt))

theorem scanInv_scan (L : Level) (ball : Ball) :
    ScanInv L ball L.m_bricks.length (L.scan ball) :=
  scanInv_upTo L ball L.m_bricks.length (le_refl _)

/-! ## The scan on a level with one brick -/

theorem scanBrick_inactive (ball : Ball) (i : Nat) (b : Brick) (st : Level.ScanState)
    (h : b.m_active = false) :
    Level.scanBrick ball.getPosition ball.getRadius ball.getVelocity i b st = st := by
  rw [scanBrick_eq]
  simp [h]

/-- Where a single brick is active the scan amounts to the iteration for that brick. -/
theorem scan_single_active (L : Level) (ball : Ball) (k0 : Nat) (b0 : Brick)
    (hb0 : L.m_bricks[k0]? = some b0)
    (hothers : ∀ j b, j ≠ k0 → L.m_bricks[j]? = some b → b.m_active = false) :
    L.scan ball =
      Level.scanBrick ball.getPosition ball.getRadius ball.getVelocity k0 b0 Level.scanInit := by
  have key : ∀ n, n ≤ L.m_bricks.length →
      L.scanUpTo ball n =
        if n ≤ k0 then Level.scanInit
        else Level.scanBrick ball.getPosition ball.getRadius ball.getVelocity k0 b0
          Level.scanInit := by
    intro n
    induction n with
    | zero =>
      intro _
      simp [Level.scanUpTo]
    | succ n ih =>
      intro hn
      have hlt : n < L.m_bricks.length := hn
      rw [scanUpTo_succ, List.getElem?_eq_getElem hlt, ih (le_of_lt hlt)]
      simp only
      by_cases hk : n = k0
      · subst hk
        have e : L.m_bricks[n] = b0 := by
          have := List.getElem?_eq_getElem hlt
          rw [hb0] at this
          exact (Option.some.inj this).symm
        rw [e]
        simp
      · have hin := hothers n _ hk (List.getElem?_eq_getElem hlt)
        rw [scanBrick_inactive ball n _ _ hin]
        by_cases hle : n ≤ k0
        · have : n + 1 ≤ k0 := by omega
          simp [hle, this]
        · have : ¬ n + 1 ≤ k0 := by omega
          simp [hle, this]
  have hk0 : k0 < L.m_bricks.length := (List.getElem?_eq_some.1 hb0).1
  unfold Level.scan
  rw [key _ (le_refl _), if_neg (by omega)]

theorem oneBrickLevel_reachable : Reachable oneBrickLevel :=
  Reachable.setupBricks _ _ _ (Reachable.setGridState _ _ _ _ Reachable.new)

theorem oneBrickLevel_getElem? (j : Nat) (hj : j < 112) :
    oneBrickLevel.m_bricks[j]? =
      some (((Level.new.setGridState 7 0 1).calculateGridDimensions 1289 1000).brickForCell
        (j / 14) (j % 14) Brick.new) := by
  have hlen : (Level.new.setGridState 7 0 1).m_bricks.length = 112 :=
    (Reachable.setGridState _ _ _ _ Reachable.new).inv.length
  unfold oneBrickLevel
  rw [setupBricks_getElem? _ _ _ hlen j hj]
  have hb : (Level.new.setGridState 7 0 1).m_bricks[j]? = some Brick.new := by
    have e : (Level.new.setGridState 7 0 1).m_bricks = List.replicate 112 Brick.new := by
      simp [Level.setGridState, Level.new, Config.GRID_ROWS, Config.GRID_COLS, validScoreCode,
        Config.SCORE_YELLOW]
    rw [e, List.getElem?_replicate, if_pos hj]
  rw [hb]
  rfl

theorem oneBrickLevel_brick : oneBrickLevel.m_bricks[98]? = some sampleBrick := by
  rw [oneBrickLevel_getElem? 98 (by decide)]
  simp [Level.brickForCell, Level.calculateGridDimensions, Level.setGridState, Level.new,
    Brick.init, Brick.new, sampleBrick, Config.GRID_ROWS, Config.GRID_COLS, Config.BRICK_WIDTH,
    Config.BRICK_HEIGHT, Config.BRICK_SPACING, validScoreCode, Config.SCORE_YELLOW, Grid.set]
  norm_num

theorem oneBrickLevel_others (j : Nat) (b : Brick) (hj : j ≠ 98)
    (hb : oneBrickLevel.m_bricks[j]? = some b) : b.m_active = false := by
  have hlt : j < oneBrickLevel.m_bricks.length := (List.getElem?_eq_some.1 hb).1
  rw [oneBrickLevel_reachable.inv.length] at hlt
  rw [oneBrickLevel_getElem? j hlt] at hb
  have hb2 := (Option.some.inj hb).symm
  subst hb2
  have hcell : ¬ (j / 14 = 7 ∧ j % 14 = 0) := by omega
  simp [Level.brickForCell, Level.calculateGridDimensions, Level.setGridState, Level.new,
    Brick.init, Config.GRID_ROWS, Config.GRID_COLS, validScoreCode, Config.SCORE_YELLOW,
    Grid.set, hcell]

theorem oneBrickLevel_scan (ball : Ball) :
    oneBrickLevel.scan ball =
      Level.scanBrick ball.getPosition ball.getRadius ball.getVelocity 98 sampleBrick
        Level.scanInit :=
  scan_single_active oneBrickLevel ball 98 sampleBrick oneBrickLevel_brick
    (fun j b hj hb => oneBrickLevel_others j b hj hb)

theorem scan_insideBall : oneBrickLevel.scan insideBall =
    { closestTime := -20, closestBrickIndex := 98, closestNormal := { x := -1, y := 0 },
      collisionPos := { x := 90, y := 670 } } := by
  rw [oneBrickLevel_scan]
  simp [sampleBrick, insideBall, Level.scanBrick, Level.slabTimes, Level.scanInit, Ball.new,
    Ball.getPosition, Ball.getRadius, Ball.getVelocity, Brick.isActive, Brick.getRect,
    Config.BALL_RADIUS]
  norm_num

theorem scan_grazingBall : oneBrickLevel.scan grazingBall = Level.scanInit := by
  rw [oneBrickLevel_scan]
  simp [sampleBrick, grazingBall, Level.scanBrick, Level.slabTimes, Level.scanInit, Ball.new,
    Ball.getPosition, Ball.getRadius, Ball.getVelocity, Brick.isActive, Brick.getRect,
    Config.BALL_RADIUS]
  norm_num

theorem scan_risingBall : oneBrickLevel.scan risingBall =
    { closestTime := 19 / 400, closestBrickIndex := 98, closestNormal := { x := 0, y := -1 },
      collisionPos := { x := 110, y := 669 } } := by
  rw [oneBrickLevel_scan]
  simp [sampleBrick, risingBall, Level.scanBrick, Level.slabTimes, Level.scanInit, Ball.new,
    Ball.getPosition, Ball.getRadius, Ball.getVelocity, Brick.isActive, Brick.getRect,
    Config.BALL_RADIUS]
  norm_num

theorem entryExit_grazingBall :
    entryExit grazingBall sampleBrick = some ((0, 1), (1, 61 / 16)) := by
  simp [entryExit, Level.slabTimes, grazingBall, sampleBrick, Ball.new, Config.BALL_RADIUS]
  norm_num

theorem slabTimes_of_still (lo hi p v : ℚ) (a b : ℚ) (hv : |v| ≤ 1 / 10000)
    (h : Level.slabTimes lo hi p v = some (a, b)) : a = 0 ∧ b = 1 := by
  unfold Level.slabTimes at h
  rw [if_neg (not_lt.2 hv)] at h
  split_ifs at h
  simp only [Option.some.injEq, Prod.mk.injEq] at h
  exact ⟨h.1.symm, h.2.symm⟩

/-- A ball outside a slab that can still leave it at a time `≥ 0` enters it at a time `> 0`. -/
theorem slabTimes_entry_pos (lo hi p v : ℚ) (a b : ℚ) (hlohi : lo ≤ hi)
    (hout : p < lo ∨ hi < p) (hb : 0 ≤ b) (h : Level.slabTimes lo hi p v = some (a, b)) :
    0 < a := by
  unfold Level.slabTimes at h
  by_cases hv : |v| > 1 / 10000
  · rw [if_pos hv] at h
    have hv0 : v ≠ 0 := by
      intro h0
      rw [h0, abs_zero] at hv
      norm_num at hv
    simp only at h
    rcases lt_or_gt_of_ne hv0 with hneg | hpos
    · have hinv : 1 / v < 0 := one_div_neg.2 hneg
      rcases hout with ho | ho
      · -- both products are negative, so the exit time is negative
        have h1 : (lo - p) * (1 / v) < 0 := mul_neg_of_pos_of_neg (sub_pos.2 ho) hinv
        have h2 : (hi - p) * (1 / v) < 0 :=
          mul_neg_of_pos_of_neg (sub_pos.2 (lt_of_lt_of_le ho hlohi)) hinv
        split_ifs at h <;> simp only [Option.some.injEq, Prod.mk.injEq] at h <;>
          obtain ⟨_, h4⟩ := h <;> linarith
      · have h1 : 0 < (lo - p) * (1 / v) :=
          mul_pos_of_neg_of_neg (sub_neg.2 (lt_of_le_of_lt hlohi ho)) hinv
        have h2 : 0 < (hi - p) * (1 / v) := mul_pos_of_neg_of_neg (sub_neg.2 ho) hinv
        split_ifs at h <;> simp only [Option.some.injEq, Prod.mk.injEq] at h <;>
          obtain ⟨h3, _⟩ := h <;> linarith
    · have hinv : 0 < 1 / v := one_div_pos.2 hpos
      rcases hout with ho | ho
      · have h1 : 0 < (lo - p) * (1 / v) := mul_pos (sub_pos.2 ho) hinv
        have h2 : 0 < (hi - p) * (1 / v) := mul_pos (sub_pos.2 (lt_of_lt_of_le ho hlohi)) hinv
        split_ifs at h <;> simp only [Option.some.injEq, Prod.mk.injEq] at h <;>
          obtain ⟨h3, _⟩ := h <;> linarith
      · have h1 : (lo - p) * (1 / v) < 0 :=
          mul_neg_of_neg_of_pos (sub_neg.2 (lt_of_le_of_lt hlohi ho)) hinv
        have h2 : (hi - p) * (1 / v) < 0 := mul_neg_of_neg_of_pos (sub_neg.2 ho) hinv
        split_ifs at h <;> simp only [Option.some.injEq, Prod.mk.injEq] at h <;>
          obtain ⟨_, h4⟩ := h <;> linarith
  · rw [if_neg hv] at h
    have hc : p < lo ∨ p > hi := hout
    rw [if_pos hc] at h
    cases h

/-- When the entry time of a valid hit cannot be negative. -/
theorem entry_nonneg (ball : Ball) (b : Brick) (tx ty : ℚ × ℚ)
    (he : entryExit ball b = some (tx, ty)) (hmax : 0 ≤ min tx.2 ty.2)
    (hcase : (0 ≤ ball.m_radius ∧ 0 ≤ b.m_rect.width ∧ 0 ≤ b.m_rect.height ∧
        OutsideExpanded ball b) ∨
      |ball.m_velocity.x| ≤ 1 / 10000 ∨ |ball.m_velocity.y| ≤ 1 / 10000) :
    0 ≤ max tx.1 ty.1 := by
  unfold entryExit at he
  cases hx : Level.slabTimes (b.m_rect.x - ball.m_radius)
      (b.m_rect.x + b.m_rect.width + ball.m_radius) ball.m_pos.x ball.m_velocity.x with
  | none => rw [hx] at he; cases he
  | some px =>
    cases hy : Level.slabTimes (b.m_rect.y - ball.m_radius)
        (b.m_rect.y + b.m_rect.height + ball.m_radius) ball.m_pos.y ball.m_velocity.y with
    | none => rw [hx, hy] at he; cases he
    | some py =>
      rw [hx, hy] at he
      simp only [Option.some.injEq, Prod.mk.injEq] at he
      obtain ⟨rfl, rfl⟩ := he
      obtain ⟨ax, bx⟩ := px
      obtain ⟨ay, byy⟩ := py
      simp only at hmax ⊢
      have hbx : 0 ≤ bx := le_trans hmax (min_le_left _ _)
      have hby : 0 ≤ byy := le_trans hmax (min_le_right _ _)
      rcases hcase with ⟨hr, hw, hh, ho⟩ | hs | hs
      · rcases ho with ho | ho | ho | ho
        · exact le_trans (le_of_lt (slabTimes_entry_pos _ _ _ _ _ _ (by linarith) (Or.inl ho)
            hbx hx)) (le_max_left _ _)
        · exact le_trans (le_of_lt (slabTimes_entry_pos _ _ _ _ _ _ (by linarith) (Or.inr ho)
            hbx hx)) (le_max_left _ _)
        · exact le_trans (le_of_lt (slabTimes_entry_pos _ _ _ _ _ _ (by linarith) (Or.inl ho)
            hby hy)) (le_max_right _ _)
        · exact le_trans (le_of_lt (slabTimes_entry_pos _ _ _ _ _ _ (by linarith) (Or.inr ho)
            hby hy)) (le_max_right _ _)
      · have := (slabTimes_of_still _ _ _ _ _ _ hs hx).1
        exact le_trans (le_of_eq this.symm) (le_max_left _ _)
      · have := (slabTimes_of_still _ _ _ _ _ _ hs hy).1
        exact le_trans (le_of_eq this.symm) (le_max_right _ _)

theorem Level.checkCollisions_snd_of_found (L : Level) (ball : Ball)
    (h : 0 ≤ (L.scan ball).closestBrickIndex) :
    (L.checkCollisions ball).2 =
      ball.setNextCollision (L.scan ball).collisionPos (L.scan ball).closestNormal
        (L.scan ball).closestBrickIndex := by
  unfold Level.checkCollisions
  simp only [ge_iff_le, h, if_true]

theorem Level.checkCollisions_snd_of_none (L : Level) (ball : Ball)
    (h : (L.scan ball).closestBrickIndex < 0) : (L.checkCollisions ball).2 = ball := by
  unfold Level.checkCollisions
  simp only [ge_iff_le, not_le.2 h, if_false]

/-- C9 as stated fails: for a ball at (110, 690) with velocity (1, 1), which starts inside
the expanded rectangle of the only brick (at (100, 679), 75 x 25) of a reachable level and
moves on both axes, `checkCollisions` reports an impact whose position (90, 670) lies behind
the ball; the only `t` with reported position = ball position + velocity * t is -20. -/
theorem Level.checkCollisions_negative_time :
    0 ≤ (oneBrickLevel.scan insideBall).closestBrickIndex ∧
      (oneBrickLevel.checkCollisions insideBall).2.m_hasPendingCollision = true ∧
      (oneBrickLevel.checkCollisions insideBall).2.m_nextCollisionPos = { x := 90, y := 670 } ∧
      ∀ t : ℚ,
        (oneBrickLevel.checkCollisions insideBall).2.m_nextCollisionPos =
          { x := insideBall.m_pos.x + insideBall.m_velocity.x * t
            y := insideBall.m_pos.y + insideBall.m_velocity.y * t } →
        t = -20 ∧ ¬ (0 ≤ t) := by
  have hfound : 0 ≤ (oneBrickLevel.scan insideBall).closestBrickIndex := by
    rw [scan_insideBall]
    decide
  have hpos : (oneBrickLevel.checkCollisions insideBall).2.m_nextCollisionPos =
      { x := 90, y := 670 } := by
    rw [Level.checkCollisions_snd_of_found _ _ hfound, scan_insideBall]
    rfl
  refine ⟨hfound, ?_, hpos, ?_⟩
  · rw [Level.checkCollisions_snd_of_found _ _ hfound]
    rfl
  · intro t ht
    rw [hpos] at ht
    simp only [insideBall, Vec2.mk.injEq] at ht
    have : t = -20 := by linarith [ht.1]
    subst this
    exact ⟨rfl, by norm_num⟩

/-- C9 (amended): whenever `checkCollisions` reports an impact, the impact time `t`, for
which the reported position is ball position + velocity * t, satisfies `t ≤ 1`; and
`0 ≤ t` holds when the ball centre starts outside the radius-expanded rectangle of the
reported brick (radius and brick size non-negative) or when a velocity component has
magnitude at most 0.0001. -/
theorem Level.checkCollisions_impact_time (L : Level) (ball : Ball)
    (hreport : 0 ≤ (L.scan ball).closestBrickIndex) :
    (L.checkCollisions ball).2.m_hasPendingCollision = true ∧
      (L.checkCollisions ball).2.m_nextCollisionPos =
        { x := ball.m_pos.x + ball.m_velocity.x * (L.scan ball).closestTime
          y := ball.m_pos.y + ball.m_velocity.y * (L.scan ball).closestTime } ∧
      (L.scan ball).closestTime ≤ 1 ∧
      ∃ b, L.m_bricks[(L.scan ball).closestBrickIndex.toNat]? = some b ∧
        ((0 ≤ ball.m_radius ∧ 0 ≤ b.m_rect.width ∧ 0 ≤ b.m_rect.height ∧
            OutsideExpanded ball b) ∨
          |ball.m_velocity.x| ≤ 1 / 10000 ∨ |ball.m_velocity.y| ≤ 1 / 10000 →
          0 ≤ (L.scan ball).closestTime) := by
  have hinv := scanInv_scan L ball
  rcases hinv.found with h0 | ⟨k, b, tx, ty, _, hidx, hb, _, he, ht, _, hmax, hlt, hpos, _, _⟩
  · rw [h0] at hreport
    exact absurd hreport (by decide)
  · rw [Level.checkCollisions_snd_of_found L ball hreport]
    refine ⟨rfl, hpos, le_of_lt hlt, b, ?_, ?_⟩
    · rw [hidx]
      exact hb
    · intro hcase
      rw [ht]
      exact entry_nonneg ball b tx ty he hmax hcase

theorem Level.checkCollisions_impact_time_witness :
    0 ≤ (oneBrickLevel.scan risingBall).closestBrickIndex ∧
      (oneBrickLevel.checkCollisions risingBall).2.m_hasPendingCollision = true ∧
      (oneBrickLevel.scan risingBall).closestTime ≤ 1 :=
  ⟨by rw [scan_risingBall]; decide,
   (Level.checkCollisions_impact_time oneBrickLevel risingBall
      (by rw [scan_risingBall]; decide)).1,
   (Level.checkCollisions_impact_time oneBrickLevel risingBall
      (by rw [scan_risingBall]; decide)).2.2.1⟩

/-! ## What the scan reports -/

/-- The reported brick, as the scan invariant describes it. -/
theorem scan_found (L : Level) (ball : Ball) (hreport : 0 ≤ (L.scan ball).closestBrickIndex) :
    ∃ k b tx ty, k < L.m_bricks.length ∧ (L.scan ball).closestBrickIndex = (k : Int) ∧
      L.m_bricks[k]? = some b ∧ b.m_active = true ∧ entryExit ball b = some (tx, ty) ∧
      (L.scan ball).closestTime = max tx.1 ty.1 ∧ (L.scan ball).closestTime ≤ min tx.2 ty.2 ∧
      0 ≤ min tx.2 ty.2 ∧ (L.scan ball).closestTime < 1 ∧
      (L.scan ball).collisionPos =
        { x := ball.m_pos.x + ball.m_velocity.x * (L.scan ball).closestTime
          y := ball.m_pos.y + ball.m_velocity.y * (L.scan ball).closestTime } ∧
      (L.scan ball).closestNormal = impactNormal ball tx.1 ty.1 ∧
      ∀ i b1 t1, i < k → L.m_bricks[i]? = some b1 → ValidHit ball b1 t1 →
        (L.scan ball).closestTime < t1 := by
  rcases (scanInv_scan L ball).found with h0 | h
  · rw [h0] at hreport
    exact absurd hreport (by decide)
  · exact h

theorem impactNormal_axis (ball : Ball) (a b : ℚ) :
    (impactNormal ball a b = { x := 1, y := 0 } ∨ impactNormal ball a b = { x := -1, y := 0 } ∨
      impactNormal ball a b = { x := 0, y := 1 } ∨ impactNormal ball a b = { x := 0, y := -1 }) ∧
    ball.m_velocity.x * (impactNormal ball a b).x +
      ball.m_velocity.y * (impactNormal ball a b).y ≤ 0 := by
  unfold impactNormal
  by_cases hab : a > b
  · rw [if_pos hab]
    by_cases hv : ball.m_velocity.x > 0
    · rw [if_pos hv]
      exact ⟨Or.inr (Or.inl rfl), by simp only; linarith⟩
    · rw [if_neg hv]
      exact ⟨Or.inl rfl, by simp only; linarith⟩
  · rw [if_neg hab]
    by_cases hv : ball.m_velocity.y > 0
    · rw [if_pos hv]
      exact ⟨Or.inr (Or.inr (Or.inr rfl)), by simp only; linarith⟩
    · rw [if_neg hv]
      exact ⟨Or.inr (Or.inr (Or.inl rfl)), by simp only; linarith⟩

theorem scan_fallingBall : wideBrickLevel.scan fallingBall =
    { closestTime := 1 / 30, closestBrickIndex := 0, closestNormal := { x := 0, y := 1 },
      collisionPos := { x := 100, y := 90 } } := by
  simp [Level.scan, Level.scanUpTo, List.range, List.range.loop, wideBrickLevel, wideBrick,
    fallingBall, Level.scanBrick, Level.slabTimes, Level.scanInit, Level.new, Ball.new,
    Ball.getPosition, Ball.getRadius, Ball.getVelocity, Brick.isActive, Brick.getRect,
    Config.BALL_RADIUS]
  norm_num

/-- C12: for the brick `checkCollisions` reports, the reported position is ball position +
velocity * tMin, and the reported normal is (-sign vx, 0) when the X entry time is strictly
greater than the Y entry time and (0, -sign vy) otherwise, a non-positive component giving
+1; so the normal is a unit axis vector with velocity . normal ≤ 0. For the ball at
(100, 100), radius 10, velocity (0, -300) and one brick with x in [90, 170], y in [50, 80]
the impact position is (100, 90) and the normal (0, 1). -/
theorem Level.checkCollisions_position_normal (L : Level) (ball : Ball)
    (hreport : 0 ≤ (L.scan ball).closestBrickIndex) :
    (∃ (k : Nat) (b : Brick) (tx ty : ℚ × ℚ),
      (L.checkCollisions ball).2.m_pendingHitBrickIndex = (k : Int) ∧
      L.m_bricks[k]? = some b ∧ entryExit ball b = some (tx, ty) ∧
      (L.checkCollisions ball).2.m_nextCollisionPos =
        { x := ball.m_pos.x + ball.m_velocity.x * max tx.1 ty.1
          y := ball.m_pos.y + ball.m_velocity.y * max tx.1 ty.1 } ∧
      (L.checkCollisions ball).2.m_pendingCollisionNormal =
        (if tx.1 > ty.1 then { x := if ball.m_velocity.x > 0 then -1 else 1, y := 0 }
         else { x := 0, y := if ball.m_velocity.y > 0 then -1 else 1 })) ∧
    ((L.checkCollisions ball).2.m_pendingCollisionNormal = { x := 1, y := 0 } ∨
      (L.checkCollisions ball).2.m_pendingCollisionNormal = { x := -1, y := 0 } ∨
      (L.checkCollisions ball).2.m_pendingCollisionNormal = { x := 0, y := 1 } ∨
      (L.checkCollisions ball).2.m_pendingCollisionNormal = { x := 0, y := -1 }) ∧
    ball.m_velocity.x * (L.checkCollisions ball).2.m_pendingCollisionNormal.x +
      ball.m_velocity.y * (L.checkCollisions ball).2.m_pendingCollisionNormal.y ≤ 0 ∧
    (wideBrickLevel.checkCollisions fallingBall).2.m_hasPendingCollision = true ∧
    (wideBrickLevel.checkCollisions fallingBall).2.m_nextCollisionPos = { x := 100, y := 90 } ∧
    (wideBrickLevel.checkCollisions fallingBall).2.m_pendingCollisionNormal =
      { x := 0, y := 1 } := by
  obtain ⟨k, b, tx, ty, _, hidx, hb, _, he, ht, _, _, _, hpos, hnormal, _⟩ :=
    scan_found L ball hreport
  have hball := Level.checkCollisions_snd_of_found L ball hreport
  have hn : (L.checkCollisions ball).2.m_pendingCollisionNormal = impactNormal ball tx.1 ty.1 := by
    rw [hball]
    exact hnormal
  have hsample : 0 ≤ (wideBrickLevel.scan fallingBall).closestBrickIndex := by
    rw [scan_fallingBall]
  have hsball := Level.checkCollisions_snd_of_found wideBrickLevel fallingBall hsample
  refine ⟨⟨k, b, tx, ty, ?_, hb, he, ?_, ?_⟩, ?_, ?_, ?_, ?_, ?_⟩
  · rw [hball]
    exact hidx
  · rw [hball, ← ht]
    exact hpos
  · rw [hn]
    rfl
  · rw [hn]
    exact (impactNormal_axis ball tx.1 ty.1).1
  · rw [hn]
    exact (impactNormal_axis ball tx.1 ty.1).2
  · rw [hsball]
    rfl
  · rw [hsball, scan_fallingBall]
    rfl
  · rw [hsball, scan_fallingBall]
    rfl

theorem Level.checkCollisions_position_normal_witness :
    0 ≤ (wideBrickLevel.scan fallingBall).closestBrickIndex ∧
      fallingBall.m_velocity.x *
          (wideBrickLevel.checkCollisions fallingBall).2.m_pendingCollisionNormal.x +
        fallingBall.m_velocity.y *
          (wideBrickLevel.checkCollisions fallingBall).2.m_pendingCollisionNormal.y ≤ 0 ∧
      (wideBrickLevel.checkCollisions fallingBall).2.m_nextCollisionPos = { x := 100, y := 90 } :=
  ⟨by rw [scan_fallingBall],
   (Level.checkCollisions_position_normal wideBrickLevel fallingBall
      (by rw [scan_fallingBall])).2.2.1,
   (Level.checkCollisions_position_normal wideBrickLevel fallingBall
      (by rw [scan_fallingBall])).2.2.2.2.1⟩

/-- C13: `checkCollisions` leaves the level (every brick, the grid codes, the active-brick
counter) and the position, velocity and radius of the ball as they are; all it may write is
the pending-collision record of the ball, which it overwrites when an impact is found and
leaves exactly as it was, neither set nor cleared, when none is found. -/
theorem Level.checkCollisions_frame (L : Level) (ball : Ball) :
    (L.checkCollisions ball).1 = L ∧
      (L.checkCollisions ball).2.m_pos = ball.m_pos ∧
      (L.checkCollisions ball).2.m_velocity = ball.m_velocity ∧
      (L.checkCollisions ball).2.m_radius = ball.m_radius ∧
      (L.checkCollisions ball).2.m_preservedvelocity = ball.m_preservedvelocity ∧
      (0 ≤ (L.scan ball).closestBrickIndex →
        (L.checkCollisions ball).2 =
          { ball with
            m_nextCollisionPos := (L.scan ball).collisionPos
            m_pendingCollisionNormal := (L.scan ball).closestNormal
            m_pendingHitBrickIndex := (L.scan ball).closestBrickIndex
            m_hasPendingCollision := true }) ∧
      (¬ 0 ≤ (L.scan ball).closestBrickIndex → (L.checkCollisions ball).2 = ball) := by
  refine ⟨Level.checkCollisions_fst L ball, ?_⟩
  by_cases h : 0 ≤ (L.scan ball).closestBrickIndex
  · rw [Level.checkCollisions_snd_of_found L ball h]
    exact ⟨rfl, rfl, rfl, rfl, fun _ => rfl, fun hn => absurd h hn⟩
  · rw [Level.checkCollisions_snd_of_none L ball (not_le.1 h)]
    exact ⟨rfl, rfl, rfl, rfl, fun hp => absurd hp h, fun _ => rfl⟩

theorem Level.checkCollisions_frame_witness :
    ¬ 0 ≤ (oneBrickLevel.scan grazingBall).closestBrickIndex ∧
      (oneBrickLevel.checkCollisions grazingBall).2 = grazingBall ∧
      0 ≤ (oneBrickLevel.scan risingBall).closestBrickIndex ∧
      (oneBrickLevel.checkCollisions risingBall).2.m_hasPendingCollision = true :=
  ⟨by rw [scan_grazingBall]; decide,
   (Level.checkCollisions_frame oneBrickLevel grazingBall).2.2.2.2.2.2
     (by rw [scan_grazingBall]; decide),
   by rw [scan_risingBall]; decide,
   by rw [(Level.checkCollisions_frame oneBrickLevel risingBall).2.2.2.2.2.1
     (by rw [scan_risingBall]; decide)]⟩

/-! ## `Ball::update` -/

/-- The ball after the tentative move alone. -/
theorem Ball.moveAndResolve_of_no_pending (b : Ball) (dt : ℚ)
    (h : b.m_hasPendingCollision = false) :
    b.moveAndResolve dt =
      (-1, { b with m_pos := { x := b.m_pos.x + b.m_velocity.x * dt
                               y := b.m_pos.y + b.m_velocity.y * dt } }) := by
  simp [Ball.moveAndResolve, h]

/-- The test of `Ball::update` on a pending collision, in terms of `ReachedOrPassed`. -/
theorem Ball.resolve_test (b : Ball) (dt : ℚ) :
    ((decide ((b.m_pos.x + b.m_velocity.x * dt - b.m_pos.x) *
            (b.m_pos.x + b.m_velocity.x * dt - b.m_pos.x) +
          (b.m_pos.y + b.m_velocity.y * dt - b.m_pos.y) *
            (b.m_pos.y + b.m_velocity.y * dt - b.m_pos.y) ≥
        (b.m_nextCollisionPos.x - b.m_pos.x) * (b.m_nextCollisionPos.x - b.m_pos.x) +
          (b.m_nextCollisionPos.y - b.m_pos.y) * (b.m_nextCollisionPos.y - b.m_pos.y) -
          1 / 100 * (1 / 100)) &&
        decide ((b.m_nextCollisionPos.x - b.m_pos.x) * (b.m_nextCollisionPos.x - b.m_pos.x) +
          (b.m_nextCollisionPos.y - b.m_pos.y) * (b.m_nextCollisionPos.y - b.m_pos.y) >
          1 / 100 * (1 / 100)) ||
      decide ((b.m_nextCollisionPos.x - (b.m_pos.x + b.m_velocity.x * dt)) * b.m_velocity.x +
          (b.m_nextCollisionPos.y - (b.m_pos.y + b.m_velocity.y * dt)) * b.m_velocity.y ≤ 0) &&
        decide ((b.m_nextCollisionPos.x - b.m_pos.x) * (b.m_nextCollisionPos.x - b.m_pos.x) +
          (b.m_nextCollisionPos.y - b.m_pos.y) * (b.m_nextCollisionPos.y - b.m_pos.y) >
          1 / 100 * (1 / 100))) = true) ↔
      (b.ReachedOrPassed dt ∧ b.targetLenSq > 1 / 10000) := by
  have e1 : b.m_pos.x + b.m_velocity.x * dt - b.m_pos.x = b.m_velocity.x * dt := by ring
  have e2 : b.m_pos.y + b.m_velocity.y * dt - b.m_pos.y = b.m_velocity.y * dt := by ring
  have e3 : (1 : ℚ) / 100 * (1 / 100) = 1 / 10000 := by norm_num
  rw [e1, e2, e3]
  simp only [Ball.ReachedOrPassed, Ball.targetLenSq, Bool.or_eq_true, Bool.and_eq_true,
    decide_eq_true_eq]
  tauto

/-- The ball after a resolved pending collision. -/
theorem Ball.moveAndResolve_of_resolved (b : Ball) (dt : ℚ)
    (hpending : b.m_hasPendingCollision = true) (hreached : b.ReachedOrPassed dt)
    (hfar : b.targetLenSq > 1 / 10000) :
    b.moveAndResolve dt =
      (b.m_pendingHitBrickIndex,
       { b with
         m_pos := { x := b.m_nextCollisionPos.x + b.m_pendingCollisionNormal.x * (1 / 100)
                    y := b.m_nextCollisionPos.y + b.m_pendingCollisionNormal.y * (1 / 100) }
         m_velocity :=
           { x := b.m_velocity.x -
               2 * (b.m_velocity.x * b.m_pendingCollisionNormal.x +
                 b.m_velocity.y * b.m_pendingCollisionNormal.y) * b.m_pendingCollisionNormal.x
             y := b.m_velocity.y -
               2 * (b.m_velocity.x * b.m_pendingCollisionNormal.x +
                 b.m_velocity.y * b.m_pendingCollisionNormal.y) * b.m_pendingCollisionNormal.y }
         m_hasPendingCollision := false
         m_pendingHitBrickIndex := -1 }) := by
  have ht := (Ball.resolve_test b dt).2 ⟨hreached, hfar⟩
  unfold Ball.moveAndResolve
  simp only [hpending, if_true]
  rw [if_pos ht]
  rfl

/-- The ball when the pending collision is not resolved in this step. -/
theorem Ball.moveAndResolve_of_unresolved (b : Ball) (dt : ℚ)
    (h : ¬ (b.ReachedOrPassed dt ∧ b.targetLenSq > 1 / 10000)) :
    b.moveAndResolve dt =
      (-1, { b with m_pos := { x := b.m_pos.x + b.m_velocity.x * dt
                               y := b.m_pos.y + b.m_velocity.y * dt } }) := by
  by_cases hp : b.m_hasPendingCollision = true
  · have ht := mt (Ball.resolve_test b dt).1 h
    unfold Ball.moveAndResolve
    simp only [hp, if_true]
    rw [if_neg ht]
  · exact Ball.moveAndResolve_of_no_pending b dt (by simpa using hp)

theorem Ball.boundTop_of_free (b : Ball) (windowHeight : ℚ)
    (h : ¬ (b.m_pos.y + b.m_radius > windowHeight)) : b.boundTop windowHeight = b := by
  unfold Ball.boundTop
  rw [if_neg h]

theorem Ball.boundSides_of_free (b : Ball) (gridMinX gridMaxX : ℚ)
    (h1 : ¬ (b.m_pos.x - b.m_radius < gridMinX)) (h2 : ¬ (b.m_pos.x + b.m_radius > gridMaxX)) :
    b.boundSides gridMinX gridMaxX = b := by
  unfold Ball.boundSides
  rw [if_neg h1, if_neg h2]

theorem Ball.update_fst (b : Ball) (dt w h gridMinX gridMaxX : ℚ) :
    (b.update dt w h gridMinX gridMaxX).1 = (b.moveAndResolve dt).1 := rfl

theorem Ball.update_snd (b : Ball) (dt w h gridMinX gridMaxX : ℚ) :
    (b.update dt w h gridMinX gridMaxX).2 =
      ((b.moveAndResolve dt).2.boundTop h).boundSides gridMinX gridMaxX := rfl

theorem scan_touchingBall : oneBrickLevel.scan touchingBall =
    { closestTime := 0, closestBrickIndex := 98, closestNormal := { x := 0, y := -1 },
      collisionPos := { x := 110, y := 669 } } := by
  rw [oneBrickLevel_scan]
  simp [sampleBrick, touchingBall, Level.scanBrick, Level.slabTimes, Level.scanInit, Ball.new,
    Ball.getPosition, Ball.getRadius, Ball.getVelocity, Brick.isActive, Brick.getRect,
    Config.BALL_RADIUS]
  norm_num

theorem pendingTouchingBall_eq : pendingTouchingBall =
    { touchingBall with
      m_nextCollisionPos := { x := 110, y := 669 }
      m_pendingCollisionNormal := { x := 0, y := -1 }
      m_pendingHitBrickIndex := 98
      m_hasPendingCollision := true } := by
  unfold pendingTouchingBall
  rw [Level.checkCollisions_snd_of_found _ _ (by rw [scan_touchingBall]; decide),
    scan_touchingBall]
  rfl

theorem pendingRisingBall_eq : pendingRisingBall =
    { risingBall with
      m_nextCollisionPos := { x := 110, y := 669 }
      m_pendingCollisionNormal := { x := 0, y := -1 }
      m_pendingHitBrickIndex := 98
      m_hasPendingCollision := true } := by
  unfold pendingRisingBall
  rw [Level.checkCollisions_snd_of_found _ _ (by rw [scan_risingBall]; decide),
    scan_risingBall]
  rfl

/-- C14 as stated fails when the impact position is the position of the ball itself: for a
ball at (110, 669) that touches the expanded rectangle of a brick and rises with velocity
(0, 16), the scan records the impact at (110, 669) on brick 98; the tentative move of a
step of 1/60 passes that point and no boundary is near, yet `update` returns -1, resolves
nothing and leaves the collision pending. -/
theorem Ball.update_skips_touching_impact :
    pendingTouchingBall.m_hasPendingCollision = true ∧
      pendingTouchingBall.m_pendingHitBrickIndex = 98 ∧
      pendingTouchingBall.m_nextCollisionPos = pendingTouchingBall.m_pos ∧
      pendingTouchingBall.ReachedOrPassed (1 / 60) ∧
      TouchesNoBoundary
        { x := pendingTouchingBall.m_nextCollisionPos.x +
            pendingTouchingBall.m_pendingCollisionNormal.x * (1 / 100)
          y := pendingTouchingBall.m_nextCollisionPos.y +
            pendingTouchingBall.m_pendingCollisionNormal.y * (1 / 100) }
        pendingTouchingBall.m_radius 1000 100 1189 ∧
      (pendingTouchingBall.update (1 / 60) 1289 1000 100 1189).1 = -1 ∧
      (pendingTouchingBall.update (1 / 60) 1289 1000 100 1189).2.m_hasPendingCollision = true ∧
      (pendingTouchingBall.update (1 / 60) 1289 1000 100 1189).2.m_velocity =
        pendingTouchingBall.m_velocity := by
  have hu : pendingTouchingBall.update (1 / 60) 1289 1000 100 1189 =
      (-1, { pendingTouchingBall with m_pos := { x := 110, y := 669 + 16 * (1 / 60) } }) := by
    have hm : pendingTouchingBall.moveAndResolve (1 / 60) =
        (-1, { pendingTouchingBall with m_pos := { x := 110, y := 669 + 16 * (1 / 60) } }) := by
      rw [Ball.moveAndResolve_of_unresolved _ _ (by
        rw [pendingTouchingBall_eq]
        simp [Ball.targetLenSq, touchingBall])]
      rw [pendingTouchingBall_eq]
      simp [touchingBall]
    unfold Ball.update
    rw [hm]
    simp only
    rw [Ball.boundTop_of_free _ _ (by
        rw [pendingTouchingBall_eq]; simp [touchingBall, Ball.new, Config.BALL_RADIUS]; norm_num),
      Ball.boundSides_of_free _ _ _ (by
        rw [pendingTouchingBall_eq]; simp [touchingBall, Ball.new, Config.BALL_RADIUS]; norm_num)
        (by
        rw [pendingTouchingBall_eq]; simp [touchingBall, Ball.new, Config.BALL_RADIUS]; norm_num)]
  refine ⟨?_, ?_, ?_, ?_, ?_, ?_, ?_, ?_⟩
  · rw [pendingTouchingBall_eq]
  · rw [pendingTouchingBall_eq]
  · rw [pendingTouchingBall_eq]
    rfl
  · rw [pendingTouchingBall_eq]
    left
    simp [Ball.targetLenSq, touchingBall]
    norm_num
  · rw [pendingTouchingBall_eq]
    simp [TouchesNoBoundary, touchingBall, Ball.new, Config.BALL_RADIUS]
    norm_num
  · rw [hu]
  · rw [hu, pendingTouchingBall_eq]
  · rw [hu]

/-- C14 (amended): when `Ball::update` is called with a pending collision (impact position
`P`, normal `n`, brick index `k`), the tentative move has reached or passed `P`, `P` lies
farther than 0.01 from the position of the ball at the start of the step, and no
play-field boundary is touched, then it returns `k`, the new velocity is `v - 2 (v . n) n`,
the new position is `P + 0.01 n` and the pending state is cleared; for `n = (0, 1)` the
velocity keeps its x component and flips the sign of its y component. When no collision is
pending the call returns -1. -/
theorem Ball.update_resolves_pending (b : Ball) (dt w h gridMinX gridMaxX : ℚ) :
    (b.m_hasPendingCollision = true → b.ReachedOrPassed dt → b.targetLenSq > 1 / 10000 →
      TouchesNoBoundary
        { x := b.m_nextCollisionPos.x + b.m_pendingCollisionNormal.x * (1 / 100)
          y := b.m_nextCollisionPos.y + b.m_pendingCollisionNormal.y * (1 / 100) }
        b.m_radius h gridMinX gridMaxX →
      (b.update dt w h gridMinX gridMaxX).1 = b.m_pendingHitBrickIndex ∧
      (b.update dt w h gridMinX gridMaxX).2.m_velocity =
        { x := b.m_velocity.x -
            2 * (b.m_velocity.x * b.m_pendingCollisionNormal.x +
              b.m_velocity.y * b.m_pendingCollisionNormal.y) * b.m_pendingCollisionNormal.x
          y := b.m_velocity.y -
            2 * (b.m_velocity.x * b.m_pendingCollisionNormal.x +
              b.m_velocity.y * b.m_pendingCollisionNormal.y) * b.m_pendingCollisionNormal.y } ∧
      (b.update dt w h gridMinX gridMaxX).2.m_pos =
        { x := b.m_nextCollisionPos.x + b.m_pendingCollisionNormal.x * (1 / 100)
          y := b.m_nextCollisionPos.y + b.m_pendingCollisionNormal.y * (1 / 100) } ∧
      (b.update dt w h gridMinX gridMaxX).2.m_hasPendingCollision = false ∧
      (b.update dt w h gridMinX gridMaxX).2.m_pendingHitBrickIndex = -1 ∧
      (b.m_pendingCollisionNormal = { x := 0, y := 1 } →
        (b.update dt w h gridMinX gridMaxX).2.m_velocity =
          { x := b.m_velocity.x, y := -b.m_velocity.y })) ∧
    (b.m_hasPendingCollision = false → (b.update dt w h gridMinX gridMaxX).1 = -1) := by
  constructor
  · intro hpending hreached hfar hfree
    obtain ⟨hf1, hf2, hf3⟩ := hfree
    have hm := Ball.moveAndResolve_of_resolved b dt hpending hreached hfar
    have hf1a : ¬ ((b.moveAndResolve dt).2.m_pos.y + (b.moveAndResolve dt).2.m_radius > h) := by
      rw [hm]
      exact hf1
    have hf2a : ¬ ((b.moveAndResolve dt).2.m_pos.x - (b.moveAndResolve dt).2.m_radius <
        gridMinX) := by
      rw [hm]
      exact hf2
    have hf3a : ¬ ((b.moveAndResolve dt).2.m_pos.x + (b.moveAndResolve dt).2.m_radius >
        gridMaxX) := by
      rw [hm]
      exact hf3
    have hu : (b.update dt w h gridMinX gridMaxX).2 = (b.moveAndResolve dt).2 := by
      rw [Ball.update_snd, Ball.boundTop_of_free (b.moveAndResolve dt).2 h hf1a,
        Ball.boundSides_of_free (b.moveAndResolve dt).2 gridMinX gridMaxX hf2a hf3a]
    rw [hu, Ball.update_fst, hm]
    refine ⟨rfl, rfl, rfl, rfl, rfl, ?_⟩
    intro hn
    simp only [hn]
    congr 1 <;> ring
  · intro hnone
    rw [Ball.update_fst, Ball.moveAndResolve_of_no_pending b dt hnone]

theorem Ball.update_resolves_pending_witness :
    (pendingRisingBall.update (1 / 10) 1289 1000 100 1189).1 = 98 ∧
      (pendingRisingBall.update (1 / 10) 1289 1000 100 1189).2.m_velocity =
        { x := 0, y := -400 } ∧
      (pendingRisingBall.update (1 / 10) 1289 1000 100 1189).2.m_hasPendingCollision = false ∧
      (Ball.new.update (1 / 10) 1289 1000 100 1189).1 = -1 := by
  have h := (Ball.update_resolves_pending pendingRisingBall (1 / 10) 1289 1000 100 1189).1
    (by rw [pendingRisingBall_eq])
    (by
      rw [pendingRisingBall_eq]
      left
      simp [Ball.targetLenSq, risingBall]
      norm_num)
    (by
      rw [pendingRisingBall_eq]
      simp [Ball.targetLenSq, risingBall]
      norm_num)
    (by
      rw [pendingRisingBall_eq]
      simp [TouchesNoBoundary, risingBall, Ball.new, Config.BALL_RADIUS]
      norm_num)
  refine ⟨?_, ?_, h.2.2.2.1,
    (Ball.update_resolves_pending Ball.new (1 / 10) 1289 1000 100 1189).2 rfl⟩
  · rw [h.1, pendingRisingBall_eq]
  · rw [h.2.1, pendingRisingBall_eq]
    simp [risingBall]
    norm_num

/-! ## Reflections keep the speed -/

theorem Ball.moveAndResolve_radius (b : Ball) (dt : ℚ) :
    (b.moveAndResolve dt).2.m_radius = b.m_radius := by
  by_cases h : b.m_hasPendingCollision = true ∧ b.ReachedOrPassed dt ∧ b.targetLenSq > 1 / 10000
  · rw [Ball.moveAndResolve_of_resolved b dt h.1 h.2.1 h.2.2]
  · by_cases hp : b.m_hasPendingCollision = true
    · rw [Ball.moveAndResolve_of_unresolved b dt (fun hh => h ⟨hp, hh.1, hh.2⟩)]
    · rw [Ball.moveAndResolve_of_no_pending b dt (by simpa using hp)]

theorem Ball.moveAndResolve_speedSq (b : Ball) (dt : ℚ)
    (hn : b.m_hasPendingCollision = true → IsAxisUnit b.m_pendingCollisionNormal) :
    (b.moveAndResolve dt).2.speedSq = b.speedSq := by
  by_cases h : b.m_hasPendingCollision = true ∧ b.ReachedOrPassed dt ∧ b.targetLenSq > 1 / 10000
  · rw [Ball.moveAndResolve_of_resolved b dt h.1 h.2.1 h.2.2]
    simp only [Ball.speedSq]
    rcases hn h.1 with e | e | e | e <;> rw [e] <;> ring
  · by_cases hp : b.m_hasPendingCollision = true
    · rw [Ball.moveAndResolve_of_unresolved b dt (fun hh => h ⟨hp, hh.1, hh.2⟩)]
      rfl
    · rw [Ball.moveAndResolve_of_no_pending b dt (by simpa using hp)]
      rfl

theorem Ball.boundTop_speedSq (b : Ball) (h : ℚ) : (b.boundTop h).speedSq = b.speedSq := by
  unfold Ball.boundTop
  simp only [Ball.speedSq, Ball.clearPendingCollision]
  split_ifs <;> (simp only []; try ring)

theorem Ball.boundSides_speedSq (b : Ball) (gridMinX gridMaxX : ℚ) :
    (b.boundSides gridMinX gridMaxX).speedSq = b.speedSq := by
  unfold Ball.boundSides
  simp only [Ball.speedSq, Ball.clearPendingCollision]
  split_ifs <;> (simp only []; try ring)

/-- C15: reflection keeps the energy. For every call of `Ball::update` in which the pending
normal, if a collision is pending, is one of (1, 0), (-1, 0), (0, 1), (0, -1), the squared
speed `vx^2 + vy^2` after the call equals the squared speed before it, whether a brick
reflection, a wall reflection, both or neither took place (exact arithmetic). -/
theorem Ball.update_keeps_speed (b : Ball) (dt w h gridMinX gridMaxX : ℚ)
    (hn : b.m_hasPendingCollision = true → IsAxisUnit b.m_pendingCollisionNormal) :
    (b.update dt w h gridMinX gridMaxX).2.m_velocity.x *
          (b.update dt w h gridMinX gridMaxX).2.m_velocity.x +
        (b.update dt w h gridMinX gridMaxX).2.m_velocity.y *
          (b.update dt w h gridMinX gridMaxX).2.m_velocity.y =
      b.m_velocity.x * b.m_velocity.x + b.m_velocity.y * b.m_velocity.y := by
  have h1 := Ball.boundSides_speedSq ((b.moveAndResolve dt).2.boundTop h) gridMinX gridMaxX
  have h2 := Ball.boundTop_speedSq (b.moveAndResolve dt).2 h
  have h3 := Ball.moveAndResolve_speedSq b dt hn
  rw [Ball.update_snd]
  simp only [Ball.speedSq] at h1 h2 h3
  rw [h1, h2, h3]

theorem Ball.update_keeps_speed_witness :
    (pendingRisingBall.update (1 / 10) 1289 1000 100 1189).2.m_velocity.x *
          (pendingRisingBall.update (1 / 10) 1289 1000 100 1189).2.m_velocity.x +
        (pendingRisingBall.update (1 / 10) 1289 1000 100 1189).2.m_velocity.y *
          (pendingRisingBall.update (1 / 10) 1289 1000 100 1189).2.m_velocity.y =
      pendingRisingBall.m_velocity.x * pendingRisingBall.m_velocity.x +
        pendingRisingBall.m_velocity.y * pendingRisingBall.m_velocity.y :=
  Ball.update_keeps_speed pendingRisingBall (1 / 10) 1289 1000 100 1189
    (fun _ => by rw [pendingRisingBall_eq]; exact Or.inr (Or.inr (Or.inr rfl)))

/-! ## The boundaries of the play field -/

theorem Ball.boundTop_pos_x (b : Ball) (h : ℚ) : (b.boundTop h).m_pos.x = b.m_pos.x := by
  unfold Ball.boundTop
  simp only [Ball.clearPendingCollision]
  split_ifs <;> rfl

theorem Ball.boundTop_velocity_x (b : Ball) (h : ℚ) :
    (b.boundTop h).m_velocity.x = b.m_velocity.x := by
  unfold Ball.boundTop
  simp only [Ball.clearPendingCollision]
  split_ifs <;> rfl

theorem Ball.boundTop_radius (b : Ball) (h : ℚ) : (b.boundTop h).m_radius = b.m_radius := by
  unfold Ball.boundTop
  simp only [Ball.clearPendingCollision]
  split_ifs <;> rfl

/-- What the test against `windowHeight` does when it fires. -/
theorem Ball.boundTop_of_above (b : Ball) (h : ℚ) (ha : b.m_pos.y + b.m_radius > h) :
    (b.boundTop h).m_pos.y = h - b.m_radius ∧ (b.boundTop h).m_velocity.y = -|b.m_velocity.y| := by
  unfold Ball.boundTop
  rw [if_pos ha]
  simp only [Ball.clearPendingCollision]
  split_ifs with hv
  · exact ⟨rfl, by simp only []; rw [abs_of_pos hv]; ring⟩
  · exact ⟨rfl, by simp only []; rw [abs_of_nonpos (not_lt.1 hv)]; ring⟩

/-- C16 as stated fails, the ceiling does bound the ball: `ceilingBall`, which has no
pending collision and stays within the left and right edges, would rise to y = 1015 in a
tenth of a second, so that
`y + radius` exceeds the window height 1000; `Ball::update` leaves it at y = 990 with the
vertical velocity -300, not at y = 1015 with the vertical velocity 300. -/
theorem Ball.update_ceiling_clamps :
    ceilingBall.m_hasPendingCollision = false ∧
      ¬ (ceilingBall.m_pos.x + ceilingBall.m_velocity.x * (1 / 10) - ceilingBall.m_radius < 100) ∧
      ¬ (ceilingBall.m_pos.x + ceilingBall.m_velocity.x * (1 / 10) + ceilingBall.m_radius > 1189) ∧
      ceilingBall.m_pos.y + ceilingBall.m_velocity.y * (1 / 10) + ceilingBall.m_radius > 1000 ∧
      (ceilingBall.update (1 / 10) 1289 1000 100 1189).2.m_pos.y = 990 ∧
      (ceilingBall.update (1 / 10) 1289 1000 100 1189).2.m_pos.y ≠
        ceilingBall.m_pos.y + ceilingBall.m_velocity.y * (1 / 10) ∧
      (ceilingBall.update (1 / 10) 1289 1000 100 1189).2.m_velocity.y = -300 ∧
      (ceilingBall.update (1 / 10) 1289 1000 100 1189).2.m_velocity.y ≠
        ceilingBall.m_velocity.y := by
  have hu : (ceilingBall.update (1 / 10) 1289 1000 100 1189).2 =
      { ceilingBall with m_pos := { x := 500, y := 990 }, m_velocity := { x := 0, y := -300 } } := by
    rw [Ball.update_snd, Ball.moveAndResolve_of_no_pending _ _ rfl]
    simp [ceilingBall, Ball.new, Ball.boundTop, Ball.boundSides, Ball.clearPendingCollision,
      Config.BALL_RADIUS]
    norm_num
  rw [hu]
  simp [ceilingBall, Ball.new, Config.BALL_RADIUS]
  norm_num

/-- C16 (amended): for a ball with no pending collision that is within the left and right
edges after the move, `Ball::update` returns -1, moves x by `vx * dt` and keeps `vx`; when
`y + vy * dt + radius` does not exceed `windowHeight` the resulting y is `y + vy * dt` and
`vy` is unchanged, and when it does exceed it the resulting y is `windowHeight - radius` and
the resulting vertical velocity is `-|vy|`. -/
theorem Ball.update_top (b : Ball) (dt w h gridMinX gridMaxX : ℚ)
    (hp : b.m_hasPendingCollision = false)
    (hl : ¬ (b.m_pos.x + b.m_velocity.x * dt - b.m_radius < gridMinX))
    (hr : ¬ (b.m_pos.x + b.m_velocity.x * dt + b.m_radius > gridMaxX)) :
    (b.update dt w h gridMinX gridMaxX).1 = -1 ∧
      (b.update dt w h gridMinX gridMaxX).2.m_pos.x = b.m_pos.x + b.m_velocity.x * dt ∧
      (b.update dt w h gridMinX gridMaxX).2.m_velocity.x = b.m_velocity.x ∧
      (¬ (b.m_pos.y + b.m_velocity.y * dt + b.m_radius > h) →
        (b.update dt w h gridMinX gridMaxX).2.m_pos.y = b.m_pos.y + b.m_velocity.y * dt ∧
        (b.update dt w h gridMinX gridMaxX).2.m_velocity.y = b.m_velocity.y) ∧
      (b.m_pos.y + b.m_velocity.y * dt + b.m_radius > h →
        (b.update dt w h gridMinX gridMaxX).2.m_pos.y = h - b.m_radius ∧
        (b.update dt w h gridMinX gridMaxX).2.m_velocity.y = -|b.m_velocity.y|) := by
  have hm := Ball.moveAndResolve_of_no_pending b dt hp
  have hs : (b.update dt w h gridMinX gridMaxX).2 = (b.moveAndResolve dt).2.boundTop h := by
    rw [Ball.update_snd]
    apply Ball.boundSides_of_free
    · rw [Ball.boundTop_pos_x, Ball.boundTop_radius, hm]; exact hl
    · rw [Ball.boundTop_pos_x, Ball.boundTop_radius, hm]; exact hr
  refine ⟨by rw [Ball.update_fst, hm], ?_, ?_, ?_, ?_⟩
  · rw [hs, Ball.boundTop_pos_x, hm]
  · rw [hs, Ball.boundTop_velocity_x, hm]
  · intro hy
    have hy2 : ¬ ((b.moveAndResolve dt).2.m_pos.y + (b.moveAndResolve dt).2.m_radius > h) := by
      rw [hm]; exact hy
    rw [hs, Ball.boundTop_of_free (b.moveAndResolve dt).2 h hy2, hm]
    exact ⟨rfl, rfl⟩
  · intro hy
    have hy2 : (b.moveAndResolve dt).2.m_pos.y + (b.moveAndResolve dt).2.m_radius > h := by
      rw [hm]; exact hy
    have := Ball.boundTop_of_above (b.moveAndResolve dt).2 h hy2
    rw [hs]
    rw [hm] at this ⊢
    exact this

theorem Ball.update_top_witness :
    (ceilingBall.update (1 / 10) 1289 1000 100 1189).1 = -1 ∧
      (ceilingBall.update (1 / 10) 1289 1000 100 1189).2.m_pos.x =
        ceilingBall.m_pos.x + ceilingBall.m_velocity.x * (1 / 10) ∧
      (ceilingBall.update (1 / 10) 1289 1000 100 1189).2.m_velocity.x = ceilingBall.m_velocity.x ∧
      (ceilingBall.update (1 / 10) 1289 1000 100 1189).2.m_pos.y = 1000 - ceilingBall.m_radius ∧
      (ceilingBall.update (1 / 10) 1289 1000 100 1189).2.m_velocity.y =
        -|ceilingBall.m_velocity.y| := by
  have h := Ball.update_top ceilingBall (1 / 10) 1289 1000 100 1189 rfl
    (by simp [ceilingBall, Ball.new, Config.BALL_RADIUS]; norm_num)
    (by simp [ceilingBall, Ball.new, Config.BALL_RADIUS]; norm_num)
  exact ⟨h.1, h.2.1, h.2.2.1,
    h.2.2.2.2 (by simp [ceilingBall, Ball.new, Config.BALL_RADIUS]; norm_num)⟩

/-- What the tests against the left and right edges do to the ball. -/
theorem Ball.boundSides_spec (b : Ball) (gridMinX gridMaxX : ℚ) :
    (b.m_pos.x - b.m_radius < gridMinX →
        (b.boundSides gridMinX gridMaxX).m_pos.x = gridMinX + b.m_radius ∧
        (b.boundSides gridMinX gridMaxX).m_velocity.x = |b.m_velocity.x|) ∧
      (¬ (b.m_pos.x - b.m_radius < gridMinX) → b.m_pos.x + b.m_radius > gridMaxX →
        (b.boundSides gridMinX gridMaxX).m_pos.x = gridMaxX - b.m_radius ∧
        (b.boundSides gridMinX gridMaxX).m_velocity.x = -|b.m_velocity.x|) ∧
      (b.boundSides gridMinX gridMaxX).m_pos.y = b.m_pos.y ∧
      (b.boundSides gridMinX gridMaxX).m_velocity.y = b.m_velocity.y := by
  unfold Ball.boundSides
  simp only [Ball.clearPendingCollision]
  refine ⟨?_, ?_, ?_, ?_⟩
  · intro hl
    rw [if_pos hl]
    split_ifs with hv
    · exact ⟨rfl, by simp only []; rw [abs_of_neg hv]; ring⟩
    · exact ⟨rfl, by simp only []; rw [abs_of_nonneg (not_lt.1 hv)]⟩
  · intro hl hr
    rw [if_neg hl, if_pos hr]
    split_ifs with hv
    · exact ⟨rfl, by simp only []; rw [abs_of_pos hv]; ring⟩
    · exact ⟨rfl, by simp only []; rw [abs_of_nonpos (not_lt.1 hv)]; ring⟩
  · split_ifs <;> rfl
  · split_ifs <;> rfl

/-- C17: the left and right edges reflect the x velocity. Let the ball after the move and
any brick resolution of `Ball::update` be at `x` with velocity `vx`. If `x - radius <
gridMinX` the resulting x is `gridMinX + radius` and the resulting vx is `|vx|`; otherwise,
if `x + radius > gridMaxX`, the resulting x is `gridMaxX - radius` and the resulting vx is
`-|vx|`. The edges change neither y nor the y velocity, which are those left by the test
against `windowHeight`; and whenever that test does not fire, in particular at the floor, y
and the y velocity are those after the move and resolution: nothing is clamped or
reflected. -/
theorem Ball.update_edges (b : Ball) (dt w h gridMinX gridMaxX : ℚ) :
    ((b.moveAndResolve dt).2.m_pos.x - b.m_radius < gridMinX →
        (b.update dt w h gridMinX gridMaxX).2.m_pos.x = gridMinX + b.m_radius ∧
        (b.update dt w h gridMinX gridMaxX).2.m_velocity.x =
          |(b.moveAndResolve dt).2.m_velocity.x|) ∧
      (¬ ((b.moveAndResolve dt).2.m_pos.x - b.m_radius < gridMinX) →
        (b.moveAndResolve dt).2.m_pos.x + b.m_radius > gridMaxX →
        (b.update dt w h gridMinX gridMaxX).2.m_pos.x = gridMaxX - b.m_radius ∧
        (b.update dt w h gridMinX gridMaxX).2.m_velocity.x =
          -|(b.moveAndResolve dt).2.m_velocity.x|) ∧
      ((b.update dt w h gridMinX gridMaxX).2.m_pos.y =
          ((b.moveAndResolve dt).2.boundTop h).m_pos.y ∧
        (b.update dt w h gridMinX gridMaxX).2.m_velocity.y =
          ((b.moveAndResolve dt).2.boundTop h).m_velocity.y) ∧
      (¬ ((b.moveAndResolve dt).2.m_pos.y + b.m_radius > h) →
        (b.update dt w h gridMinX gridMaxX).2.m_pos.y = (b.moveAndResolve dt).2.m_pos.y ∧
        (b.update dt w h gridMinX gridMaxX).2.m_velocity.y =
          (b.moveAndResolve dt).2.m_velocity.y) := by
  have hs := Ball.boundSides_spec ((b.moveAndResolve dt).2.boundTop h) gridMinX gridMaxX
  rw [Ball.boundTop_pos_x, Ball.boundTop_radius, Ball.boundTop_velocity_x,
    Ball.moveAndResolve_radius] at hs
  rw [Ball.update_snd]
  refine ⟨hs.1, hs.2.1, hs.2.2, ?_⟩
  intro hy
  have hy2 : ¬ ((b.moveAndResolve dt).2.m_pos.y + (b.moveAndResolve dt).2.m_radius > h) := by
    rw [Ball.moveAndResolve_radius]; exact hy
  have hf := Ball.boundTop_of_free (b.moveAndResolve dt).2 h hy2
  rw [hs.2.2.1, hs.2.2.2, hf]
  exact ⟨rfl, rfl⟩

theorem Ball.update_edges_witness :
    (leftwardBall.update (1 / 10) 1289 1000 100 1189).2.m_pos.x = 100 + leftwardBall.m_radius ∧
      (leftwardBall.update (1 / 10) 1289 1000 100 1189).2.m_velocity.x =
        |(leftwardBall.moveAndResolve (1 / 10)).2.m_velocity.x| :=
  (Ball.update_edges leftwardBall (1 / 10) 1289 1000 100 1189).1
    (by rw [Ball.moveAndResolve_of_no_pending _ _ rfl]
        simp [leftwardBall, Ball.new, Config.BALL_RADIUS]
        norm_num)

/-! ## Pending collisions and reflections -/

/-- The edge tests leave a cleared pending state cleared. -/
theorem Ball.boundSides_keeps_cleared (b : Ball) (gridMinX gridMaxX : ℚ)
    (h : b.m_hasPendingCollision = false ∧ b.m_pendingHitBrickIndex = -1) :
    (b.boundSides gridMinX gridMaxX).m_hasPendingCollision = false ∧
      (b.boundSides gridMinX gridMaxX).m_pendingHitBrickIndex = -1 := by
  unfold Ball.boundSides
  simp only [Ball.clearPendingCollision]
  split_ifs
  · exact ⟨rfl, rfl⟩
  · exact h
  · exact ⟨rfl, rfl⟩
  · exact h
  · exact h

/-- A flip at the top clears the pending state. -/
theorem Ball.boundTop_flip_clears (b : Ball) (h : ℚ) (ha : b.m_pos.y + b.m_radius > h)
    (hv : b.m_velocity.y > 0) :
    (b.boundTop h).m_hasPendingCollision = false ∧ (b.boundTop h).m_pendingHitBrickIndex = -1 := by
  unfold Ball.boundTop
  rw [if_pos ha]
  simp only [Ball.clearPendingCollision]
  rw [if_pos hv]
  exact ⟨rfl, rfl⟩

/-- A flip at the left or right edge clears the pending state. -/
theorem Ball.boundSides_flip_clears (b : Ball) (gridMinX gridMaxX : ℚ)
    (h : (b.m_pos.x - b.m_radius < gridMinX ∧ b.m_velocity.x < 0) ∨
      (¬ (b.m_pos.x - b.m_radius < gridMinX) ∧ b.m_pos.x + b.m_radius > gridMaxX ∧
        b.m_velocity.x > 0)) :
    (b.boundSides gridMinX gridMaxX).m_hasPendingCollision = false ∧
      (b.boundSides gridMinX gridMaxX).m_pendingHitBrickIndex = -1 := by
  unfold Ball.boundSides
  simp only [Ball.clearPendingCollision]
  rcases h with ⟨hl, hv⟩ | ⟨hl, hr, hv⟩
  · rw [if_pos hl, if_pos hv]
    exact ⟨rfl, rfl⟩
  · rw [if_neg hl, if_pos hr, if_pos hv]
    exact ⟨rfl, rfl⟩

theorem Ball.checkCollisionPaddle_of_hit (b : Ball) (cmath : CMath) (windowWidth : Int)
    (paddle : Paddle) (dt : ℚ) (h : b.paddleCollisionDetected paddle dt = true) :
    b.checkCollisionPaddle cmath windowWidth paddle dt =
      (true,
       { b with
         m_pos := { x := b.m_pos.x, y := paddle.m_rect.y + paddle.m_rect.height + b.m_radius }
         m_velocity :=
           { x := (paddleBounceVelocity cmath.sqrt cmath.sin cmath.cos M_PI (windowWidth : ℚ)
               b.m_pos.x paddle.m_rect.x paddle.m_rect.width b.m_velocity.x b.m_velocity.y).1
             y := (paddleBounceVelocity cmath.sqrt cmath.sin cmath.cos M_PI (windowWidth : ℚ)
               b.m_pos.x paddle.m_rect.x paddle.m_rect.width b.m_velocity.x b.m_velocity.y).2 }
         m_hasPendingCollision := false
         m_pendingHitBrickIndex := -1 }) := by
  unfold Ball.checkCollisionPaddle
  rw [if_pos h]
  rfl

theorem Ball.checkCollisionPaddle_of_miss (b : Ball) (cmath : CMath) (windowWidth : Int)
    (paddle : Paddle) (dt : ℚ) (h : ¬ b.paddleCollisionDetected paddle dt = true) :
    b.checkCollisionPaddle cmath windowWidth paddle dt = (false, b) := by
  unfold Ball.checkCollisionPaddle
  rw [if_neg h]

theorem Ball.checkCollisionPaddle_fst (b : Ball) (cmath : CMath) (windowWidth : Int)
    (paddle : Paddle) (dt : ℚ) :
    (b.checkCollisionPaddle cmath windowWidth paddle dt).1 = b.paddleCollisionDetected paddle dt := by
  by_cases h : b.paddleCollisionDetected paddle dt = true
  · rw [Ball.checkCollisionPaddle_of_hit b cmath windowWidth paddle dt h, h]
  · rw [Ball.checkCollisionPaddle_of_miss b cmath windowWidth paddle dt h]
    simp only [Bool.not_eq_true] at h
    rw [h]

theorem droppingBall_detected : droppingBall.paddleCollisionDetected samplePaddle (1 / 2) = true := by
  simp [Ball.paddleCollisionDetected, droppingBall, samplePaddle, Paddle.new, Paddle.init,
    Paddle.getRect, Ball.new, Config.BALL_RADIUS, Config.PADDLE_WIDTH, Config.PADDLE_HEIGHT]
  norm_num

/-- C18: a pending brick collision never survives a wall or paddle reflection. After a call
of `Ball::update` in which a boundary flipped a velocity component, and after a call of
`Ball::checkCollisionPaddle` that returns true, the ball has no pending collision and its
pending brick index is -1. -/
theorem Ball.reflection_clears_pending (b : Ball) (dt w h gridMinX gridMaxX : ℚ)
    (cmath : CMath) (windowWidth : Int) (paddle : Paddle) :
    (b.BoundaryFlips dt h gridMinX gridMaxX →
        (b.update dt w h gridMinX gridMaxX).2.m_hasPendingCollision = false ∧
        (b.update dt w h gridMinX gridMaxX).2.m_pendingHitBrickIndex = -1) ∧
      ((b.checkCollisionPaddle cmath windowWidth paddle dt).1 = true →
        (b.checkCollisionPaddle cmath windowWidth paddle dt).2.m_hasPendingCollision = false ∧
        (b.checkCollisionPaddle cmath windowWidth paddle dt).2.m_pendingHitBrickIndex = -1) := by
  constructor
  · intro hf
    rw [Ball.update_snd]
    rcases hf with ⟨ha, hv⟩ | hside
    · apply Ball.boundSides_keeps_cleared
      apply Ball.boundTop_flip_clears _ _ _ hv
      rw [Ball.moveAndResolve_radius]
      exact ha
    · apply Ball.boundSides_flip_clears
      rw [Ball.boundTop_pos_x, Ball.boundTop_radius, Ball.boundTop_velocity_x,
        Ball.moveAndResolve_radius]
      exact hside
  · intro hhit
    rw [Ball.checkCollisionPaddle_fst] at hhit
    rw [Ball.checkCollisionPaddle_of_hit b cmath windowWidth paddle dt hhit]
    exact ⟨rfl, rfl⟩

theorem Ball.reflection_clears_pending_witness :
    (pendingRisingBall.m_hasPendingCollision = true ∧
        (pendingRisingBall.update (1 / 100) 1289 660 100 1189).2.m_hasPendingCollision = false ∧
        (pendingRisingBall.update (1 / 100) 1289 660 100 1189).2.m_pendingHitBrickIndex = -1) ∧
      droppingBall.m_hasPendingCollision = true ∧
      (droppingBall.checkCollisionPaddle sampleMath 16 samplePaddle (1 / 2)).1 = true ∧
      (droppingBall.checkCollisionPaddle sampleMath 16 samplePaddle (1 / 2)).2.m_hasPendingCollision
        = false ∧
      (droppingBall.checkCollisionPaddle sampleMath 16 samplePaddle
        (1 / 2)).2.m_pendingHitBrickIndex = -1 :=
  have hhit : (droppingBall.checkCollisionPaddle sampleMath 16 samplePaddle (1 / 2)).1 = true := by
    rw [Ball.checkCollisionPaddle_fst]; exact droppingBall_detected
  have hflip : pendingRisingBall.BoundaryFlips (1 / 100) 660 100 1189 := by
    have hm := Ball.moveAndResolve_of_unresolved pendingRisingBall (1 / 100) (by
      rw [pendingRisingBall_eq]
      simp [Ball.ReachedOrPassed, Ball.targetLenSq, risingBall, Ball.new]
      norm_num)
    unfold Ball.BoundaryFlips
    rw [hm, pendingRisingBall_eq]
    left
    simp [risingBall, Ball.new, Config.BALL_RADIUS]
    norm_num
  ⟨⟨by rw [pendingRisingBall_eq],
      (Ball.reflection_clears_pending pendingRisingBall (1 / 100) 1289 660 100 1189 sampleMath 16
        samplePaddle).1 hflip⟩,
    rfl, hhit,
    (Ball.reflection_clears_pending droppingBall (1 / 2) 1289 1000 100 1189 sampleMath 16
      samplePaddle).2 hhit⟩

/-! ## `Ball::checkCollisionPaddle` -/

/-- The test of `Ball::checkCollisionPaddle` in terms of `HitsPaddle`. -/
theorem Ball.paddleCollisionDetected_iff (b : Ball) (paddle : Paddle) (dt : ℚ) :
    b.paddleCollisionDetected paddle dt = true ↔ b.HitsPaddle paddle dt := by
  unfold Ball.paddleCollisionDetected Ball.HitsPaddle
  simp only [Paddle.getRect, Bool.and_eq_true, decide_eq_true_eq]
  constructor
  · intro h
    split_ifs at h with h1 h2 h3
    · exact ⟨h1.1, h1.2, Or.inl h2⟩
    · exact ⟨h1.1, h1.2, Or.inr h3⟩
  · rintro ⟨hv, ho, hc⟩
    rw [if_pos ⟨hv, ho⟩]
    rcases hc with hc | hc
    · rw [if_pos hc]
    · split_ifs <;> rfl

/-- C19: `Ball::checkCollisionPaddle` returns true if and only if the ball moves downward,
overlaps the paddle horizontally (`x + r > paddle.x` and `x - r < paddle.x + paddle.width`)
and either its bottom edge is at or above the paddle top now and strictly below it after
`vy * dt`, for any `dt`, or its bottom edge is inside the thickness of the paddle with its
top edge above the paddle top; whenever it returns false the ball is unchanged, position,
velocity and pending state included. -/
theorem Ball.checkCollisionPaddle_iff (b : Ball) (cmath : CMath) (windowWidth : Int)
    (paddle : Paddle) (dt : ℚ) :
    ((b.checkCollisionPaddle cmath windowWidth paddle dt).1 = true ↔ b.HitsPaddle paddle dt) ∧
      ((b.checkCollisionPaddle cmath windowWidth paddle dt).1 = false →
        (b.checkCollisionPaddle cmath windowWidth paddle dt).2 = b) := by
  constructor
  · rw [Ball.checkCollisionPaddle_fst]
    exact Ball.paddleCollisionDetected_iff b paddle dt
  · intro h
    rw [Ball.checkCollisionPaddle_fst] at h
    rw [Ball.checkCollisionPaddle_of_miss b cmath windowWidth paddle dt (by rw [h]; simp)]

theorem Ball.checkCollisionPaddle_iff_witness :
    ((fallingBall.checkCollisionPaddle sampleMath 1289 samplePaddle (1 / 60)).1 = false ∧
        (fallingBall.checkCollisionPaddle sampleMath 1289 samplePaddle (1 / 60)).2 =
          fallingBall) ∧
      (droppingBall.checkCollisionPaddle sampleMath 1289 samplePaddle (1 / 2)).1 = true ∧
      droppingBall.HitsPaddle samplePaddle (1 / 2) :=
  have hmiss : (fallingBall.checkCollisionPaddle sampleMath 1289 samplePaddle (1 / 60)).1 = false := by
    rw [Ball.checkCollisionPaddle_fst]
    simp [Ball.paddleCollisionDetected, fallingBall, samplePaddle, Paddle.new, Paddle.init,
      Paddle.getRect, Ball.new, Config.BALL_RADIUS, Config.PADDLE_WIDTH, Config.PADDLE_HEIGHT]
    norm_num
  have hhit : (droppingBall.checkCollisionPaddle sampleMath 1289 samplePaddle (1 / 2)).1 = true := by
    rw [Ball.checkCollisionPaddle_fst]; exact droppingBall_detected
  ⟨⟨hmiss,
      (Ball.checkCollisionPaddle_iff fallingBall sampleMath 1289 samplePaddle (1 / 60)).2 hmiss⟩,
    hhit,
    (Ball.checkCollisionPaddle_iff droppingBall sampleMath 1289 samplePaddle (1 / 2)).1.1 hhit⟩

theorem clampTo_mem {K : Type} [LinearOrderedField K] (v lo hi : K) (h : lo ≤ hi) :
    lo ≤ clampTo v lo hi ∧ clampTo v lo hi ≤ hi := by
  unfold clampTo
  split_ifs with h1 h2
  · exact ⟨le_refl _, h⟩
  · exact ⟨h, le_refl _⟩
  · exact ⟨not_lt.1 h1, not_lt.1 h2⟩

/-- The velocity after a paddle hit, with the minimum speed written as a maximum. -/
theorem paddleBounceVelocity_eq {K : Type} [LinearOrderedField K] (sqrt sin cos : K → K)
    (pi windowWidth ballX paddleX paddleWidth vx vy : K) :
    paddleBounceVelocity sqrt sin cos pi windowWidth ballX paddleX paddleWidth vx vy =
      (max (sqrt (vx * vx + vy * vy)) (windowWidth / 4) *
          sin (clampTo ((ballX - (paddleX + paddleWidth / 2)) / (paddleWidth / 2)) (-1) 1 *
            (75 * (pi / 180))),
        |max (sqrt (vx * vx + vy * vy)) (windowWidth / 4) *
          cos (clampTo ((ballX - (paddleX + paddleWidth / 2)) / (paddleWidth / 2)) (-1) 1 *
            (75 * (pi / 180)))|) := by
  unfold paddleBounceVelocity
  simp only []
  split_ifs with h
  · rw [max_eq_right h.le]
  · rw [max_eq_left (not_lt.1 h)]

/-- The bounce angle stays strictly within a quarter turn, so its cosine is positive. -/
theorem bounceAngle_cos_pos (c pi : ℝ) (hc : -1 ≤ c ∧ c ≤ 1) (h0 : 0 ≤ pi)
    (h1 : pi ≤ Real.pi) : 0 < Real.cos (c * (75 * (pi / 180))) := by
  have hpi := Real.pi_pos
  have hm0 : 0 ≤ 75 * (pi / 180) := by positivity
  have hm1 : 75 * (pi / 180) < Real.pi / 2 := by linarith
  apply Real.cos_pos_of_mem_Ioo
  constructor
  · nlinarith [hc.1, hc.2]
  · nlinarith [hc.1, hc.2]

/-- C20: whenever `Ball::checkCollisionPaddle` returns true the resulting ball has its x
unchanged and `y = paddleTop + radius`, and its velocity is the one `paddleBounceVelocity`
computes from the library functions. Over the real numbers, with the real square root, sine
and cosine, with `pi` the number pi or a lower approximation of it such as `M_PI`, and for a
ball moving downward as a hit requires, that velocity is strictly upward, its speed
`sqrt (vx^2 + vy^2)` is the maximum of the previous speed and `WINDOW_WIDTH / 4`, and it is
that speed times `(sin a, cos a)` with `a = clamp((x - paddleCenterX) / (paddleWidth / 2),
-1, 1) * 75 * pi / 180`, that is 75 degrees. -/
theorem Ball.checkCollisionPaddle_bounce (b : Ball) (cmath : CMath) (windowWidth : Int)
    (paddle : Paddle) (dt : ℚ) (pi W x px pw vx vy : ℝ)
    (hvy : vy < 0) (h0 : 0 ≤ pi) (h1 : pi ≤ Real.pi) :
    ((b.checkCollisionPaddle cmath windowWidth paddle dt).1 = true →
        (b.checkCollisionPaddle cmath windowWidth paddle dt).2.m_pos =
          { x := b.m_pos.x, y := paddle.m_rect.y + paddle.m_rect.height + b.m_radius } ∧
        ((b.checkCollisionPaddle cmath windowWidth paddle dt).2.m_velocity.x,
          (b.checkCollisionPaddle cmath windowWidth paddle dt).2.m_velocity.y) =
          paddleBounceVelocity cmath.sqrt cmath.sin cmath.cos M_PI (windowWidth : ℚ)
            b.m_pos.x paddle.m_rect.x paddle.m_rect.width b.m_velocity.x b.m_velocity.y) ∧
      (paddleBounceVelocity Real.sqrt Real.sin Real.cos pi W x px pw vx vy).2 > 0 ∧
      Real.sqrt
          ((paddleBounceVelocity Real.sqrt Real.sin Real.cos pi W x px pw vx vy).1 *
              (paddleBounceVelocity Real.sqrt Real.sin Real.cos pi W x px pw vx vy).1 +
            (paddleBounceVelocity Real.sqrt Real.sin Real.cos pi W x px pw vx vy).2 *
              (paddleBounceVelocity Real.sqrt Real.sin Real.cos pi W x px pw vx vy).2) =
        max (Real.sqrt (vx * vx + vy * vy)) (W / 4) ∧
      paddleBounceVelocity Real.sqrt Real.sin Real.cos pi W x px pw vx vy =
        (max (Real.sqrt (vx * vx + vy * vy)) (W / 4) *
            Real.sin (clampTo ((x - (px + pw / 2)) / (pw / 2)) (-1) 1 * (75 * (pi / 180))),
          max (Real.sqrt (vx * vx + vy * vy)) (W / 4) *
            Real.cos (clampTo ((x - (px + pw / 2)) / (pw / 2)) (-1) 1 * (75 * (pi / 180)))) := by
  have hcos := bounceAngle_cos_pos (clampTo ((x - (px + pw / 2)) / (pw / 2)) (-1) 1) pi
    (clampTo_mem _ _ _ (by norm_num)) h0 h1
  have hs0 : 0 < Real.sqrt (vx * vx + vy * vy) :=
    Real.sqrt_pos.2 (by nlinarith [mul_pos_of_neg_of_neg hvy hvy, mul_self_nonneg vx])
  have hs : 0 < max (Real.sqrt (vx * vx + vy * vy)) (W / 4) := lt_max_of_lt_left hs0
  have hv : paddleBounceVelocity Real.sqrt Real.sin Real.cos pi W x px pw vx vy =
      (max (Real.sqrt (vx * vx + vy * vy)) (W / 4) *
          Real.sin (clampTo ((x - (px + pw / 2)) / (pw / 2)) (-1) 1 * (75 * (pi / 180))),
        max (Real.sqrt (vx * vx + vy * vy)) (W / 4) *
          Real.cos (clampTo ((x - (px + pw / 2)) / (pw / 2)) (-1) 1 * (75 * (pi / 180)))) := by
    rw [paddleBounceVelocity_eq, abs_of_pos (mul_pos hs hcos)]
  refine ⟨?_, ?_, ?_, hv⟩
  · intro hhit
    rw [Ball.checkCollisionPaddle_fst] at hhit
    rw [Ball.checkCollisionPaddle_of_hit b cmath windowWidth paddle dt hhit]
    exact ⟨rfl, rfl⟩
  · rw [hv]
    exact mul_pos hs hcos
  · rw [hv]
    simp only []
    have e : ∀ s a : ℝ, s * Real.sin a * (s * Real.sin a) + s * Real.cos a * (s * Real.cos a) =
        s * s := by
      intro s a
      have := Real.sin_sq_add_cos_sq a
      nlinarith [this]
    rw [e, Real.sqrt_mul_self hs.le]

theorem Ball.checkCollisionPaddle_bounce_witness :
    (droppingBall.checkCollisionPaddle sampleMath 16 samplePaddle (1 / 2)).1 = true ∧
      (droppingBall.checkCollisionPaddle sampleMath 16 samplePaddle (1 / 2)).2.m_pos =
        { x := droppingBall.m_pos.x
          y := samplePaddle.m_rect.y + samplePaddle.m_rect.height + droppingBall.m_radius } ∧
      (paddleBounceVelocity Real.sqrt Real.sin Real.cos Real.pi 16 (1289 / 2) (1159 / 2) 130 3
        (-4)).2 > 0 :=
  have hhit : (droppingBall.checkCollisionPaddle sampleMath 16 samplePaddle (1 / 2)).1 = true := by
    rw [Ball.checkCollisionPaddle_fst]; exact droppingBall_detected
  have h := Ball.checkCollisionPaddle_bounce droppingBall sampleMath 16 samplePaddle (1 / 2)
    Real.pi 16 (1289 / 2) (1159 / 2) 130 3 (-4) (by norm_num) Real.pi_pos.le (le_refl _)
  ⟨hhit, (h.1 hhit).1, h.2.1⟩

/-! ## The editor: selection -/

theorem truncToInt_of_mem (q : ℚ) (n : Nat) (h1 : (n : ℚ) ≤ q) (h2 : q < (n : ℚ) + 1) :
    Level.truncToInt q = (n : Int) := by
  have h0 : (0 : ℚ) ≤ q := le_trans (Nat.cast_nonneg n) h1
  unfold Level.truncToInt
  rw [if_pos h0, Int.floor_eq_iff]
  exact ⟨by exact_mod_cast h1, by exact_mod_cast h2⟩

theorem clampInt_of_mem (v lo hi : Int) (h1 : lo ≤ v) (h2 : v ≤ hi) :
    Level.clampInt v lo hi = v := by
  unfold Level.clampInt
  rw [if_neg (not_lt.2 h1), if_neg (not_lt.2 h2)]

/-- The two outcomes of `deselect`. -/
theorem Level.deselect_cases (L : Level) :
    (L.deselect.1 = 1 ∧ L.deselect.2.selection ≠ L.selection) ∨
      (L.deselect.1 = 0 ∧ L.deselect.2 = L) := by
  unfold Level.deselect
  split_ifs with h
  · left
    refine ⟨rfl, ?_⟩
    intro he
    simp only [Level.selection, Prod.mk.injEq] at he
    rcases h with h | h
    · exact h he.1.symm
    · exact h he.2.symm
  · right
    exact ⟨rfl, rfl⟩

theorem Level.deselect_selection (L : Level) : L.deselect.2.selection = (-1, -1) := by
  unfold Level.deselect
  split_ifs with h
  · rfl
  · simp only [not_or, not_not] at h
    simp only [Level.selection, h.1, h.2]

theorem Level.deselect_frame (L : Level) :
    L.deselect.2.m_bricks = L.m_bricks ∧
      L.deselect.2.m_activeBrickCount = L.m_activeBrickCount ∧
      L.deselect.2.m_gridState = L.m_gridState := by
  unfold Level.deselect
  split_ifs <;> exact ⟨rfl, rfl, rfl⟩

/-- The two outcomes of `handleEditorLeftClickSelection`. -/
theorem Level.select_cases (L : Level) (x y : ℚ) :
    ((L.handleEditorLeftClickSelection x y).1 = 1 ∧
        (L.handleEditorLeftClickSelection x y).2.selection ≠ L.selection) ∨
      ((L.handleEditorLeftClickSelection x y).1 = 0 ∧
        (L.handleEditorLeftClickSelection x y).2 = L) := by
  unfold Level.handleEditorLeftClickSelection
  simp only []
  split_ifs with h1 h2 h3
  · exact Level.deselect_cases L
  · left
    refine ⟨rfl, ?_⟩
    intro he
    simp only [Level.selection, Prod.mk.injEq] at he
    rcases h3 with h | h
    · exact h he.1.symm
    · exact h he.2.symm
  · right
    exact ⟨rfl, rfl⟩
  · exact Level.deselect_cases L

theorem Level.select_frame (L : Level) (x y : ℚ) :
    (L.handleEditorLeftClickSelection x y).2.m_bricks = L.m_bricks ∧
      (L.handleEditorLeftClickSelection x y).2.m_activeBrickCount = L.m_activeBrickCount ∧
      (L.handleEditorLeftClickSelection x y).2.m_gridState = L.m_gridState := by
  unfold Level.handleEditorLeftClickSelection
  simp only []
  split_ifs
  · exact Level.deselect_frame L
  · exact ⟨rfl, rfl, rfl⟩
  · exact ⟨rfl, rfl, rfl⟩
  · exact Level.deselect_frame L

/-- A pointer outside the bounding box of the grid clears the selection. -/
theorem Level.select_outside (L : Level) (x y : ℚ)
    (h : x < L.m_gridStartX ∨ x > L.m_gridStartX + L.m_gridTotalWidth ∨
      y < L.m_gridStartY ∨ y > L.m_gridStartY + L.m_gridTotalHeight) :
    (L.handleEditorLeftClickSelection x y).2.selection = (-1, -1) := by
  unfold Level.handleEditorLeftClickSelection
  rw [if_pos h]
  exact Level.deselect_selection L

/-- A pointer strictly inside the rectangle of cell (r, c) selects that cell, in a grid of
total size 1089 x 221. -/
theorem Level.select_inside (L : Level) (hW : L.m_gridTotalWidth = 1089)
    (hH : L.m_gridTotalHeight = 221) (x y : ℚ) (r c : Nat) (hr : r < 8) (hc : c < 14)
    (hx1 : L.m_gridStartX + 78 * (c : ℚ) < x) (hx2 : x < L.m_gridStartX + 78 * (c : ℚ) + 75)
    (hy1 : L.m_gridStartY + 28 * (7 - (r : ℚ)) < y)
    (hy2 : y < L.m_gridStartY + 28 * (7 - (r : ℚ)) + 25) :
    (L.handleEditorLeftClickSelection x y).2.selection = ((r : Int), (c : Int)) := by
  have hcq : (c : ℚ) ≤ 13 := by exact_mod_cast Nat.le_of_lt_succ hc
  have hrq : (r : ℚ) ≤ 7 := by exact_mod_cast Nat.le_of_lt_succ hr
  have hc0 : (0 : ℚ) ≤ (c : ℚ) := Nat.cast_nonneg c
  have hr0 : (0 : ℚ) ≤ (r : ℚ) := Nat.cast_nonneg r
  have hbox : ¬ (x < L.m_gridStartX ∨ x > L.m_gridStartX + L.m_gridTotalWidth ∨
      y < L.m_gridStartY ∨ y > L.m_gridStartY + L.m_gridTotalHeight) := by
    rw [hW, hH]
    intro h
    rcases h with h | h | h | h <;> linarith
  have hcast : ((7 - r : Nat) : ℚ) = 7 - (r : ℚ) := by
    rw [Nat.cast_sub (Nat.le_of_lt_succ hr)]
    norm_num
  have hcol : Level.truncToInt ((x - L.m_gridStartX) / (Config.BRICK_WIDTH + Config.BRICK_SPACING))
      = (c : Int) := by
    apply truncToInt_of_mem
    · rw [le_div_iff₀ (by norm_num [Config.BRICK_WIDTH, Config.BRICK_SPACING])]
      norm_num [Config.BRICK_WIDTH, Config.BRICK_SPACING]
      linarith
    · rw [div_lt_iff₀ (by norm_num [Config.BRICK_WIDTH, Config.BRICK_SPACING])]
      norm_num [Config.BRICK_WIDTH, Config.BRICK_SPACING]
      linarith
  have hrow : Level.truncToInt ((y - L.m_gridStartY) / (Config.BRICK_HEIGHT + Config.BRICK_SPACING))
      = ((7 - r : Nat) : Int) := by
    apply truncToInt_of_mem
    · rw [hcast, le_div_iff₀ (by norm_num [Config.BRICK_HEIGHT, Config.BRICK_SPACING])]
      norm_num [Config.BRICK_HEIGHT, Config.BRICK_SPACING]
      linarith
    · rw [hcast, div_lt_iff₀ (by norm_num [Config.BRICK_HEIGHT, Config.BRICK_SPACING])]
      norm_num [Config.BRICK_HEIGHT, Config.BRICK_SPACING]
      linarith
  have hcc : Level.clampInt (c : Int) 0 ((Config.GRID_COLS : Int) - 1) = (c : Int) :=
    clampInt_of_mem _ _ _ (by omega) (by simp only [Config.GRID_COLS]; omega)
  have hrc : Level.clampInt ((7 - r : Nat) : Int) 0 ((Config.GRID_ROWS : Int) - 1) =
      ((7 - r : Nat) : Int) :=
    clampInt_of_mem _ _ _ (by omega) (by simp only [Config.GRID_ROWS]; omega)
  have hlog : ((Config.GRID_ROWS : Nat) : Int) - 1 - ((7 - r : Nat) : Int) = (r : Int) := by
    simp only [Config.GRID_ROWS]
    omega
  have hin : x ≥ L.m_gridStartX + ((c : Int) : ℚ) * (Config.BRICK_WIDTH + Config.BRICK_SPACING) ∧
      x ≤ L.m_gridStartX + ((c : Int) : ℚ) * (Config.BRICK_WIDTH + Config.BRICK_SPACING) +
        Config.BRICK_WIDTH ∧
      y ≥ L.m_gridStartY + (((7 - r : Nat) : Int) : ℚ) *
        (Config.BRICK_HEIGHT + Config.BRICK_SPACING) ∧
      y ≤ L.m_gridStartY + (((7 - r : Nat) : Int) : ℚ) *
        (Config.BRICK_HEIGHT + Config.BRICK_SPACING) + Config.BRICK_HEIGHT := by
    have e1 : (((7 - r : Nat) : Int) : ℚ) = 7 - (r : ℚ) := by
      rw [Int.cast_natCast, hcast]
    rw [e1, Int.cast_natCast]
    norm_num [Config.BRICK_WIDTH, Config.BRICK_HEIGHT, Config.BRICK_SPACING]
    refine ⟨by linarith, by linarith, by linarith, by linarith⟩
  unfold Level.handleEditorLeftClickSelection
  rw [if_neg hbox]
  simp only [hcol, hrow, hcc, hrc, hlog]
  rw [if_pos hin]
  split_ifs with hs
  · rfl
  · simp only [not_or, not_not] at hs
    simp only [Level.selection, hs.1, hs.2]

theorem calculateGridDimensions_total (L : Level) (w h : ℚ) :
    (L.calculateGridDimensions w h).m_gridTotalWidth = 1089 ∧
      (L.calculateGridDimensions w h).m_gridTotalHeight = 221 := by
  simp only [Level.calculateGridDimensions, Config.GRID_COLS, Config.GRID_ROWS,
    Config.BRICK_WIDTH, Config.BRICK_HEIGHT, Config.BRICK_SPACING]
  norm_num

/-- The geometry `setupBricks` leaves is the one `calculateGridDimensions` computes. -/
theorem setupBricks_geometry (L : Level) (w h : ℚ) (hlen : L.m_bricks.length = 112) :
    (L.setupBricks w h).m_gridStartX = (L.calculateGridDimensions w h).m_gridStartX ∧
      (L.setupBricks w h).m_gridStartY = (L.calculateGridDimensions w h).m_gridStartY ∧
      (L.setupBricks w h).m_gridTotalWidth = 1089 ∧
      (L.setupBricks w h).m_gridTotalHeight = 221 := by
  have hs := setupBricks_loop L w h hlen
  rw [setupBricks_eq]
  refine ⟨hs.startX, hs.startY, ?_, ?_⟩
  · rw [hs.totalWidth]
    exact (calculateGridDimensions_total L w h).1
  · rw [hs.totalHeight]
    exact (calculateGridDimensions_total L w h).2

theorem calculateGridDimensions_start (L : Level) (w h : ℚ) :
    (L.calculateGridDimensions w h).m_gridStartX = (w - 1089) / 2 ∧
      (L.calculateGridDimensions w h).m_gridStartY = max (h * (9 / 10) - 221) (h * (1 / 4)) := by
  simp only [Level.calculateGridDimensions, Config.GRID_COLS, Config.GRID_ROWS,
    Config.BRICK_WIDTH, Config.BRICK_HEIGHT, Config.BRICK_SPACING]
  norm_num
  split_ifs with hlt
  · rw [max_eq_right (le_of_lt hlt)]
  · rw [max_eq_left (not_lt.1 hlt)]

/-- The brick `setupBricks` makes for the cell in logical row `r`, column `c`. -/
theorem setupBricks_brick (L : Level) (hL : L.Inv) (w h : ℚ) (r c : Nat) (hr : r < 8)
    (hc : c < 14) :
    ∃ b, (L.setupBricks w h).m_bricks[14 * r + c]? = some b ∧
      b.m_scoreValue = L.m_gridState r c ∧ b.m_active = decide (L.m_gridState r c ≠ 0) ∧
      b.m_rect = { x := (L.calculateGridDimensions w h).m_gridStartX + 78 * (c : ℚ)
                   y := (L.calculateGridDimensions w h).m_gridStartY + 28 * (7 - (r : ℚ))
                   width := 75, height := 25 } := by
  have hj : 14 * r + c < 112 := by omega
  have hjL : 14 * r + c < L.m_bricks.length := by rw [hL.length]; exact hj
  have e := setupBricks_getElem? L w h hL.length (14 * r + c) hj
  have hdiv : (14 * r + c) / 14 = r := by omega
  have hmod : (14 * r + c) % 14 = c := by omega
  rw [List.getElem?_eq_getElem hjL, hdiv, hmod] at e
  simp only [Option.map_some'] at e
  refine ⟨_, e, rfl, rfl, ?_⟩
  have hw := hL.bricks _ (List.getElem_mem hjL)
  have hcast : ((Config.GRID_ROWS - 1 - r : Nat) : ℚ) = 7 - (r : ℚ) := by
    have e7 : Config.GRID_ROWS - 1 - r = 7 - r := rfl
    rw [e7, Nat.cast_sub (Nat.le_of_lt_succ hr)]
    norm_num
  simp only [Level.brickForCell, Brick.init, hcast, hw.2.2.1, hw.2.2.2]
  simp only [Level.calculateGridDimensions, Config.BRICK_WIDTH, Config.BRICK_HEIGHT,
    Config.BRICK_SPACING]
  norm_num
  constructor <;> ring

/-- C21: selection mapping. Let the level have the geometry `calculateGridDimensions`
computes for a viewport, either directly or through `setupBricks`. For every logical cell
(r, c) with r < 8 and c < 14, a pointer strictly inside the rectangle of the cell, x in
(startX + 78 c, startX + 78 c + 75) and y in (startY + 28 (7 - r), startY + 28 (7 - r) + 25),
makes `handleEditorLeftClickSelection` set the selection to exactly (r, c); a pointer
outside the bounding box of the grid, of size 1089 x 221, leaves the selection at (-1, -1);
and the rectangle of the cell is the one `setupBricks` gives brick 14 r + c. -/
theorem Level.handleEditorLeftClickSelection_maps (L0 : Level) (hL0 : Reachable L0) (w h : ℚ)
    (L : Level) (hL : L = L0.calculateGridDimensions w h ∨ L = L0.setupBricks w h) (x y : ℚ) :
    (∀ r c : Nat, r < 8 → c < 14 →
        L.m_gridStartX + 78 * (c : ℚ) < x → x < L.m_gridStartX + 78 * (c : ℚ) + 75 →
        L.m_gridStartY + 28 * (7 - (r : ℚ)) < y → y < L.m_gridStartY + 28 * (7 - (r : ℚ)) + 25 →
        (L.handleEditorLeftClickSelection x y).2.m_editorSelectedRow = (r : Int) ∧
        (L.handleEditorLeftClickSelection x y).2.m_editorSelectedCol = (c : Int)) ∧
      (x < L.m_gridStartX ∨ x > L.m_gridStartX + 1089 ∨
          y < L.m_gridStartY ∨ y > L.m_gridStartY + 221 →
        (L.handleEditorLeftClickSelection x y).2.m_editorSelectedRow = -1 ∧
        (L.handleEditorLeftClickSelection x y).2.m_editorSelectedCol = -1) ∧
      (∀ r c : Nat, r < 8 → c < 14 →
        ∃ b, (L0.setupBricks w h).m_bricks[14 * r + c]? = some b ∧
          b.m_rect = { x := L.m_gridStartX + 78 * (c : ℚ)
                       y := L.m_gridStartY + 28 * (7 - (r : ℚ)), width := 75, height := 25 }) := by
  have hgeo : L.m_gridStartX = (L0.calculateGridDimensions w h).m_gridStartX ∧
      L.m_gridStartY = (L0.calculateGridDimensions w h).m_gridStartY ∧
      L.m_gridTotalWidth = 1089 ∧ L.m_gridTotalHeight = 221 := by
    rcases hL with rfl | rfl
    · exact ⟨rfl, rfl, calculateGridDimensions_total L0 w h⟩
    · exact setupBricks_geometry L0 w h hL0.inv.length
  refine ⟨?_, ?_, ?_⟩
  · intro r c hr hc hx1 hx2 hy1 hy2
    have hs := Level.select_inside L hgeo.2.2.1 hgeo.2.2.2 x y r c hr hc hx1 hx2 hy1 hy2
    simp only [Level.selection, Prod.mk.injEq] at hs
    exact hs
  · intro hout
    have hs := Level.select_outside L x y (by rw [hgeo.2.2.1, hgeo.2.2.2]; exact hout)
    simp only [Level.selection, Prod.mk.injEq] at hs
    exact hs
  · intro r c hr hc
    obtain ⟨b, hb, _, _, hrect⟩ := setupBricks_brick L0 hL0.inv w h r c hr hc
    exact ⟨b, hb, by rw [hrect, hgeo.1, hgeo.2.1]⟩

theorem Level.handleEditorLeftClickSelection_maps_witness :
    ((editorLevel.handleEditorLeftClickSelection 140 690).2.m_editorSelectedRow = 7 ∧
        (editorLevel.handleEditorLeftClickSelection 140 690).2.m_editorSelectedCol = 0) ∧
      ((editorLevel.handleEditorLeftClickSelection 50 690).2.m_editorSelectedRow = -1 ∧
        (editorLevel.handleEditorLeftClickSelection 50 690).2.m_editorSelectedCol = -1) := by
  have h := Level.handleEditorLeftClickSelection_maps Level.new Reachable.new 1289 1000
    editorLevel (Or.inl rfl)
  have hs := calculateGridDimensions_start Level.new 1289 1000
  have hx : editorLevel.m_gridStartX = 100 := by
    unfold editorLevel; rw [hs.1]; norm_num
  have hy : editorLevel.m_gridStartY = 679 := by
    unfold editorLevel; rw [hs.2]; norm_num
  constructor
  · exact (h 140 690).1 7 0 (by decide) (by decide) (by rw [hx]; norm_num) (by rw [hx]; norm_num)
      (by rw [hy]; norm_num) (by rw [hy]; norm_num)
  · exact (h 50 690).2.1 (Or.inl (by rw [hx]; norm_num))

/-- C22: for every prior selection state and every pointer position,
`handleEditorLeftClickSelection` returns 1 if and only if the (row, col) selection after the
call differs from the selection before the call, and returns 0 otherwise. -/
theorem Level.handleEditorLeftClickSelection_returns (L : Level) (x y : ℚ) :
    ((L.handleEditorLeftClickSelection x y).1 = 1 ↔
        ((L.handleEditorLeftClickSelection x y).2.m_editorSelectedRow,
          (L.handleEditorLeftClickSelection x y).2.m_editorSelectedCol) ≠
          (L.m_editorSelectedRow, L.m_editorSelectedCol)) ∧
      ((L.handleEditorLeftClickSelection x y).1 = 0 ↔
        ((L.handleEditorLeftClickSelection x y).2.m_editorSelectedRow,
          (L.handleEditorLeftClickSelection x y).2.m_editorSelectedCol) =
          (L.m_editorSelectedRow, L.m_editorSelectedCol)) := by
  rcases Level.select_cases L x y with ⟨h1, h2⟩ | ⟨h1, h2⟩
  · simp only [Level.selection] at h2
    rw [h1]
    exact ⟨⟨fun _ => h2, fun _ => rfl⟩, ⟨fun h => absurd h (by decide), fun h => absurd h h2⟩⟩
  · rw [h1, h2]
    exact ⟨⟨fun h => absurd h (by decide), fun h => absurd rfl h⟩, ⟨fun _ => rfl, fun _ => rfl⟩⟩

theorem Level.handleEditorLeftClickSelection_returns_witness :
    (editorLevel.handleEditorLeftClickSelection 140 690).1 = 1 ∧
      (editorLevel.handleEditorLeftClickSelection 50 690).1 = 0 := by
  have hm := Level.select_inside editorLevel (calculateGridDimensions_total _ _ _).1
    (calculateGridDimensions_total _ _ _).2 140 690 7 0 (by decide) (by decide)
    (by rw [show editorLevel.m_gridStartX = (1289 - 1089) / 2 from
          (calculateGridDimensions_start _ _ _).1]; norm_num)
    (by rw [show editorLevel.m_gridStartX = (1289 - 1089) / 2 from
          (calculateGridDimensions_start _ _ _).1]; norm_num)
    (by rw [show editorLevel.m_gridStartY = max (1000 * (9 / 10) - 221) (1000 * (1 / 4)) from
          (calculateGridDimensions_start _ _ _).2]; norm_num)
    (by rw [show editorLevel.m_gridStartY = max (1000 * (9 / 10) - 221) (1000 * (1 / 4)) from
          (calculateGridDimensions_start _ _ _).2]; norm_num)
  have ho := Level.select_outside editorLevel 50 690 (Or.inl (by
    rw [show editorLevel.m_gridStartX = (1289 - 1089) / 2 from
      (calculateGridDimensions_start _ _ _).1]; norm_num))
  constructor
  · apply (Level.handleEditorLeftClickSelection_returns editorLevel 140 690).1.2
    simp only [Level.selection, Prod.mk.injEq] at hm
    rw [hm.1, hm.2]
    decide
  · apply (Level.handleEditorLeftClickSelection_returns editorLevel 50 690).2.2
    simp only [Level.selection, Prod.mk.injEq] at ho
    rw [ho.1, ho.2]
    rfl

/-! ## The editor: placing and clearing -/

theorem Grid.set_self (g : Grid) (r c : Nat) (v : Int) : g.set r c v r c = v := by
  simp [Grid.set]

theorem Grid.set_other (g : Grid) (r c : Nat) (v : Int) (r1 c1 : Nat)
    (h : ¬ (r1 = r ∧ c1 = c)) : g.set r c v r1 c1 = g r1 c1 := by
  simp [Grid.set, h]

theorem Level.hasEditorSelection_of_cell (L : Level) (r c : Nat) (hr : r < 8) (hc : c < 14)
    (hrow : L.m_editorSelectedRow = (r : Int)) (hcol : L.m_editorSelectedCol = (c : Int)) :
    L.hasEditorSelection = true := by
  simp only [Level.hasEditorSelection, hrow, hcol, Config.GRID_ROWS, Config.GRID_COLS,
    Bool.and_eq_true, decide_eq_true_eq]
  omega

theorem Level.place_of_selection (L : Level) (isShiftDown : Bool)
    (h : L.hasEditorSelection = true) :
    L.handleEditorRightClickPlace isShiftDown =
      (true,
        { L with
          m_gridState :=
            (L.m_gridState.set L.m_editorSelectedRow.toNat L.m_editorSelectedCol.toNat
              (if isShiftDown then Config.SCORE_INDESTRUCTIBLE
               else if L.m_editorSelectedRow < 2 then Config.SCORE_RED
               else if L.m_editorSelectedRow < 4 then Config.SCORE_ORANGE
               else if L.m_editorSelectedRow < 6 then Config.SCORE_GREEN
               else Config.SCORE_YELLOW)) }) := by
  unfold Level.handleEditorRightClickPlace
  simp only [h, Bool.not_true, Bool.false_eq_true, if_false]

theorem Level.place_of_no_selection (L : Level) (isShiftDown : Bool)
    (h : L.hasEditorSelection = false) : L.handleEditorRightClickPlace isShiftDown = (false, L) := by
  unfold Level.handleEditorRightClickPlace
  simp only [h, Bool.not_false, if_true]

theorem Level.clear_of_selection (L : Level) (h : L.hasEditorSelection = true) :
    L.clearSelectedBrick =
      { L with m_gridState :=
        L.m_gridState.set L.m_editorSelectedRow.toNat L.m_editorSelectedCol.toNat 0 } := by
  unfold Level.clearSelectedBrick
  simp only [h, if_true]

theorem Level.clear_of_no_selection (L : Level) (h : L.hasEditorSelection = false) :
    L.clearSelectedBrick = L := by
  unfold Level.clearSelectedBrick
  simp only [h, Bool.false_eq_true, if_false]

/-- C23: `handleEditorRightClickPlace` returns false and changes nothing when no cell is
selected; when cell (r, c) is selected it returns true and sets `grid[r][c]` to -1 if the
indestructible flag is set and otherwise to the tier score of row r (7 for rows 0-1, 5 for
2-3, 3 for 4-5, 1 for 6-7), which is the value the default layout `load` generates for a
file that does not open puts at (r, c). -/
theorem Level.handleEditorRightClickPlace_spec (L : Level) (isShiftDown : Bool) :
    (L.hasEditorSelection = false → L.handleEditorRightClickPlace isShiftDown = (false, L)) ∧
      (∀ r c : Nat, r < 8 → c < 14 →
        L.m_editorSelectedRow = (r : Int) → L.m_editorSelectedCol = (c : Int) →
        (L.handleEditorRightClickPlace isShiftDown).1 = true ∧
        (L.handleEditorRightClickPlace isShiftDown).2.m_gridState r c =
          (if isShiftDown then -1
           else if r < 2 then 7 else if r < 4 then 5 else if r < 6 then 3 else 1) ∧
        ∀ (L0 : Level) (fs : FileSystem) (filename : String), fs.contents filename = none →
          (L0.load fs filename).2.1.m_gridState r c =
            (if r < 2 then 7 else if r < 4 then 5 else if r < 6 then 3 else 1)) := by
  refine ⟨Level.place_of_no_selection L isShiftDown, ?_⟩
  intro r c hr hc hrow hcol
  have hsel := Level.hasEditorSelection_of_cell L r c hr hc hrow hcol
  rw [Level.place_of_selection L isShiftDown hsel]
  refine ⟨rfl, ?_, ?_⟩
  · simp only [hrow, hcol, Int.toNat_ofNat, Grid.set_self, Config.SCORE_INDESTRUCTIBLE,
      Config.SCORE_RED, Config.SCORE_ORANGE, Config.SCORE_GREEN, Config.SCORE_YELLOW]
    have e2 : ((r : Int) < 2) ↔ r < 2 := by omega
    have e4 : ((r : Int) < 4) ↔ r < 4 := by omega
    have e6 : ((r : Int) < 6) ↔ r < 6 := by omega
    simp only [e2, e4, e6]
  · intro L0 fs filename hmissing
    rw [Level.load_level_of_none L0 fs filename hmissing]
    exact defaultLayout_cells L0.m_gridState r c hr hc

theorem Level.handleEditorRightClickPlace_spec_witness :
    ((editorLevel.handleEditorLeftClickSelection 140 690).2.handleEditorRightClickPlace false).1
        = true ∧
      ((editorLevel.handleEditorLeftClickSelection 140 690).2.handleEditorRightClickPlace
        false).2.m_gridState 7 0 = 1 ∧
      Level.new.handleEditorRightClickPlace true = (false, Level.new) := by
  have hm := Level.select_inside editorLevel (calculateGridDimensions_total _ _ _).1
    (calculateGridDimensions_total _ _ _).2 140 690 7 0 (by decide) (by decide)
    (by rw [show editorLevel.m_gridStartX = (1289 - 1089) / 2 from
          (calculateGridDimensions_start _ _ _).1]; norm_num)
    (by rw [show editorLevel.m_gridStartX = (1289 - 1089) / 2 from
          (calculateGridDimensions_start _ _ _).1]; norm_num)
    (by rw [show editorLevel.m_gridStartY = max (1000 * (9 / 10) - 221) (1000 * (1 / 4)) from
          (calculateGridDimensions_start _ _ _).2]; norm_num)
    (by rw [show editorLevel.m_gridStartY = max (1000 * (9 / 10) - 221) (1000 * (1 / 4)) from
          (calculateGridDimensions_start _ _ _).2]; norm_num)
  simp only [Level.selection, Prod.mk.injEq] at hm
  have h := (Level.handleEditorRightClickPlace_spec
    (editorLevel.handleEditorLeftClickSelection 140 690).2 false).2 7 0 (by decide) (by decide)
    hm.1 hm.2
  exact ⟨h.1, h.2.1, (Level.handleEditorRightClickPlace_spec Level.new true).1 rfl⟩

/-- C24: the editor mutators never touch play state. `handleEditorLeftClickSelection`,
`handleEditorRightClickPlace` and `clearSelectedBrick` leave every brick and the
active-brick counter unchanged; place and clear leave the selection unchanged and change no
grid cell other than the one at the current selection, where clear writes 0; and select
changes no grid cell. -/
theorem Level.editor_frame (L : Level) (x y : ℚ) (isShiftDown : Bool) :
    ((L.handleEditorLeftClickSelection x y).2.m_bricks = L.m_bricks ∧
        (L.handleEditorLeftClickSelection x y).2.m_activeBrickCount = L.m_activeBrickCount ∧
        (L.handleEditorLeftClickSelection x y).2.m_gridState = L.m_gridState) ∧
      ((L.handleEditorRightClickPlace isShiftDown).2.m_bricks = L.m_bricks ∧
        (L.handleEditorRightClickPlace isShiftDown).2.m_activeBrickCount =
          L.m_activeBrickCount ∧
        (L.handleEditorRightClickPlace isShiftDown).2.m_editorSelectedRow =
          L.m_editorSelectedRow ∧
        (L.handleEditorRightClickPlace isShiftDown).2.m_editorSelectedCol =
          L.m_editorSelectedCol ∧
        ∀ r c : Nat, ¬ ((r : Int) = L.m_editorSelectedRow ∧ (c : Int) = L.m_editorSelectedCol) →
          (L.handleEditorRightClickPlace isShiftDown).2.m_gridState r c = L.m_gridState r c) ∧
      (L.clearSelectedBrick.m_bricks = L.m_bricks ∧
        L.clearSelectedBrick.m_activeBrickCount = L.m_activeBrickCount ∧
        L.clearSelectedBrick.m_editorSelectedRow = L.m_editorSelectedRow ∧
        L.clearSelectedBrick.m_editorSelectedCol = L.m_editorSelectedCol ∧
        (∀ r c : Nat, ¬ ((r : Int) = L.m_editorSelectedRow ∧ (c : Int) = L.m_editorSelectedCol) →
          L.clearSelectedBrick.m_gridState r c = L.m_gridState r c) ∧
        (∀ r c : Nat, r < 8 → c < 14 →
          L.m_editorSelectedRow = (r : Int) → L.m_editorSelectedCol = (c : Int) →
          L.clearSelectedBrick.m_gridState r c = 0)) := by
  have hother : ∀ r c : Nat,
      ¬ ((r : Int) = L.m_editorSelectedRow ∧ (c : Int) = L.m_editorSelectedCol) →
      L.hasEditorSelection = true →
      ¬ (r = L.m_editorSelectedRow.toNat ∧ c = L.m_editorSelectedCol.toNat) := by
    intro r c hne hsel hrc
    simp only [Level.hasEditorSelection, Bool.and_eq_true, decide_eq_true_eq] at hsel
    apply hne
    omega
  refine ⟨Level.select_frame L x y, ?_, ?_⟩
  · cases hsel : L.hasEditorSelection with
    | false =>
      rw [Level.place_of_no_selection L isShiftDown hsel]
      exact ⟨rfl, rfl, rfl, rfl, fun _ _ _ => rfl⟩
    | true =>
      rw [Level.place_of_selection L isShiftDown hsel]
      refine ⟨rfl, rfl, rfl, rfl, ?_⟩
      intro r c hne
      exact Grid.set_other _ _ _ _ r c (hother r c hne hsel)
  · cases hsel : L.hasEditorSelection with
    | false =>
      rw [Level.clear_of_no_selection L hsel]
      refine ⟨rfl, rfl, rfl, rfl, fun _ _ _ => rfl, ?_⟩
      intro r c hr hc hrow hcol
      rw [Level.hasEditorSelection_of_cell L r c hr hc hrow hcol] at hsel
      exact absurd hsel (by decide)
    | true =>
      rw [Level.clear_of_selection L hsel]
      refine ⟨rfl, rfl, rfl, rfl, ?_, ?_⟩
      · intro r c hne
        exact Grid.set_other _ _ _ _ r c (hother r c hne hsel)
      · intro r c _ _ hrow hcol
        simp only [hrow, hcol, Int.toNat_ofNat, Grid.set_self]

theorem Level.editor_frame_witness :
    (sampleLevel.handleEditorLeftClickSelection 140 690).2.m_bricks = sampleLevel.m_bricks ∧
      (sampleLevel.handleEditorRightClickPlace true).2.m_activeBrickCount =
        sampleLevel.m_activeBrickCount ∧
      sampleLevel.clearSelectedBrick.m_bricks = sampleLevel.m_bricks :=
  ⟨(Level.editor_frame sampleLevel 140 690 true).1.1,
    (Level.editor_frame sampleLevel 140 690 true).2.1.2.1,
    (Level.editor_frame sampleLevel 140 690 true).2.2.1⟩

/-! ## Invalid scores, brick states and the bricks of `setupBricks` -/

theorem Brick.setScoreValue_invalid (b : Brick) (score : Int)
    (h : validScoreCode score = false) : b.setScoreValue score = b := by
  simp only [validScoreCode, Bool.or_eq_false_iff, decide_eq_false_iff_not] at h
  unfold Brick.setScoreValue
  simp [h.1.1.1.1.1, h.1.1.1.1.2, h.1.1.1.2, h.1.1.2, h.1.2, h.2]

theorem Level.setGridState_of_invalid (L : Level) (row col scoreValue : Int)
    (hrow : 0 ≤ row ∧ row < 8) (hcol : 0 ≤ col ∧ col < 14)
    (h : validScoreCode scoreValue = false) :
    L.setGridState row col scoreValue =
      { L with m_gridState := L.m_gridState.set row.toNat col.toNat 0 } := by
  have hin : row ≥ 0 ∧ row < (Config.GRID_ROWS : Int) ∧ col ≥ 0 ∧ col < (Config.GRID_COLS : Int) :=
    ⟨hrow.1, hrow.2, hcol.1, hcol.2⟩
  unfold Level.setGridState
  rw [if_pos hin]
  simp only [h, Bool.false_eq_true, if_false]

/-- C25 as stated fails: in the reachable level whose cell (7, 0) holds the code 1, the call
`setGridState(7, 0, 2)` with the invalid score 2 does not leave the grid as it was, it
writes 0 into cell (7, 0). -/
theorem Level.setGridState_invalid_zeroes :
    Reachable yellowCornerLevel ∧ validScoreCode 2 = false ∧
      yellowCornerLevel.m_gridState 7 0 = 1 ∧
      (yellowCornerLevel.setGridState 7 0 2).m_gridState 7 0 = 0 ∧
      (yellowCornerLevel.setGridState 7 0 2).m_gridState ≠ yellowCornerLevel.m_gridState := by
  have h1 : yellowCornerLevel.m_gridState 7 0 = 1 := by
    simp [yellowCornerLevel, Level.setGridState, Config.GRID_ROWS, Config.GRID_COLS,
      validScoreCode, Config.SCORE_YELLOW, Grid.set]
  have h0 : (yellowCornerLevel.setGridState 7 0 2).m_gridState 7 0 = 0 := by
    rw [Level.setGridState_of_invalid _ 7 0 2 (by decide) (by decide) (by decide)]
    simp [Grid.set]
  refine ⟨Reachable.setGridState _ 7 0 1 Reachable.new, by decide, h1, h0, ?_⟩
  intro he
  have := congrFun (congrFun he 7) 0
  rw [h0, h1] at this
  exact absurd this (by decide)

/-- C25 (amended): for every in-range (row, col) and every score value outside
0, -1, 1, 3, 5, 7, `Level::setGridState(row, col, score)` sets cell (row, col) to 0 and leaves
every other cell, the bricks, the counter and the selection as they were, so that the grid
is unchanged exactly when the cell held 0 already; `Brick::setScoreValue` with such a score
leaves the brick unchanged. -/
theorem Level.setGridState_invalid (L : Level) (row col scoreValue : Int)
    (hrow : 0 ≤ row ∧ row < 8) (hcol : 0 ≤ col ∧ col < 14)
    (hinvalid : validScoreCode scoreValue = false) :
    (L.setGridState row col scoreValue).m_gridState row.toNat col.toNat = 0 ∧
      (∀ r c : Nat, ¬ (r = row.toNat ∧ c = col.toNat) →
        (L.setGridState row col scoreValue).m_gridState r c = L.m_gridState r c) ∧
      ((L.setGridState row col scoreValue).m_gridState = L.m_gridState ↔
        L.m_gridState row.toNat col.toNat = 0) ∧
      (L.setGridState row col scoreValue).m_bricks = L.m_bricks ∧
      (L.setGridState row col scoreValue).m_activeBrickCount = L.m_activeBrickCount ∧
      (L.setGridState row col scoreValue).m_editorSelectedRow = L.m_editorSelectedRow ∧
      (L.setGridState row col scoreValue).m_editorSelectedCol = L.m_editorSelectedCol ∧
      ∀ b : Brick, b.setScoreValue scoreValue = b := by
  rw [Level.setGridState_of_invalid L row col scoreValue hrow hcol hinvalid]
  refine ⟨Grid.set_self _ _ _ _, fun r c hne => Grid.set_other _ _ _ _ r c hne, ?_, rfl, rfl,
    rfl, rfl, fun b => Brick.setScoreValue_invalid b scoreValue hinvalid⟩
  constructor
  · intro he
    have := congrFun (congrFun he row.toNat) col.toNat
    simp only [Grid.set_self] at this
    exact this.symm
  · intro h0
    funext r c
    by_cases hrc : r = row.toNat ∧ c = col.toNat
    · obtain ⟨rfl, rfl⟩ := hrc
      simp only [Grid.set_self]
      exact h0.symm
    · exact Grid.set_other _ _ _ _ r c hrc

theorem Level.setGridState_invalid_witness :
    (yellowCornerLevel.setGridState 7 0 2).m_gridState 7 0 = 0 ∧
      (yellowCornerLevel.setGridState 7 0 2).m_gridState 6 0 = yellowCornerLevel.m_gridState 6 0 :=
  ⟨(Level.setGridState_invalid yellowCornerLevel 7 0 2 (by decide) (by decide) (by decide)).1,
    (Level.setGridState_invalid yellowCornerLevel 7 0 2 (by decide) (by decide)
      (by decide)).2.1 6 0 (by decide)⟩

/-- C26: every brick obtained through the `Brick` operations (default construction, `init`,
`hit`, `setActive`, `setScoreValue`, with any arguments) has its active flag equal to
(score value != 0): a brick with score 0 is not active and a brick carrying the
indestructible score -1 is active. -/
theorem Brick.active_iff_score (b : Brick) (h : b.IsReachable) :
    b.m_active = decide (b.m_scoreValue ≠ 0) ∧ (b.m_scoreValue = 0 → b.m_active = false) ∧
      (b.m_scoreValue = Config.SCORE_INDESTRUCTIBLE → b.m_active = true) := by
  have key : b.m_active = decide (b.m_scoreValue ≠ 0) := by
    induction h with
    | new => rfl
    | init b x y v _ _ => rfl
    | hit b _ ih =>
      unfold Brick.hit
      split_ifs <;> first | exact ih | rfl
    | setActive b active indestructible _ ih =>
      unfold Brick.setActive
      split_ifs <;> first | exact ih | rfl
    | setScoreValue b score _ ih =>
      unfold Brick.setScoreValue
      simp only []
      split_ifs <;> first | exact ih | rfl
  refine ⟨key, ?_, ?_⟩
  · intro h0
    rw [key, h0]
    rfl
  · intro h1
    rw [key, h1]
    rfl

theorem Brick.active_iff_score_witness :
    (Brick.new.init 0 0 (-1)).hit.2.m_active = true ∧
      (Brick.new.init 0 0 5).hit.2.m_active = false :=
  ⟨(Brick.active_iff_score _ (Brick.IsReachable.hit _
        (Brick.IsReachable.init _ 0 0 (-1) Brick.IsReachable.new))).2.2 (by decide),
    (Brick.active_iff_score _ (Brick.IsReachable.hit _
        (Brick.IsReachable.init _ 0 0 5 Brick.IsReachable.new))).2.1 (by decide)⟩

/-- C27: after `Level::setupBricks(W, H)` on a reachable level, for every logical cell
(r, c) the brick at index 14 r + c has the score value `grid[r][c]`, is active exactly when
`grid[r][c] != 0`, and has its rectangle at x = gridStartX + 78 c, y = gridStartY +
28 (7 - r) with size 75 x 25, where gridStartX = (W - 1089) / 2 and gridStartY =
max(0.9 H - 221, 0.25 H); the grid codes are unchanged. -/
theorem Level.setupBricks_spec (L : Level) (hL : Reachable L) (w h : ℚ) :
    (∀ r c : Nat, r < 8 → c < 14 →
        ∃ b, (L.setupBricks w h).m_bricks[14 * r + c]? = some b ∧
          b.m_scoreValue = L.m_gridState r c ∧
          (b.m_active = true ↔ L.m_gridState r c ≠ 0) ∧
          b.m_rect = { x := (w - 1089) / 2 + 78 * (c : ℚ)
                       y := max (h * (9 / 10) - 221) (h * (1 / 4)) + 28 * (7 - (r : ℚ))
                       width := 75, height := 25 }) ∧
      (L.setupBricks w h).m_gridState = L.m_gridState ∧
      (L.setupBricks w h).m_gridStartX = (w - 1089) / 2 ∧
      (L.setupBricks w h).m_gridStartY = max (h * (9 / 10) - 221) (h * (1 / 4)) := by
  have hs := calculateGridDimensions_start L w h
  have hg := setupBricks_geometry L w h hL.inv.length
  refine ⟨?_, setupBricks_gridState L w h hL.inv.length, by rw [hg.1, hs.1], by rw [hg.2.1, hs.2]⟩
  intro r c hr hc
  obtain ⟨b, hb, hscore, hact, hrect⟩ := setupBricks_brick L hL.inv w h r c hr hc
  refine ⟨b, hb, hscore, ?_, by rw [hrect, hs.1, hs.2]⟩
  rw [hact]
  simp

theorem Level.setupBricks_spec_witness :
    ∃ b, oneBrickLevel.m_bricks[14 * 7 + 0]? = some b ∧
      b.m_scoreValue = (Level.new.setGridState 7 0 1).m_gridState 7 0 ∧
      b.m_rect = { x := (1289 - 1089) / 2 + 78 * ((0 : Nat) : ℚ)
                   y := max (1000 * (9 / 10) - 221) (1000 * (1 / 4)) + 28 * (7 - ((7 : Nat) : ℚ))
                   width := 75, height := 25 } := by
  obtain ⟨b, hb, hs, _, hr⟩ := (Level.setupBricks_spec (Level.new.setGridState 7 0 1)
    (Reachable.setGridState _ 7 0 1 Reachable.new) 1289 1000).1 7 0 (by decide) (by decide)
  exact ⟨b, hb, hs, hr⟩

/-! ## `load` on a token that is not a number -/

theorem endsToken_append (s rest : List Char) (hs : ∀ d ∈ s.head?, Char.isDigit d = false)
    (hrest : EndsToken rest) : EndsToken (s ++ rest) := by
  cases s with
  | nil => exact hrest
  | cons a t =>
    intro d hd
    exact hs d (by simpa using hd)

theorem splitSign_of_no_sign (c : Char) (t : List Char) (hm : c ≠ '-') (hp : c ≠ '+') :
    splitSign (c :: t) = (false, c :: t) := by
  unfold splitSign
  split
  · next u heq => simp at heq; exact absurd heq.1 hm
  · next u heq => simp at heq; exact absurd heq.1 hp
  · rfl

/-- Extraction on a token that is not a number fails. -/
theorem extractInt_nonNumeric (ws t rest : List Char) (hws : IsWhitespace ws)
    (ht : IsNonNumeric t) (hrest : EndsToken rest) :
    (IStream.extractInt { buf := ws ++ (t ++ rest), failbit := false }).1 = none := by
  obtain ⟨c, s, rfl, hsp, hdig, hsign⟩ := ht
  have hdrop : (ws ++ (c :: s ++ rest)).dropWhile isSpace = c :: (s ++ rest) := by
    rw [dropWhile_append_of_all isSpace ws _ hws]
    simp [List.dropWhile_cons, hsp]
  have htake : ((splitSign (c :: (s ++ rest))).2).takeWhile Char.isDigit = [] := by
    by_cases hm : c = '-'
    · subst hm
      exact takeWhile_isDigit_of_endsToken _ (endsToken_append s rest (hsign (Or.inl rfl)) hrest)
    · by_cases hp : c = '+'
      · subst hp
        exact takeWhile_isDigit_of_endsToken _ (endsToken_append s rest (hsign (Or.inr rfl)) hrest)
      · rw [splitSign_of_no_sign c _ hm hp]
        simp [List.takeWhile_cons, hdig]
  unfold IStream.extractInt
  simp only [Bool.false_eq_true, if_false, hdrop, htake, if_true]

/-- What `load` does with an openable file whose first `k < 112` tokens are valid codes and
whose next token is not a number. -/
theorem Level.load_nonNumeric (L : Level) (fs : FileSystem) (filename : String)
    (text : List Char) (k : Nat) (ws tok : Nat → List Char) (v : Nat → Int)
    (bad rest : List Char) (hopen : fs.contents filename = some text) (hk : k < 112)
    (htext : text = tokensFrom ws tok 0 k ++ (ws k ++ (bad ++ rest)))
    (hsp : ∀ i, i ≤ k → IsWhitespace (ws i)) (hsep : ∀ i, 0 < i → i ≤ k → ws i ≠ [])
    (hrest : rest = [] ∨ ∃ c t, rest = c :: t ∧ isSpace c = true)
    (hlit : ∀ i, i < k → IsIntLiteral (tok i) (v i))
    (hvalid : ∀ i, i < k → validScoreCode (v i) = true) (hbad : IsNonNumeric bad) :
    (∀ r c, r < 8 → c < 14 →
      (L.load fs filename).2.1.m_gridState r c = if 14 * r + c < k then v (14 * r + c) else 0) ∧
    (L.load fs filename).1 = false := by
  have htail : 0 < k → (ws k ++ (bad ++ rest) = [] ∨
      ∃ c t, ws k ++ (bad ++ rest) = c :: t ∧ isSpace c = true) := by
    intro h0
    right
    cases hw : ws k with
    | nil => exact absurd hw (hsep k h0 (le_refl k))
    | cons a t =>
      exact ⟨a, t ++ (bad ++ rest), by simp, hsp k (le_refl k) a (by rw [hw]; simp)⟩
  obtain ⟨hcells, hret⟩ := Level.load_token_text L fs filename text k ws tok
    (ws k ++ (bad ++ rest)) v hopen
    { text_eq := htext
      ws_space := fun i hi => hsp i (le_of_lt hi)
      ws_sep := fun i h0 hi => hsep i h0 (le_of_lt hi)
      tail_sep := htail }
    (le_of_lt hk) hlit (fun i hi => validScoreCode_range (v i) (hvalid i hi))
    (fun _ => extractInt_nonNumeric (ws k) bad rest (hsp k (le_refl k)) hbad
      (endsToken_of_space rest hrest))
  constructor
  · intro r c hr hc
    rw [hcells r c hr hc]
    by_cases hlt : 14 * r + c < k
    · simp [hlt, coerceCode, hvalid _ hlt]
    · simp [hlt]
  · cases hb : (L.load fs filename).1 with
    | false => rfl
    | true =>
      have := (hret.1 hb).1
      omega

theorem spaceSeparator_space (i : Nat) : IsWhitespace (spaceSeparator i) := by
  intro c hc
  unfold spaceSeparator at hc
  split_ifs at hc
  · simp at hc
  · simp only [List.mem_singleton] at hc
    subst hc
    decide

theorem spaceSeparator_ne (i : Nat) (hi : 0 < i) : spaceSeparator i ≠ [] := by
  unfold spaceSeparator
  rw [if_neg (by omega)]
  simp

theorem malformedText_eq :
    malformedText =
      tokensFrom spaceSeparator malformedToken 0 1 ++
        (spaceSeparator 1 ++ (['x'] ++ malformedRest)) := by
  unfold malformedText malformedRest
  rw [tokensFrom_succ, tokensFrom_succ, tokensFrom_succ]
  simp [tokensFrom, malformedToken]

theorem malformedRest_space :
    malformedRest = [] ∨ ∃ c t, malformedRest = c :: t ∧ isSpace c = true := by
  right
  unfold malformedRest
  rw [tokensFrom_succ]
  exact ⟨' ', ['7'] ++ tokensFrom spaceSeparator malformedToken 3 109, rfl, by decide⟩

theorem isNonNumeric_x : IsNonNumeric ['x'] :=
  ⟨'x', [], rfl, by decide, by decide,
    fun h => by rcases h with h | h <;> exact absurd h (by decide)⟩

theorem isIntLiteral_seven : IsIntLiteral ['7'] 7 :=
  ⟨['7'], by decide, by decide, Or.inl ⟨rfl, by decide⟩⟩

theorem malformedToken_literal (i : Nat) (hi : i < 1) :
    IsIntLiteral (malformedToken i) ((fun _ => (7 : Int)) i) := by
  have h0 : i = 0 := by omega
  subst h0
  exact isIntLiteral_seven

/-! ## The codes of the grid -/

theorem Level.processBrickHit_gridState (L : Level) (i : Int) :
    (L.processBrickHit i).2.m_gridState = L.m_gridState := by
  unfold Level.processBrickHit
  split_ifs
  · rfl
  · cases L.m_bricks[i.toNat]? with
    | none => rfl
    | some brick =>
      simp only []
      split_ifs <;> rfl

theorem validScoreCode_cases (v : Int) (h : validScoreCode v = true) :
    v = 0 ∨ v = -1 ∨ v = 1 ∨ v = 3 ∨ v = 5 ∨ v = 7 := by
  simp only [validScoreCode, Config.SCORE_INDESTRUCTIBLE, Config.SCORE_YELLOW,
    Config.SCORE_GREEN, Config.SCORE_ORANGE, Config.SCORE_RED, Bool.or_eq_true,
    decide_eq_true_eq] at h
  omega

/-- C29: in every level state reachable from a freshly constructed `Level` by any sequence
of its public operations (`load` of any file content, `handleEditorRightClickPlace`,
`clearSelectedBrick`, `setGridState` with any arguments, `setupBricks`, `processBrickHit`,
and also `calculateGridDimensions`, `checkCollisions`, `handleEditorLeftClickSelection`),
every cell of the grid holds one of the six codes 0, -1, 1, 3, 5, 7; `processBrickHit` and
`setupBricks` never change a grid cell. -/
theorem Level.grid_holds_codes (L : Level) (hL : Reachable L) :
    (∀ r c : Nat, L.m_gridState r c = 0 ∨ L.m_gridState r c = -1 ∨ L.m_gridState r c = 1 ∨
        L.m_gridState r c = 3 ∨ L.m_gridState r c = 5 ∨ L.m_gridState r c = 7) ∧
      (∀ brickIndex : Int, (L.processBrickHit brickIndex).2.m_gridState = L.m_gridState) ∧
      (∀ w h : ℚ, (L.setupBricks w h).m_gridState = L.m_gridState) :=
  ⟨fun r c => validScoreCode_cases _ (hL.inv.grid r c),
    fun i => Level.processBrickHit_gridState L i,
    fun w h => setupBricks_gridState L w h hL.inv.length⟩

theorem Level.grid_holds_codes_witness :
    (oneBrickLevel.m_gridState 7 0 = 0 ∨ oneBrickLevel.m_gridState 7 0 = -1 ∨
        oneBrickLevel.m_gridState 7 0 = 1 ∨ oneBrickLevel.m_gridState 7 0 = 3 ∨
        oneBrickLevel.m_gridState 7 0 = 5 ∨ oneBrickLevel.m_gridState 7 0 = 7) ∧
      (oneBrickLevel.processBrickHit 98).2.m_gridState = oneBrickLevel.m_gridState :=
  ⟨(Level.grid_holds_codes oneBrickLevel oneBrickLevel_reachable).1 7 0,
    (Level.grid_holds_codes oneBrickLevel oneBrickLevel_reachable).2.1 98⟩

/-! ## A pending impact at the position of the ball -/

/-- The test against `windowHeight` when it flips nothing. -/
theorem Ball.boundTop_no_flip (b : Ball) (h : ℚ)
    (hn : ¬ (b.m_pos.y + b.m_radius > h ∧ b.m_velocity.y > 0)) :
    (b.boundTop h).m_velocity = b.m_velocity ∧
      (b.boundTop h).m_hasPendingCollision = b.m_hasPendingCollision ∧
      (b.boundTop h).m_pendingHitBrickIndex = b.m_pendingHitBrickIndex ∧
      (b.boundTop h).m_nextCollisionPos = b.m_nextCollisionPos ∧
      (b.boundTop h).m_pendingCollisionNormal = b.m_pendingCollisionNormal := by
  unfold Ball.boundTop
  simp only [Ball.clearPendingCollision]
  split_ifs with h1 h2
  · exact absurd ⟨h1, h2⟩ hn
  · exact ⟨rfl, rfl, rfl, rfl, rfl⟩
  · exact ⟨rfl, rfl, rfl, rfl, rfl⟩

/-- The tests against the edges when they flip nothing. -/
theorem Ball.boundSides_no_flip (b : Ball) (gridMinX gridMaxX : ℚ)
    (hl : ¬ (b.m_pos.x - b.m_radius < gridMinX ∧ b.m_velocity.x < 0))
    (hr : ¬ (¬ (b.m_pos.x - b.m_radius < gridMinX) ∧ b.m_pos.x + b.m_radius > gridMaxX ∧
      b.m_velocity.x > 0)) :
    (b.boundSides gridMinX gridMaxX).m_velocity = b.m_velocity ∧
      (b.boundSides gridMinX gridMaxX).m_hasPendingCollision = b.m_hasPendingCollision ∧
      (b.boundSides gridMinX gridMaxX).m_pendingHitBrickIndex = b.m_pendingHitBrickIndex ∧
      (b.boundSides gridMinX gridMaxX).m_nextCollisionPos = b.m_nextCollisionPos ∧
      (b.boundSides gridMinX gridMaxX).m_pendingCollisionNormal = b.m_pendingCollisionNormal := by
  unfold Ball.boundSides
  simp only [Ball.clearPendingCollision]
  split_ifs with h1 h2 h3 h4
  · exact absurd ⟨h1, h2⟩ hl
  · exact ⟨rfl, rfl, rfl, rfl, rfl⟩
  · exact absurd ⟨h1, h3, h4⟩ hr
  · exact ⟨rfl, rfl, rfl, rfl, rfl⟩
  · exact ⟨rfl, rfl, rfl, rfl, rfl⟩

/-- C30: if the impact position of a pending collision lies within 0.01 of the position of
the ball at the start of the step (squared distance at most 0.0001), then for every velocity
and every `dt`, `Ball::update` does not resolve it. It returns -1; unless a boundary flips a
velocity component, the velocity is unchanged (no brick reflection) and the pending
collision stays set with its record; and when no boundary is touched the ball is the ball
before the call moved by the full `velocity * dt`. -/
theorem Ball.update_near_impact (b : Ball) (dt w h gridMinX gridMaxX : ℚ)
    (hpending : b.m_hasPendingCollision = true) (hnear : b.targetLenSq ≤ 1 / 10000) :
    (b.update dt w h gridMinX gridMaxX).1 = -1 ∧
      (¬ b.BoundaryFlips dt h gridMinX gridMaxX →
        (b.update dt w h gridMinX gridMaxX).2.m_velocity = b.m_velocity ∧
        (b.update dt w h gridMinX gridMaxX).2.m_hasPendingCollision = true ∧
        (b.update dt w h gridMinX gridMaxX).2.m_pendingHitBrickIndex = b.m_pendingHitBrickIndex ∧
        (b.update dt w h gridMinX gridMaxX).2.m_nextCollisionPos = b.m_nextCollisionPos ∧
        (b.update dt w h gridMinX gridMaxX).2.m_pendingCollisionNormal =
          b.m_pendingCollisionNormal) ∧
      (TouchesNoBoundary
          { x := b.m_pos.x + b.m_velocity.x * dt, y := b.m_pos.y + b.m_velocity.y * dt }
          b.m_radius h gridMinX gridMaxX →
        (b.update dt w h gridMinX gridMaxX).2 =
          { b with m_pos := { x := b.m_pos.x + b.m_velocity.x * dt
                              y := b.m_pos.y + b.m_velocity.y * dt } }) := by
  have hm := Ball.moveAndResolve_of_unresolved b dt (fun hh => absurd hh.2 (not_lt.2 hnear))
  refine ⟨by rw [Ball.update_fst, hm], ?_, ?_⟩
  · intro hflip
    unfold Ball.BoundaryFlips at hflip
    rw [← Ball.moveAndResolve_radius b dt] at hflip
    simp only [not_or] at hflip
    obtain ⟨ht, hl, hr⟩ := hflip
    have h1 := Ball.boundTop_no_flip (b.moveAndResolve dt).2 h ht
    have h2 := Ball.boundSides_no_flip ((b.moveAndResolve dt).2.boundTop h) gridMinX gridMaxX
      (by rw [Ball.boundTop_pos_x, Ball.boundTop_radius, Ball.boundTop_velocity_x]; exact hl)
      (by rw [Ball.boundTop_pos_x, Ball.boundTop_radius, Ball.boundTop_velocity_x]; exact hr)
    rw [Ball.update_snd, h2.1, h2.2.1, h2.2.2.1, h2.2.2.2.1, h2.2.2.2.2, h1.1, h1.2.1, h1.2.2.1,
      h1.2.2.2.1, h1.2.2.2.2, hm]
    exact ⟨rfl, hpending, rfl, rfl, rfl⟩
  · intro hfree
    obtain ⟨hf1, hf2, hf3⟩ := hfree
    have hf1a : ¬ ((b.moveAndResolve dt).2.m_pos.y + (b.moveAndResolve dt).2.m_radius > h) := by
      rw [hm]; exact hf1
    have hf2a : ¬ ((b.moveAndResolve dt).2.m_pos.x - (b.moveAndResolve dt).2.m_radius <
        gridMinX) := by
      rw [hm]; exact hf2
    have hf3a : ¬ ((b.moveAndResolve dt).2.m_pos.x + (b.moveAndResolve dt).2.m_radius >
        gridMaxX) := by
      rw [hm]; exact hf3
    rw [Ball.update_snd, Ball.boundTop_of_free (b.moveAndResolve dt).2 h hf1a,
      Ball.boundSides_of_free (b.moveAndResolve dt).2 gridMinX gridMaxX hf2a hf3a, hm]

theorem Ball.update_near_impact_witness :
    (pendingTouchingBall.update (1 / 60) 1289 1000 100 1189).1 = -1 ∧
      (pendingTouchingBall.update (1 / 60) 1289 1000 100 1189).2 =
        { pendingTouchingBall with
          m_pos := { x := pendingTouchingBall.m_pos.x + pendingTouchingBall.m_velocity.x * (1 / 60)
                     y := pendingTouchingBall.m_pos.y +
                       pendingTouchingBall.m_velocity.y * (1 / 60) } } := by
  have h := Ball.update_near_impact pendingTouchingBall (1 / 60) 1289 1000 100 1189
    (by rw [pendingTouchingBall_eq])
    (by
      rw [pendingTouchingBall_eq]
      simp [Ball.targetLenSq, touchingBall, Ball.new])
  refine ⟨h.1, h.2.2 ?_⟩
  rw [pendingTouchingBall_eq]
  simp [TouchesNoBoundary, touchingBall, Ball.new, Config.BALL_RADIUS]
  norm_num

/-! ## The slab intervals of the scan against the motion of the ball -/

theorem scaled_le_iff_of_pos (x v s : ℚ) (hv : 0 < v) : x * (1 / v) ≤ s ↔ x ≤ v * s := by
  rw [mul_one_div, div_le_iff₀ hv, mul_comm]

theorem le_scaled_iff_of_pos (x v s : ℚ) (hv : 0 < v) : s ≤ x * (1 / v) ↔ v * s ≤ x := by
  rw [mul_one_div, le_div_iff₀ hv, mul_comm]

theorem scaled_le_iff_of_neg (x v s : ℚ) (hv : v < 0) : x * (1 / v) ≤ s ↔ v * s ≤ x := by
  rw [mul_one_div, div_le_iff_of_neg hv, mul_comm]

theorem le_scaled_iff_of_neg (x v s : ℚ) (hv : v < 0) : s ≤ x * (1 / v) ↔ x ≤ v * s := by
  rw [mul_one_div, le_div_iff_of_neg hv, mul_comm]

/-- For a moving component the interval the scan computes consists of exactly the times at
which the coordinate lies within the slab. -/
theorem slabTimes_moving (lo hi p v : ℚ) (hlohi : lo ≤ hi) (hv : |v| > 1 / 10000) :
    ∃ I : ℚ × ℚ, Level.slabTimes lo hi p v = some I ∧ I.1 ≤ I.2 ∧
      ∀ s : ℚ, (lo ≤ p + v * s ∧ p + v * s ≤ hi) ↔ (I.1 ≤ s ∧ s ≤ I.2) := by
  have hv0 : v ≠ 0 := by
    intro h0
    rw [h0, abs_zero] at hv
    norm_num at hv
  unfold Level.slabTimes
  rw [if_pos hv]
  simp only []
  rcases lt_or_gt_of_ne hv0 with hneg | hpos
  · have hinv : 1 / v < 0 := one_div_neg.2 hneg
    have hord : (hi - p) * (1 / v) ≤ (lo - p) * (1 / v) :=
      mul_le_mul_of_nonpos_right (by linarith) (le_of_lt hinv)
    have key : ∀ s : ℚ, (lo ≤ p + v * s ∧ p + v * s ≤ hi) ↔
        ((hi - p) * (1 / v) ≤ s ∧ s ≤ (lo - p) * (1 / v)) := by
      intro s
      rw [scaled_le_iff_of_neg _ _ _ hneg, le_scaled_iff_of_neg _ _ _ hneg]
      constructor
      · rintro ⟨h1, h2⟩
        exact ⟨by linarith, by linarith⟩
      · rintro ⟨h1, h2⟩
        exact ⟨by linarith, by linarith⟩
    by_cases hgt : (lo - p) * (1 / v) > (hi - p) * (1 / v)
    · rw [if_pos hgt]
      exact ⟨_, rfl, hord, key⟩
    · rw [if_neg hgt]
      have heq : (lo - p) * (1 / v) = (hi - p) * (1 / v) := le_antisymm (not_lt.1 hgt) hord
      refine ⟨_, rfl, le_of_eq heq, ?_⟩
      intro s
      rw [key s]
      simp only [heq]
  · have hinv : 0 < 1 / v := one_div_pos.2 hpos
    have hord : (lo - p) * (1 / v) ≤ (hi - p) * (1 / v) :=
      mul_le_mul_of_nonneg_right (by linarith) (le_of_lt hinv)
    rw [if_neg (not_lt.2 hord)]
    refine ⟨_, rfl, hord, ?_⟩
    intro s
    simp only []
    rw [scaled_le_iff_of_pos _ _ _ hpos, le_scaled_iff_of_pos _ _ _ hpos]
    constructor
    · rintro ⟨h1, h2⟩
      exact ⟨by linarith, by linarith⟩
    · rintro ⟨h1, h2⟩
      exact ⟨by linarith, by linarith⟩

/-- Two closed intervals with the same points, one of them not empty, are the same. -/
theorem interval_unique (I J : ℚ × ℚ) (hJ : J.1 ≤ J.2)
    (h : ∀ s : ℚ, (I.1 ≤ s ∧ s ≤ I.2) ↔ (J.1 ≤ s ∧ s ≤ J.2)) : I = J := by
  have h1 := (h J.1).2 ⟨le_refl _, hJ⟩
  have h2 := (h J.2).2 ⟨hJ, le_refl _⟩
  have h3 := (h I.1).1 ⟨le_refl _, le_trans h1.1 h1.2⟩
  have h4 := (h I.2).1 ⟨le_trans h1.1 h1.2, le_refl _⟩
  exact Prod.ext (le_antisymm h1.1 h3.1) (le_antisymm h4.2 h2.2)

/-- The interval the scan computes on an axis is the one the design describes, for a slab
that is not empty. -/
theorem slabTimes_iff_spec (lo hi p v : ℚ) (I : ℚ × ℚ) (hlohi : lo ≤ hi) :
    Level.slabTimes lo hi p v = some I ↔ SpecSlabInterval lo hi p v I := by
  unfold SpecSlabInterval
  by_cases hv : |v| > 1 / 10000
  · rw [if_pos hv]
    obtain ⟨J, hJ, hne, hspec⟩ := slabTimes_moving lo hi p v hlohi hv
    rw [hJ]
    constructor
    · intro h
      have e : J = I := Option.some.inj h
      rw [← e]
      exact hspec
    · intro h
      have e : I = J := interval_unique I J hne (fun s => (h s).symm.trans (hspec s))
      rw [e]
  · rw [if_neg hv]
    unfold Level.slabTimes
    rw [if_neg hv]
    by_cases hout : p < lo ∨ p > hi
    · rw [if_pos hout]
      constructor
      · intro h
        cases h
      · rintro ⟨⟨h1, h2⟩, _⟩
        rcases hout with h | h
        · exact absurd h1 (not_le.2 h)
        · exact absurd h2 (not_le.2 h)
    · rw [if_neg hout]
      simp only [not_or, not_lt] at hout
      constructor
      · intro h
        exact ⟨⟨hout.1, hout.2⟩, (Option.some.inj h).symm⟩
      · rintro ⟨_, h⟩
        rw [h]

/-- The valid hits of the scan are the valid hits the design describes, for a brick whose
expanded rectangle is not empty. -/
theorem validHit_iff_spec (ball : Ball) (b : Brick) (t : ℚ)
    (hw : 0 ≤ b.m_rect.width + 2 * ball.m_radius) (hh : 0 ≤ b.m_rect.height + 2 * ball.m_radius) :
    ValidHit ball b t ↔ SpecValidHit ball b t := by
  have hx : b.m_rect.x - ball.m_radius ≤ b.m_rect.x + b.m_rect.width + ball.m_radius := by
    linarith
  have hy : b.m_rect.y - ball.m_radius ≤ b.m_rect.y + b.m_rect.height + ball.m_radius := by
    linarith
  unfold ValidHit SpecValidHit entryExit
  constructor
  · rintro ⟨ha, tx, ty, he, hrest⟩
    refine ⟨ha, tx, ty, ?_, ?_, hrest⟩
    · apply (slabTimes_iff_spec _ _ _ _ tx hx).1
      cases h1 : Level.slabTimes (b.m_rect.x - ball.m_radius)
          (b.m_rect.x + b.m_rect.width + ball.m_radius) ball.m_pos.x ball.m_velocity.x with
      | none => rw [h1] at he; cases he
      | some px =>
        rw [h1] at he
        cases h2 : Level.slabTimes (b.m_rect.y - ball.m_radius)
            (b.m_rect.y + b.m_rect.height + ball.m_radius) ball.m_pos.y ball.m_velocity.y with
        | none => rw [h2] at he; cases he
        | some py =>
          rw [h2] at he
          simp only [Option.some.injEq, Prod.mk.injEq] at he
          rw [he.1]
    · apply (slabTimes_iff_spec _ _ _ _ ty hy).1
      cases h1 : Level.slabTimes (b.m_rect.x - ball.m_radius)
          (b.m_rect.x + b.m_rect.width + ball.m_radius) ball.m_pos.x ball.m_velocity.x with
      | none => rw [h1] at he; cases he
      | some px =>
        rw [h1] at he
        cases h2 : Level.slabTimes (b.m_rect.y - ball.m_radius)
            (b.m_rect.y + b.m_rect.height + ball.m_radius) ball.m_pos.y ball.m_velocity.y with
        | none => rw [h2] at he; cases he
        | some py =>
          rw [h2] at he
          simp only [Option.some.injEq, Prod.mk.injEq] at he
          rw [he.2]
  · rintro ⟨ha, tx, ty, h1, h2, hrest⟩
    refine ⟨ha, tx, ty, ?_, hrest⟩
    rw [(slabTimes_iff_spec _ _ _ _ tx hx).2 h1, (slabTimes_iff_spec _ _ _ _ ty hy).2 h2]

/-! ## The earliest hit -/

/-- C10, where the scan departs from the claim: for a ball at (110, 653) with velocity
(0, 16) and radius 10, the only active brick (number 98, at (100, 679), 75 x 25) of a
reachable level has a valid hit with entry time exactly 1: the intervals are [0, 1] on X
and [1, 61/16] on Y, so `tMin = tMax = 1`, which passes the validity test of the scan (it
rejects only `tMin > 1`). Yet `checkCollisions` reports nothing and leaves the ball as it
is, because a candidate is taken only when strictly earlier than the initial closest time
1. All the numbers are exact in single precision too. -/
theorem Level.checkCollisions_misses_hit_at_one :
    Reachable oneBrickLevel ∧ oneBrickLevel.m_bricks[98]? = some sampleBrick ∧
      entryExit grazingBall sampleBrick = some ((0, 1), (1, 61 / 16)) ∧
      ValidHit grazingBall sampleBrick 1 ∧ SpecValidHit grazingBall sampleBrick 1 ∧
      (oneBrickLevel.scan grazingBall).closestBrickIndex = -1 ∧
      (oneBrickLevel.checkCollisions grazingBall).2 = grazingBall := by
  have hv : ValidHit grazingBall sampleBrick 1 :=
    ⟨rfl, (0, 1), (1, 61 / 16), entryExit_grazingBall, by norm_num, by norm_num, by norm_num,
      le_refl _⟩
  refine ⟨oneBrickLevel_reachable, oneBrickLevel_brick, entryExit_grazingBall, hv, ?_, ?_, ?_⟩
  · exact (validHit_iff_spec grazingBall sampleBrick 1
      (by simp [grazingBall, sampleBrick, Ball.new, Config.BALL_RADIUS]; norm_num)
      (by simp [grazingBall, sampleBrick, Ball.new, Config.BALL_RADIUS]; norm_num)).1 hv
  · rw [scan_grazingBall]
    rfl
  · apply Level.checkCollisions_snd_of_none
    rw [scan_grazingBall]
    decide

theorem invalidCodeToken_literal (i : Nat) :
    IsIntLiteral (invalidCodeToken i) ((fun j => if j = 1 then (9 : Int) else 7) i) := by
  unfold invalidCodeToken
  by_cases h1 : i = 1
  · simp only [h1, if_true]
    exact ⟨['9'], by decide, by decide, Or.inl ⟨rfl, by decide⟩⟩
  · simp only [h1, if_false]
    exact isIntLiteral_seven

/-- C28, where `load` departs from the claim. The file `7 x 7 7 ... 7` consists of 112
whitespace-separated tokens, of which the second is not a number and all others are the
valid code 7. `load` sets the cell of the malformed token to 0 and returns false, as the
claim says, but it also leaves cell (0, 2) and the last cell (7, 13), which come after the
malformed token, at 0 instead of 7: the failed extraction leaves the stream in fail state
and every later extraction fails. On the file `7 9 7 7 ... 7`, whose second token is an
integer that is no code, the same loop coerces that cell alone: cell (0, 1) is 0 and the
cells after it hold 7. -/
theorem Level.load_garbles_rest :
    IsTokenText malformedText 112 spaceSeparator malformedToken [] ∧
      malformedToken 1 = ['x'] ∧ IsNonNumeric ['x'] ∧
      (∀ i, i < 112 → i ≠ 1 → malformedToken i = ['7']) ∧ IsIntLiteral ['7'] 7 ∧
      validScoreCode 7 = true ∧
      (Level.new.load malformedDisk "level.txt").1 = false ∧
      (Level.new.load malformedDisk "level.txt").2.1.m_gridState 0 0 = 7 ∧
      (Level.new.load malformedDisk "level.txt").2.1.m_gridState 0 1 = 0 ∧
      (Level.new.load malformedDisk "level.txt").2.1.m_gridState 0 2 = 0 ∧
      (Level.new.load malformedDisk "level.txt").2.1.m_gridState 0 2 ≠ 7 ∧
      (Level.new.load malformedDisk "level.txt").2.1.m_gridState 7 13 = 0 ∧
      (Level.new.load invalidCodeDisk "level.txt").1 = false ∧
      (Level.new.load invalidCodeDisk "level.txt").2.1.m_gridState 0 1 = 0 ∧
      (Level.new.load invalidCodeDisk "level.txt").2.1.m_gridState 0 2 = 7 ∧
      (Level.new.load invalidCodeDisk "level.txt").2.1.m_gridState 7 13 = 7 := by
  have hload := Level.load_nonNumeric Level.new malformedDisk "level.txt" malformedText 1
    spaceSeparator malformedToken (fun _ => 7) ['x'] malformedRest
    rfl (by decide) malformedText_eq (fun i _ => spaceSeparator_space i)
    (fun i hi _ => spaceSeparator_ne i hi) malformedRest_space malformedToken_literal
    (fun _ _ => rfl) isNonNumeric_x
  have hcell : ∀ r c, r < 8 → c < 14 → 1 ≤ 14 * r + c →
      (Level.new.load malformedDisk "level.txt").2.1.m_gridState r c = 0 := by
    intro r c hr hc hk
    rw [hload.1 r c hr hc, if_neg (by omega)]
  have hcell0 : (Level.new.load malformedDisk "level.txt").2.1.m_gridState 0 0 = 7 := by
    have := hload.1 0 0 (by decide) (by decide)
    simpa using this
  have hcell2 := hcell 0 2 (by decide) (by decide) (by decide)
  have hsib := Level.load_token_text Level.new invalidCodeDisk "level.txt" invalidCodeText 112
    spaceSeparator invalidCodeToken [] (fun j => if j = 1 then (9 : Int) else 7) rfl
    { text_eq := by unfold invalidCodeText; rw [List.append_nil]
      ws_space := fun i _ => spaceSeparator_space i
      ws_sep := fun i hi _ => spaceSeparator_ne i hi
      tail_sep := fun _ => Or.inl rfl }
    (le_refl _) (fun i _ => invalidCodeToken_literal i)
    (fun i _ => by
      by_cases h1 : i = 1
      · simp only [h1, if_true]
        decide
      · simp only [h1, if_false]
        decide)
    (fun h => absurd h (lt_irrefl _))
  have hret : (Level.new.load invalidCodeDisk "level.txt").1 = false := by
    cases hb : (Level.new.load invalidCodeDisk "level.txt").1 with
    | false => rfl
    | true =>
      have h9 := (hsib.2.1 hb).2 1 (by decide)
      simp only [if_true] at h9
      exact absurd h9 (by decide)
  refine ⟨?_, rfl, isNonNumeric_x, ?_, isIntLiteral_seven, by decide, hload.2, hcell0,
    hcell 0 1 (by decide) (by decide) (by decide), hcell2, by rw [hcell2]; decide,
    hcell 7 13 (by decide) (by decide) (by decide), hret, ?_, ?_, ?_⟩
  · exact
      { text_eq := by unfold malformedText; rw [List.append_nil]
        ws_space := fun i _ => spaceSeparator_space i
        ws_sep := fun i hi _ => spaceSeparator_ne i hi
        tail_sep := fun _ => Or.inl rfl }
  · intro i _ hi
    unfold malformedToken
    rw [if_neg hi]
  · have := hsib.1 0 1 (by decide) (by decide)
    simpa [coerceCode] using this
  · have := hsib.1 0 2 (by decide) (by decide)
    simpa [coerceCode] using this
  · have := hsib.1 7 13 (by decide) (by decide)
    simpa [coerceCode] using this

end Breakout
